import Mathlib

/-!
# Stride: interchain queries and interchain-account callbacks

A shallow embedding of the query lifecycle of `x/interchainquery/keeper`
(`keeper.go`, `msg_server.go`) with explicit state passing.

* The key-value store of the module is a pair of finite maps, one per key
  prefix (`Query` records and `DataPoint` records), each keyed by the record id.
* `sdk.Int` is `Int`; `int64` / `uint64` values are `Int` / `Nat` with explicit
  wrap-around where the source does machine arithmetic.
* The logger is not part of the state: a statement that only logs is a comment.
* Code of other packages (the IBC keeper, the commitment proofs, `cast`,
  `net/url`) is taken as a parameter of the keeper.
-/

namespace Stride
namespace Interchainquery

/-! ## Data model -/

abbrev Bytes := List UInt8

/-- Errors that travel through Go's `error` channel in this module. -/
inductive Error where
  /-- The sentinel `types.ErrSucceededNoDelete`, compared by identity. -/
  | ErrSucceededNoDelete
  /-- An error built by `fmt.Errorf`. -/
  | Errorf (msg : String)
  /-- An error built by `sdkerrors.Wrap(sdkerrors.ErrInvalidRequest, msg)`. -/
  | ErrInvalidRequest (msg : String)
  /-- An error returned by `cast.ToUint64E`. -/
  | ErrCast (msg : String)
  deriving DecidableEq, Repr

/-- The record `types.Query`. -/
structure Query where
  Id : String
  ConnectionId : String
  ChainId : String
  QueryType : String
  Request : Bytes
  Period : Int
  LastHeight : Int
  CallbackModule : String
  CallbackId : String
  Ttl : Nat
  Height : Int
  deriving DecidableEq, Repr

/-- The record `types.DataPoint`. -/
structure DataPoint where
  Id : String
  RemoteHeight : Int
  LocalHeight : Int
  Value : Bytes
  deriving DecidableEq, Repr

instance : Inhabited DataPoint := ⟨⟨"", 0, 0, []⟩⟩

/-- The part of `sdk.Context` that the module reads and cannot change. -/
structure Context where
  BlockHeight : Int
  deriving DecidableEq, Repr

/-- An emitted `sdk.Event` with one attribute: type, attribute key, attribute value. -/
abbrev Event := String × String × String

/-- The mutable state reachable through `sdk.Context`: the two prefix stores of
the module, the event manager, and the state `α` of the rest of the application
(which callbacks may change). -/
structure State (α : Type) where
  queries : String → Option Query
  datapoints : String → Option DataPoint
  events : List Event
  app : α

/-- The interface `types.QueryCallbacks`, as far as the keeper uses it. -/
structure QueryCallbacks (α : Type) where
  Has : String → Bool
  Call : Context → State α → String → Bytes → Query → State α × Option Error

/-! ## Collaborators outside this repository -/

structure ProofOp where
  OpType : String
  Key : Bytes
  Data : Bytes
  deriving DecidableEq, Repr

abbrev ProofOps := List ProofOp
abbrev MerkleProof := List Bytes
abbrev MerklePath := List String
abbrev ProofSpecs := List String

structure ConnectionEnd where
  ClientId : String
  deriving DecidableEq, Repr

/-- The value `clienttypes.Height`. -/
structure Height where
  RevisionNumber : Nat
  RevisionHeight : Nat
  deriving DecidableEq, Repr

structure ConsensusState where
  Root : Bytes
  deriving DecidableEq, Repr

/-- A client state is a Tendermint client state (with its proof specs) or not. -/
inductive ClientState where
  | tendermint (ProofSpecs : ProofSpecs)
  | other
  deriving DecidableEq, Repr

/-- The IBC keeper: lookups in the IBC stores of the current state. -/
structure IBCKeeper (α : Type) where
  GetConnection : State α → String → Option ConnectionEnd
  GetClientConsensusState : State α → String → Height → Option ConsensusState
  GetClientState : State α → String → Option ClientState

/-- Pure library functions of `ibc-go` and `net/url` used by response intake.
`VerifyMembership` and `VerifyNonMembership` return `none` for `nil` and
`some msg` for an error. -/
structure Lib where
  ParseChainID : String → Nat
  PathEscape : Bytes → String
  ConvertProofs : ProofOps → Option MerkleProof
  VerifyMembership : MerkleProof → ProofSpecs → Bytes → MerklePath → Bytes → Option String
  VerifyNonMembership : MerkleProof → ProofSpecs → Bytes → MerklePath → Option String

/-- The keeper: the callback registry (a Go map, here an association list read
by first match), the IBC keeper, and the functions it is linked against.
`GenerateQueryHash` is the fingerprint function of this package; its digest is
taken as a parameter. -/
structure Keeper (α : Type) where
  callbacks : List (String × QueryCallbacks α)
  IBCKeeper : IBCKeeper α
  lib : Lib
  GenerateQueryHash : String → String → String → Bytes → String → Int → String

/-! ## Machine integers -/

/-- Reduction of an integer to the `int64` value with the same low 64 bits. -/
def wrapInt64 (x : Int) : Int := (x + 2 ^ 63) % 2 ^ 64 - 2 ^ 63

/-- The range of `int64`. -/
def inInt64 (x : Int) : Prop := -(2 ^ 63) ≤ x ∧ x < 2 ^ 63

instance (x : Int) : Decidable (inInt64 x) := by unfold inInt64; infer_instance

/-- The call `cast.ToInt64E` at a `uint64`: the Go conversion `int64(s)`, no error. -/
def ToInt64E (x : Nat) : Int := wrapInt64 (x % 2 ^ 64)

/-- The call `cast.ToUint64E` at an `int64`: negative values are an error. -/
def ToUint64E (x : Int) : Except Error Nat :=
  if x < 0 then .error (.ErrCast "unable to cast negative value") else .ok x.toNat

/-! ## Strings -/

/-- Splitting a list of characters at every occurrence of `sep`. -/
def splitChars (sep : Char) : List Char → List (List Char)
  | [] => [[]]
  | c :: cs =>
    if c = sep then [] :: splitChars sep cs
    else
      match splitChars sep cs with
      | [] => [[c]]
      | w :: ws => (c :: w) :: ws

/-- The call `strings.Split(s, "/")`. -/
def Split (s : String) : List String := (splitChars '/' s.data).map String.mk

/-- The call `strings.HasPrefix(s, p)`. -/
def HasPrefix (s p : String) : Bool := p.data.isPrefixOf s.data

/-! ## The query store and the data point store -/

/-- Modelled from the spec: `GetQuery` of the query store ("persists pending Query
records keyed by fingerprint; supports get/set/iterate/delete"). -/
def GetQuery {α : Type} (s : State α) (id : String) : Option Query := s.queries id

/-- Modelled from the spec: `SetQuery` of the query store; the record is stored
under its own `Id`. -/
def SetQuery {α : Type} (s : State α) (q : Query) : State α :=
  { s with queries := fun id => if id = q.Id then some q else s.queries id }

/-- Modelled from the spec: `DeleteQuery` of the query store. -/
def DeleteQuery {α : Type} (s : State α) (id : String) : State α :=
  { s with queries := fun i => if i = id then none else s.queries i }

/-- Modelled from the spec: `NewQuery` builds the record of a first request; "Invariant:
`id = Fingerprint(connection_id, chain_id, query_type, request, callback_module,
height)`". A new query has never been issued, so its `last_height` is zero. -/
def NewQuery {α : Type} (k : Keeper α) (module connection_id chain_id query_type : String)
    (request : Bytes) (period : Int) (callback_id : String) (ttl : Nat) (height : Int) : Query :=
  { Id := k.GenerateQueryHash connection_id chain_id query_type request module height
    ConnectionId := connection_id
    ChainId := chain_id
    QueryType := query_type
    Request := request
    Period := period
    LastHeight := 0
    CallbackModule := module
    CallbackId := callback_id
    Ttl := ttl
    Height := height }

/-- The method `Keeper.SetDatapointForId`: always returns `nil`. -/
def SetDatapointForId {α : Type} (ctx : Context) (s : State α) (id : String) (result : Bytes)
    (height : Int) : State α :=
  let mapping : DataPoint :=
    { Id := id, RemoteHeight := height, LocalHeight := ctx.BlockHeight, Value := result }
  { s with datapoints := fun i => if i = id then some mapping else s.datapoints i }

/-- The method `Keeper.GetDatapointForId`. -/
def GetDatapointForId {α : Type} (s : State α) (id : String) : Except Error DataPoint :=
  match s.datapoints id with
  | none => .error (.Errorf ("unable to find data for id " ++ id))
  | some mapping => .ok mapping

/-- The method `Keeper.DeleteDatapoint`. -/
def DeleteDatapoint {α : Type} (s : State α) (id : String) : State α :=
  { s with datapoints := fun i => if i = id then none else s.datapoints i }

/-- The method `Keeper.GetDatapoint`. -/
def GetDatapoint {α : Type} (k : Keeper α) (s : State α) (module connection_id chain_id
    query_type : String) (request : Bytes) (height : Int) : Except Error DataPoint :=
  let id := k.GenerateQueryHash connection_id chain_id query_type request module height
  GetDatapointForId s id

/-! ## Request submission -/

/-- The messages that the validation block of `MakeRequest` writes to the error
log. None of these checks returns. -/
def validationLog (connection_id chain_id : String) (height : Int) : List String :=
  (if connection_id = "" then
    ["[ICQ Validation Check] Failed! connection id cannot be empty"] else [])
  ++ (if !HasPrefix connection_id "connection" then
    ["[ICQ Validation Check] Failed! connection id must begin with 'connection'"] else [])
  ++ (if height ≠ 0 then
    ["[ICQ Validation Check] Failed! height for interchainquery must be 0 (we exclusively query at the latest height on the host zone)"] else [])
  ++ (if chain_id = "" then
    ["[ICQ Validation Check] Failed! chain_id cannot be empty"] else [])

/-- The method `Keeper.MakeRequest`. The result is the state after the call and the returned
error (`none` for `nil`). -/
def MakeRequest {α : Type} (k : Keeper α) (s : State α) (connection_id chain_id
    query_type : String) (request : Bytes) (period : Int) (module callback_id : String)
    (ttl : Nat) (height : Int) : State α × Option Error :=
  if height ≠ 0 then
    (s, some (.Errorf "ICQ query height must be 0! Found a query at non-zero height"))
  else
    -- the validation block only logs: see `validationLog`
    let key := k.GenerateQueryHash connection_id chain_id query_type request module height
    match GetQuery s key with
    | none =>
      if module ≠ "" then
        match k.callbacks.lookup module with
        | none =>
          (s, some (.ErrInvalidRequest "no callback handler registered for module"))
        | some handler =>
          if !handler.Has callback_id then
            (s, some (.ErrInvalidRequest "no callback handler registered for module"))
          else
            let newQuery := NewQuery k module connection_id chain_id query_type request
              period callback_id ttl height
            (SetQuery s newQuery, none)
      else
        let newQuery := NewQuery k module connection_id chain_id query_type request
          period callback_id ttl height
        (SetQuery s newQuery, none)
    | some existingQuery =>
      -- a re-request of an existing query resets the height to trigger immediately
      let existingQuery := { existingQuery with LastHeight := 0 }
      (SetQuery s existingQuery, none)

/-- The method `Keeper.GetDatapointOrRequest`. The result is the state after the call, the
returned data point (the zero value next to an error) and the returned error. -/
def GetDatapointOrRequest {α : Type} (k : Keeper α) (ctx : Context) (s : State α)
    (module connection_id chain_id query_type : String) (request : Bytes) (max_age : Nat)
    (height : Int) : State α × DataPoint × Option Error :=
  match GetDatapoint k s module connection_id chain_id query_type request height with
  | .error _ =>
    -- no datapoint
    match MakeRequest k s connection_id chain_id query_type request (-1) "" "" max_age height with
    | (s1, some err) => (s1, default, some err)
    | (s1, none) => (s1, default, some (.Errorf "no data; query submitted"))
  | .ok val =>
    let max_age_ := ToInt64E max_age
    if val.LocalHeight < wrapInt64 (ctx.BlockHeight - max_age_) then
      match MakeRequest k s connection_id chain_id query_type request (-1) "" "" max_age height with
      | (s1, some err) => (s1, default, some err)
      | (s1, none) => (s1, default, some (.Errorf "stale data; query submitted"))
    else
      (s, val, none)

/-! ## Response intake -/

/-- The message `types.MsgSubmitQueryResponse`, as far as the handler reads it. -/
structure MsgSubmitQueryResponse where
  QueryId : String
  Result : Bytes
  ProofOps : Option ProofOps
  Height : Int
  deriving DecidableEq, Repr

/-- How a call of the handler ends: it returns a response and `nil`, it returns an
error, or it raises a Go run-time panic. -/
inductive Outcome where
  | ok
  | error (e : Error)
  | panic (msg : String)
  deriving DecidableEq, Repr

/-- The keys of the registry map: every registered module name once. -/
def mapKeys {α : Type} (k : Keeper α) : List String := (k.callbacks.map Prod.fst).dedup

/-- The order of Go strings, `a <= b`: lexicographic in the characters. -/
def strLE (a b : String) : Prop := a.data ≤ b.data

instance : DecidableRel strLE := fun a b => inferInstanceAs (Decidable (a.data ≤ b.data))

/-- The call `sort.Strings(keys)`. -/
def sortStrings (keys : List String) : List String := keys.insertionSort strLE

/-- The proof block of `SubmitQueryResponse` (the body of
`if pathParts[len(pathParts)-1] == "key"`). The result is `some` outcome when the
handler ends there and `none` when it goes on to the callbacks. -/
def verifyProof {α : Type} (k : Keeper α) (s : State α) (q : Query)
    (msg : MsgSubmitQueryResponse) : Option Outcome :=
  let pathParts := Split q.QueryType
  if pathParts.getLast? = some "key" then
    match msg.ProofOps with
    | none => some (.error (.Errorf "unable to validate proof. No proof submitted"))
    | some proofOps =>
      -- `connection, _ := GetConnection(...)`: the zero value when not found
      let connection := (k.IBCKeeper.GetConnection s q.ConnectionId).getD ⟨""⟩
      match ToUint64E msg.Height with
      | .error err => some (.error err)
      | .ok msgHeight =>
        let height : Height := ⟨k.lib.ParseChainID q.ChainId, (msgHeight + 1) % 2 ^ 64⟩
        match k.IBCKeeper.GetClientConsensusState s connection.ClientId height with
        | none => some (.error (.Errorf "unable to fetch consensus state"))
        | some consensusState =>
          match k.IBCKeeper.GetClientState s connection.ClientId with
          | none => some (.error (.Errorf "unable to fetch client state"))
          | some clientState =>
            match pathParts.get? 1 with
            | none => some (.panic "index out of range [1]")
            | some substore =>
              let path : MerklePath := [substore, k.lib.PathEscape q.Request]
              -- a conversion error is only logged; the proof is then the zero value
              let merkleProof := (k.lib.ConvertProofs proofOps).getD []
              match clientState with
              | .other => some (.panic "invalid memory address or nil pointer dereference")
              | .tendermint specs =>
                if msg.Result.length ≠ 0 then
                  match k.lib.VerifyMembership merkleProof specs consensusState.Root path
                      msg.Result with
                  | some err => some (.error (.Errorf ("unable to verify proof: " ++ err)))
                  | none => none
                else
                  match k.lib.VerifyNonMembership merkleProof specs consensusState.Root path with
                  | some err => some (.error (.Errorf ("unable to verify proof: " ++ err)))
                  | none => none
  else none

/-- The state of the callback loop when it ends: the state reached, the flag
`noDelete`, the calls made (module name and returned error, in order), and the
error on which the loop returned, if any. -/
structure Dispatch (α : Type) where
  state : State α
  noDelete : Bool
  calls : List (String × Option Error)
  err : Option Error

/-- The callback loop of `SubmitQueryResponse` over the sorted keys. -/
def dispatch {α : Type} (k : Keeper α) (ctx : Context) (q : Query)
    (msg : MsgSubmitQueryResponse) : List String → State α → Bool → Dispatch α
  | [], s, noDelete => ⟨s, noDelete, [], none⟩
  | key :: keys, s, noDelete =>
    match k.callbacks.lookup key with
    | none => dispatch k ctx q msg keys s noDelete
    | some module =>
      if module.Has q.CallbackId then
        match module.Call ctx s q.CallbackId msg.Result q with
        | (s1, none) =>
          let d := dispatch k ctx q msg keys s1 noDelete
          { d with calls := (key, none) :: d.calls }
        | (s1, some err) =>
          if err = .ErrSucceededNoDelete then
            let d := dispatch k ctx q msg keys s1 true
            { d with calls := (key, some err) :: d.calls }
          else
            ⟨s1, noDelete, [(key, some err)], some err⟩
      else dispatch k ctx q msg keys s noDelete

/-- The callback block of `SubmitQueryResponse`: collect the keys of the
registry, sort them, and run the loop with `noDelete := false`. -/
def runCallbacks {α : Type} (k : Keeper α) (ctx : Context) (s : State α) (q : Query)
    (msg : MsgSubmitQueryResponse) : Dispatch α :=
  let keys := sortStrings (mapKeys k)
  dispatch k ctx q msg keys s false

/-- What a call of `SubmitQueryResponse` leaves: the state, the callbacks it
invoked, and how it ended. -/
structure Response (α : Type) where
  state : State α
  calls : List (String × Option Error)
  outcome : Outcome

/-- The state after the retention step of `SubmitQueryResponse`, entered with the
state `s` and the flag `noDelete` left by the callback loop. -/
def retain {α : Type} (ctx : Context) (q : Query) (msg : MsgSubmitQueryResponse)
    (s : State α) (noDelete : Bool) : State α :=
  -- don't store if ttl is 0
  let s1 := if q.Ttl > 0 then SetDatapointForId ctx s msg.QueryId msg.Result msg.Height else s
  let s2 :=
    if q.Period < 0 then
      if !noDelete then DeleteQuery s1 msg.QueryId else s1
    else SetQuery s1 q
  { s2 with events := s2.events ++ [("message", "module", "interchainquery")] }

/-- The handler `msgServer.SubmitQueryResponse`. -/
def SubmitQueryResponse {α : Type} (k : Keeper α) (ctx : Context) (s : State α)
    (msg : MsgSubmitQueryResponse) : Response α :=
  match GetQuery s msg.QueryId with
  | some q =>
    match verifyProof k s q msg with
    | some out => ⟨s, [], out⟩
    | none =>
      let d := runCallbacks k ctx s q msg
      match d.err with
      | some err => ⟨d.state, d.calls, .error err⟩
      | none => ⟨retain ctx q msg d.state d.noDelete, d.calls, .ok⟩
  | none =>
    -- "Ignoring duplicate query"
    ⟨s, [], .ok⟩

/-! ## Vocabulary of the statements -/

/-- The registered modules among `keys` that have a handler for the callback id
of `q`, in the order of `keys`. -/
def owners {α : Type} (k : Keeper α) (q : Query) (keys : List String) : List String :=
  keys.filter fun key =>
    match k.callbacks.lookup key with
    | some module => module.Has q.CallbackId
    | none => false

/-- The registered modules that have a handler for the callback id of `q`, in
the order in which `SubmitQueryResponse` walks the sorted keys. -/
def dispatchOrder {α : Type} (k : Keeper α) (q : Query) : List String :=
  owners k q (sortStrings (mapKeys k))

/-- The state reached from `s` when the handlers of the named modules run one
after the other, and nothing else happens. -/
def applyCalls {α : Type} (k : Keeper α) (ctx : Context) (q : Query)
    (msg : MsgSubmitQueryResponse) (names : List String) (s : State α) : State α :=
  names.foldl
    (fun st name =>
      match k.callbacks.lookup name with
      | some module => (module.Call ctx st q.CallbackId msg.Result q).1
      | none => st)
    s

/-- The client id that the proof block reads from the connection of `q`. -/
def clientIdOf {α : Type} (k : Keeper α) (s : State α) (q : Query) : String :=
  ((k.IBCKeeper.GetConnection s q.ConnectionId).getD ⟨""⟩).ClientId

/-- The height at which the proof block asks for the consensus state: the
revision of the chain id of `q` and the height of the response plus one. -/
def proofHeight {α : Type} (k : Keeper α) (q : Query) (msg : MsgSubmitQueryResponse) : Height :=
  ⟨k.lib.ParseChainID q.ChainId, (msg.Height.toNat + 1) % 2 ^ 64⟩

/-! ## Concrete collaborators for evaluation -/

/-- A stand-in for the digest: the fields in the order the fingerprint reads
them, the request bytes as characters, and a mark for the height. -/
def demoHash (connection_id chain_id query_type : String) (request : Bytes) (module : String)
    (height : Int) : String :=
  module ++ connection_id ++ chain_id ++ query_type ++ (if height = 0 then "0" else "h")
    ++ String.mk (request.map fun b => Char.ofNat b.toNat)

/-- An IBC keeper that knows one connection, one consensus state at revision
height 11 and one Tendermint client. -/
def demoIBC : IBCKeeper Nat where
  GetConnection := fun _ c => if c = "connection-0" then some ⟨"07-tendermint-0"⟩ else none
  GetClientConsensusState := fun _ c h =>
    if c = "07-tendermint-0" ∧ h = ⟨0, 11⟩ then some ⟨[1]⟩ else none
  GetClientState := fun _ c => if c = "07-tendermint-0" then some (.tendermint []) else none

/-- Library functions whose verifier accepts exactly the value `[7]` and no absence. -/
def demoLib : Lib where
  ParseChainID := fun _ => 0
  PathEscape := fun r => String.mk (r.map fun b => Char.ofNat b.toNat)
  ConvertProofs := fun _ => some []
  VerifyMembership := fun _ _ _ _ v => if v = [7] then none else some "invalid proof"
  VerifyNonMembership := fun _ _ _ _ => some "invalid proof"

/-- A keeper with the given registry and the concrete collaborators. -/
def demoKeeper (callbacks : List (String × QueryCallbacks Nat)) : Keeper Nat :=
  ⟨callbacks, demoIBC, demoLib, demoHash⟩

/-- The state with empty stores. -/
def emptyState : State Nat := ⟨fun _ => none, fun _ => none, [], 0⟩

/-- A query as a first request stores it: connection "connection-0", chain
"GAIA", request `[1]`, callback id "cb", no callback module. -/
def demoQuery (query_type : String) (period : Int) (ttl : Nat) : Query :=
  NewQuery (demoKeeper []) "" "connection-0" "GAIA" query_type [1] period "cb" ttl 0

/-- The state whose only record is the given query. -/
def demoState (q : Query) : State Nat := SetQuery emptyState q

/-- A handler set that owns "cb"; its handler adds one to the application state
and returns `nil`. -/
def cbBump : QueryCallbacks Nat :=
  ⟨fun id => id = "cb", fun _ st _ _ _ => ({ st with app := st.app + 1 }, none)⟩

/-- A handler set that owns "cb"; its handler returns the retain signal. -/
def cbRetain : QueryCallbacks Nat :=
  ⟨fun id => id = "cb", fun _ st _ _ _ => (st, some .ErrSucceededNoDelete)⟩

/-- A handler set that owns "cb"; its handler returns an ordinary error. -/
def cbFail : QueryCallbacks Nat :=
  ⟨fun id => id = "cb", fun _ st _ _ _ => (st, some (.Errorf "boom"))⟩

/-- The query store holds every record under the record's own id. -/
def KeyedById {α : Type} (s : State α) : Prop :=
  ∀ id q, s.queries id = some q → q.Id = id

/-! ## Registration -/

/-- A value passed to `SetCallbackHandler`: its method `RegisterCallbacks` returns
the handler set that is put into the registry. -/
structure CallbackHandler (α : Type) where
  RegisterCallbacks : QueryCallbacks α

/-- The method `Keeper.SetCallbackHandler`. The result is the keeper after the call
and the returned error. -/
def SetCallbackHandler {α : Type} (k : Keeper α) (module : String)
    (handler : CallbackHandler α) : Keeper α × Option Error :=
  match k.callbacks.lookup module with
  | some _ => (k, some (.Errorf ("callback handler already set for " ++ module)))
  | none => ({ k with callbacks := k.callbacks ++ [(module, handler.RegisterCallbacks)] }, none)

end Interchainquery

/-!
# Stakeibc: outbound transactions and their callbacks

A shallow embedding of `x/stakeibc/keeper` (`msg_server_submit_tx.go`,
`icacallbacks_delegate.go`, `icacallbacks_reinvest.go`). The stores of the
stakeibc, records and icacallbacks keepers are fields of one state; the
interchain-accounts controller and the IBC stores are the component `ica`.
-/

namespace Stakeibc

open Interchainquery (Bytes)

/-! ## Data model -/

/-- Errors returned by the stakeibc keeper. -/
inductive Error where
  /-- An error built by `sdkerrors.Wrapf(sdkerrors.ErrInvalidRequest, ...)`. -/
  | ErrInvalidRequest (msg : String)
  /-- An error built from `types.ErrValidatorDelegationChg`. -/
  | ErrValidatorDelegationChg (msg : String)
  /-- An error built from `types.ErrInvalidLengthEpochTracker`. -/
  | ErrInvalidLengthEpochTracker (msg : String)
  /-- An error built from `icatypes.ErrActiveChannelNotFound`. -/
  | ErrActiveChannelNotFound (msg : String)
  /-- An error built from `channeltypes.ErrChannelCapabilityNotFound`. -/
  | ErrChannelCapabilityNotFound (msg : String)
  /-- An error handed on from a collaborator (`GetChainID`, `NewControllerPortID`,
  `SerializeCosmosTx`, `SendTx`, `proto.Unmarshal`). -/
  | collaborator (msg : String)
  deriving DecidableEq, Repr

/-- How a call that can hit a Go run-time panic ends. -/
inductive Outcome where
  | ret (err : Option Error)
  | panic (msg : String)
  deriving DecidableEq, Repr

/-- The record `types.Validator`, as far as the callbacks use it. -/
structure Validator where
  Name : String
  Address : String
  DelegationAmt : Nat
  Weight : Nat
  deriving DecidableEq, Repr

/-- The record `types.HostZone`, as far as the callbacks use it. -/
structure HostZone where
  ChainId : String
  ConnectionId : String
  HostDenom : String
  Validators : List Validator
  StakedBal : Nat
  deriving DecidableEq, Repr

inductive DepositRecordStatus where
  | TRANSFER
  | STAKE
  deriving DecidableEq, Repr

inductive DepositRecordSource where
  | STRIDE
  | WITHDRAWAL_ICA
  deriving DecidableEq, Repr

/-- The record `recordstypes.DepositRecord`. -/
structure DepositRecord where
  Id : Nat
  Amount : Int
  Denom : String
  HostZoneId : String
  Status : DepositRecordStatus
  Source : DepositRecordSource
  DepositEpochNumber : Nat
  deriving DecidableEq, Repr

/-- The record `types.EpochTracker`; the three numbers are `uint64`. -/
structure EpochTracker where
  EpochIdentifier : String
  EpochNumber : Nat
  NextEpochStartTime : Nat
  Duration : Nat
  deriving DecidableEq, Repr

/-- The record `icacallbackstypes.CallbackData`. -/
structure CallbackData where
  CallbackKey : String
  PortId : String
  ChannelId : String
  Sequence : Nat
  CallbackId : String
  CallbackArgs : Bytes
  deriving DecidableEq, Repr

inductive ICAAccountType where
  | DELEGATION
  | FEE
  | WITHDRAWAL
  | REDEMPTION
  deriving DecidableEq, Repr

/-- The record `types.ICAAccount`. -/
structure ICAAccount where
  Address : String
  Target : ICAAccountType
  deriving DecidableEq, Repr

/-- A message `sdk.Msg`: type url and encoded value. -/
abbrev Msg := String × Bytes

/-- The value `icatypes.InterchainAccountPacketData`. -/
structure InterchainAccountPacketData where
  PacketType : String
  Data : Bytes
  deriving DecidableEq, Repr

/-- The packet `channeltypes.Packet`; the callbacks only log it. -/
structure Packet where
  Sequence : Nat
  SourcePort : String
  SourceChannel : String
  Data : Bytes
  deriving DecidableEq, Repr

structure MsgData where
  MsgType : String
  Data : Bytes
  deriving DecidableEq, Repr

/-- The value `sdk.TxMsgData`. -/
structure TxMsgData where
  Data : List MsgData
  deriving DecidableEq, Repr

structure SplitDelegation where
  Validator : String
  Amount : Nat
  deriving DecidableEq, Repr

/-- The callback arguments `types.DelegateCallback`. -/
structure DelegateCallbackArgs where
  HostZoneId : String
  DepositRecordId : Nat
  SplitDelegations : List SplitDelegation
  deriving DecidableEq, Repr

/-- The value `sdk.Coin`; the amount is an `sdk.Int`. -/
structure Coin where
  Denom : String
  Amount : Int
  deriving DecidableEq, Repr

/-- The callback arguments `types.ReinvestCallback`. -/
structure ReinvestCallbackArgs where
  ReinvestAmount : Coin
  HostZoneId : String
  deriving DecidableEq, Repr

/-- The state reachable through `sdk.Context`: the host zones, epoch trackers and
parameters of stakeibc, the deposit records of the records keeper, the callback
data of the icacallbacks keeper, and the state `ι` of the interchain-accounts
controller and IBC. -/
structure State (ι : Type) where
  hostZones : String → Option HostZone
  epochTrackers : String → Option EpochTracker
  params : String → Nat
  depositRecords : List DepositRecord
  depositRecordCount : Nat
  callbackData : String → Option CallbackData
  ica : ι

/-- The collaborators of the stakeibc keeper that are not part of this
development: the chain id of a connection, the naming functions of `types` and
`ibc-go`, the interchain-accounts controller, the capability keeper, and the
protobuf decoder of the callback arguments. `SendTx` returns the controller state
it leaves and the sequence or the error. -/
structure Keeper (ι : Type) where
  GetChainID : ι → String → Except Error String
  FormatICAAccountOwner : String → ICAAccountType → String
  NewControllerPortID : String → Except Error String
  GetActiveChannelID : ι → String → String → Option String
  ChannelCapabilityPath : String → String → String
  GetCapability : ι → String → Option String
  SerializeCosmosTx : List Msg → Except Error Bytes
  SendTx : ι → String → String → String → InterchainAccountPacketData → Nat → ι × Except Error Nat
  PacketID : String → String → Nat → String
  UnmarshalDelegate : Bytes → Except Error DelegateCallbackArgs
  UnmarshalReinvest : Bytes → Except Error ReinvestCallbackArgs

/-- The constant `epochstypes.STRIDE_EPOCH`. -/
def STRIDE_EPOCH : String := "stride_epoch"

/-- The parameter key `types.KeyBufferSize`. -/
def KeyBufferSize : String := "BufferSize"

/-! ## Stores -/

/-- Modelled from the spec: `GetHostZone`, the host zone stored under a chain id. -/
def GetHostZone {ι : Type} (s : State ι) (chainId : String) : Option HostZone :=
  s.hostZones chainId

/-- Modelled from the spec: `SetHostZone`; the host zone is stored under its chain id. -/
def SetHostZone {ι : Type} (s : State ι) (zone : HostZone) : State ι :=
  { s with hostZones := fun id => if id = zone.ChainId then some zone else s.hostZones id }

/-- Modelled from the spec: `GetEpochTracker`, the "record of a named recurring
time window's current boundary and duration". -/
def GetEpochTracker {ι : Type} (s : State ι) (epochType : String) : Option EpochTracker :=
  s.epochTrackers epochType

/-- Modelled from the spec: `GetParam`, the `uint64` stored for a parameter key. -/
def GetParam {ι : Type} (s : State ι) (key : String) : Nat := s.params key

/-- Modelled from the spec: `AppendDepositRecord` of the records keeper ("creates a
new deposit record"). The new record is added after the stored ones; it gets the
stored count as id and the count grows by one. -/
def AppendDepositRecord {ι : Type} (s : State ι) (record : DepositRecord) : State ι :=
  { s with
    depositRecords := s.depositRecords ++ [{ record with Id := s.depositRecordCount }]
    depositRecordCount := (s.depositRecordCount + 1) % 2 ^ 64 }

/-- Modelled from the spec: `RemoveDepositRecord` of the records keeper ("removes
the deposit record that funded it"). -/
def RemoveDepositRecord {ι : Type} (s : State ι) (id : Nat) : State ι :=
  { s with depositRecords := s.depositRecords.filter fun r => r.Id ≠ id }

/-- Modelled from the spec: `SetCallbackData` of the icacallbacks keeper ("persist
CallbackData keyed by (port, channel, sequence)"): stored under its key. -/
def SetCallbackData {ι : Type} (s : State ι) (callback : CallbackData) : State ι :=
  { s with callbackData := fun key =>
      if key = callback.CallbackKey then some callback else s.callbackData key }

/-- The walk of `AddDelegationToValidator` over the validators of a host zone. -/
def addDelegation (valAddr : String) (amt : Int) : List Validator → List Validator × Bool
  | [] => ([], false)
  | validator :: rest =>
    if validator.Address = valAddr then
      if 0 ≤ amt then
        ({ validator with DelegationAmt := (validator.DelegationAmt + amt.toNat) % 2 ^ 64 } :: rest,
          true)
      else if (-amt).toNat > validator.DelegationAmt then
        (validator :: rest, false)
      else
        ({ validator with DelegationAmt := validator.DelegationAmt - (-amt).toNat } :: rest, true)
    else
      ((validator :: (addDelegation valAddr amt rest).1), (addDelegation valAddr amt rest).2)

/-- Modelled from the spec: `AddDelegationToValidator` ("incrementing each
validator's tracked stake"): the first validator of the host zone with the given
address gets the amount added to its delegation; the call reports failure when the
host zone has no such validator. A negative amount, about which the spec is
silent, lowers the delegation and fails when it exceeds it. The validators are
shared with the caller's host zone, so the result carries the host zone as the
caller sees it afterwards. -/
def AddDelegationToValidator (hostZone : HostZone) (valAddr : String) (amt : Int) :
    HostZone × Bool :=
  ({ hostZone with Validators := (addDelegation valAddr amt hostZone.Validators).1 },
    (addDelegation valAddr amt hostZone.Validators).2)

/-! ## Parameters -/

/-- A value handed to a parameter validator as an empty interface: a `uint64` or
a value of another type. -/
inductive ParamValue where
  | uint64 (ival : Nat)
  | other
  deriving DecidableEq, Repr

/-- The validator `isPositive` of `types/params.go`; `none` stands for `nil`. -/
def isPositive (i : ParamValue) : Option String :=
  match i with
  | .other => some "parameter not accepted"
  | .uint64 ival =>
    if ival ≤ 0 then some "parameter must be positive"
    else none

/-! ## Outbound transactions -/

/-- The call `cast.ToUint64E` at a `uint64`: the value itself, no error. -/
def ToUint64E (x : Nat) : Except Error Nat := .ok x

/-- The method `Keeper.SubmitTxs`. The result is the state after the call, the
returned sequence and the returned error; `callbackArgs` is `none` for `nil`. -/
def SubmitTxs {ι : Type} (k : Keeper ι) (s : State ι) (connectionId : String)
    (msgs : List Msg) (account : ICAAccount) (timeoutTimestamp : Nat) (callbackId : String)
    (callbackArgs : Option Bytes) : State ι × Nat × Option Error :=
  match k.GetChainID s.ica connectionId with
  | .error err => (s, 0, some err)
  | .ok chainId =>
    let owner := k.FormatICAAccountOwner chainId account.Target
    match k.NewControllerPortID owner with
    | .error err => (s, 0, some err)
    | .ok portID =>
      match k.GetActiveChannelID s.ica connectionId portID with
      | none =>
        (s, 0, some (.ErrActiveChannelNotFound
          ("failed to retrieve active channel for port " ++ portID)))
      | some channelID =>
        match k.GetCapability s.ica (k.ChannelCapabilityPath portID channelID) with
        | none =>
          (s, 0, some (.ErrChannelCapabilityNotFound "module does not own channel capability"))
        | some chanCap =>
          match k.SerializeCosmosTx msgs with
          | .error err => (s, 0, some err)
          | .ok data =>
            let packetData : InterchainAccountPacketData := ⟨"EXECUTE_TX", data⟩
            match k.SendTx s.ica chanCap connectionId portID packetData timeoutTimestamp with
            | (ica1, .error err) => ({ s with ica := ica1 }, 0, some err)
            | (ica1, .ok sequence) =>
              let s1 := { s with ica := ica1 }
              -- Store the callback data
              match callbackArgs with
              | some args =>
                if callbackId ≠ "" then
                  let callback : CallbackData :=
                    { CallbackKey := k.PacketID portID channelID sequence
                      PortId := portID
                      ChannelId := channelID
                      Sequence := sequence
                      CallbackId := callbackId
                      CallbackArgs := args }
                  (SetCallbackData s1 callback, sequence, none)
                else (s1, sequence, none)
              | none => (s1, sequence, none)

/-- What the timeout block of `SubmitTxsEpoch` yields: the timeout handed to
`SubmitTxs`, a returned error, or a run-time panic. -/
inductive Timeout where
  | ok (timeoutNanosUint64 : Nat)
  | error (e : Error)
  | panic (msg : String)
  deriving DecidableEq, Repr

/-- The timeout block of `SubmitTxsEpoch`: the buffer, its check, the `uint64`
subtraction and the cast. -/
def epochTimeout (epochTracker : EpochTracker) (bufferSizeParam : Nat) : Timeout :=
  if bufferSizeParam = 0 then .panic "runtime error: integer divide by zero"
  else
    -- BUFFER by 5% of the epoch length
    let bufferSize := epochTracker.Duration / bufferSizeParam
    -- buffer size should not be negative or longer than the epoch duration
    if bufferSize > epochTracker.Duration then
      .error (.ErrInvalidRequest "Invalid buffer size")
    else
      let timeoutNanos := (epochTracker.NextEpochStartTime + 2 ^ 64 - bufferSize) % 2 ^ 64
      match ToUint64E timeoutNanos with
      | .error _ => .error (.ErrInvalidRequest "Failed to convert timeoutNanos to uint64")
      | .ok timeoutNanosUint64 => .ok timeoutNanosUint64

/-- The method `Keeper.SubmitTxsEpoch`. -/
def SubmitTxsEpoch {ι : Type} (k : Keeper ι) (s : State ι) (connectionId : String)
    (msgs : List Msg) (account : ICAAccount) (epochType : String) (callbackId : String)
    (callbackArgs : Option Bytes) : State ι × Nat × Outcome :=
  match GetEpochTracker s epochType with
  | none =>
    (s, 0, .ret (some (.ErrInvalidRequest ("Failed to get epoch tracker for " ++ epochType))))
  | some epochTracker =>
    let bufferSizeParam := GetParam s KeyBufferSize
    match epochTimeout epochTracker bufferSizeParam with
    | .panic msg => (s, 0, .panic msg)
    | .error err => (s, 0, .ret (some err))
    | .ok timeoutNanosUint64 =>
      match SubmitTxs k s connectionId msgs account timeoutNanosUint64 callbackId callbackArgs with
      | (s1, _, some err) => (s1, 0, .ret (some err))
      | (s1, sequence, none) => (s1, sequence, .ret none)

/-! ## Callbacks -/

/-- The method `Keeper.UnmarshalDelegateCallbackArgs`. -/
def UnmarshalDelegateCallbackArgs {ι : Type} (k : Keeper ι) (delegateCallback : Bytes) :
    Except Error DelegateCallbackArgs :=
  k.UnmarshalDelegate delegateCallback

/-- The method `Keeper.UnmarshalReinvestCallbackArgs`. -/
def UnmarshalReinvestCallbackArgs {ι : Type} (k : Keeper ι) (reinvestCallback : Bytes) :
    Except Error ReinvestCallbackArgs :=
  k.UnmarshalReinvest reinvestCallback

/-- The loop of `DelegateCallback` over the split delegations. The result is the
state, the local host zone and the error on which the loop returned, if any. -/
def delegateSplits {ι : Type} :
    List SplitDelegation → State ι → HostZone → State ι × HostZone × Option Error
  | [], s, zone => (s, zone, none)
  | splitDelegation :: rest, s, zone =>
    -- `cast.ToInt64E` at a `uint64` returns no error
    let amount := Interchainquery.ToInt64E splitDelegation.Amount
    let validator := splitDelegation.Validator
    let zone1 := { zone with StakedBal := (zone.StakedBal + splitDelegation.Amount) % 2 ^ 64 }
    match AddDelegationToValidator zone1 validator amount with
    | (zone2, false) =>
      (s, zone2, some (.ErrValidatorDelegationChg "Failed to add delegation to validator"))
    | (zone2, true) => delegateSplits rest (SetHostZone s zone2) zone2

/-- The callback `DelegateCallback`; `txMsgData` is `none` for `nil`. -/
def DelegateCallback {ι : Type} (k : Keeper ι) (s : State ι) (_packet : Packet)
    (txMsgData : Option TxMsgData) (args : Bytes) : State ι × Option Error :=
  match txMsgData with
  | none =>
    -- timeout
    (s, none)
  | some data =>
    if data.Data.length = 0 then
      -- failed transaction
      (s, none)
    else
      -- deserialize the args
      match UnmarshalDelegateCallbackArgs k args with
      | .error err => (s, some err)
      | .ok delegateCallback =>
        let hostZone := delegateCallback.HostZoneId
        match GetHostZone s hostZone with
        | none => (s, some (.ErrInvalidRequest ("host zone not found " ++ hostZone)))
        | some zone =>
          let recordId := delegateCallback.DepositRecordId
          match delegateSplits delegateCallback.SplitDelegations s zone with
          | (s1, _, some err) => (s1, some err)
          | (s1, _, none) => (RemoveDepositRecord s1 recordId, none)

/-- The callback `ReinvestCallback`. The method `Int64` of `sdk.Int` panics outside
the `int64` range; `cast.ToInt64E` at an `int64` returns no error. -/
def ReinvestCallback {ι : Type} (k : Keeper ι) (s : State ι) (_packet : Packet)
    (txMsgData : Option TxMsgData) (args : Bytes) : State ι × Outcome :=
  match txMsgData with
  | none => (s, .ret none)
  | some data =>
    if data.Data.length = 0 then (s, .ret none)
    else
      -- deserialize the args
      match UnmarshalReinvestCallbackArgs k args with
      | .error err => (s, .ret (some err))
      | .ok reinvestCallback =>
        let amount := reinvestCallback.ReinvestAmount.Amount
        let denom := reinvestCallback.ReinvestAmount.Denom
        -- fetch epoch
        match GetEpochTracker s STRIDE_EPOCH with
        | none =>
          (s, .ret (some (.ErrInvalidLengthEpochTracker
            ("no number for epoch (" ++ STRIDE_EPOCH ++ ")"))))
        | some strideEpochTracker =>
          let epochNumber := strideEpochTracker.EpochNumber
          -- create a new record so that rewards are reinvested
          if Interchainquery.inInt64 amount then
            let amt := amount
            let record : DepositRecord :=
              { Id := 0
                Amount := amt
                Denom := denom
                HostZoneId := reinvestCallback.HostZoneId
                Status := .STAKE
                Source := .WITHDRAWAL_ICA
                DepositEpochNumber := epochNumber }
            (AppendDepositRecord s record, .ret none)
          else (s, .panic "Int64() out of bound")

/-! ## Vocabulary of the statements -/

/-- The tracked delegation of the validator with the given address: that of the
first validator of the host zone with this address. -/
def delegationOf (zone : HostZone) (valAddr : String) : Option Nat :=
  (zone.Validators.find? fun v => v.Address = valAddr).map fun v => v.DelegationAmt

/-- The sum of the amounts of all split delegations. -/
def totalAmount (splits : List SplitDelegation) : Nat :=
  (splits.map fun sd => sd.Amount).sum

/-- The sum of the amounts of the split delegations that name the given validator. -/
def delegatedTo (splits : List SplitDelegation) (valAddr : String) : Nat :=
  totalAmount (splits.filter fun sd => sd.Validator = valAddr)

/-- The split delegations fit the host zone: every amount is below `2^63`, every
named validator is a validator of the host zone, and neither the staked balance
nor any validator's delegation leaves the `uint64` range when they are added. -/
def SplitsFit (splits : List SplitDelegation) (zone : HostZone) : Prop :=
  (∀ sd ∈ splits, sd.Amount < 2 ^ 63 ∧ sd.Validator ∈ zone.Validators.map fun v => v.Address)
  ∧ zone.StakedBal + totalAmount splits < 2 ^ 64
  ∧ ∀ v ∈ zone.Validators, v.DelegationAmt + delegatedTo splits v.Address < 2 ^ 64

instance (splits : List SplitDelegation) (zone : HostZone) : Decidable (SplitsFit splits zone) := by
  unfold SplitsFit; infer_instance

/-! ## Concrete collaborators for evaluation -/

/-- Collaborators that know the connection "connection-0" of chain "GAIA" with the
channel "channel-0" and its capability; the controller state is the next
sequence number; the decoders read a callback's arguments off a table. -/
def demoKeeper (delegateArgs : Bytes → Except Error DelegateCallbackArgs)
    (reinvestArgs : Bytes → Except Error ReinvestCallbackArgs) : Keeper Nat where
  GetChainID := fun _ c =>
    if c = "connection-0" then .ok "GAIA" else .error (.collaborator "connection not found")
  FormatICAAccountOwner := fun chainId t =>
    chainId ++ "." ++ (match t with
      | .DELEGATION => "DELEGATION"
      | .FEE => "FEE"
      | .WITHDRAWAL => "WITHDRAWAL"
      | .REDEMPTION => "REDEMPTION")
  NewControllerPortID := fun owner =>
    if owner = "" then .error (.collaborator "owner address cannot be empty")
    else .ok ("icacontroller-" ++ owner)
  GetActiveChannelID := fun _ c p =>
    if c = "connection-0" ∧ p = "icacontroller-GAIA.DELEGATION" then some "channel-0" else none
  ChannelCapabilityPath := fun p c => "capabilities/ports/" ++ p ++ "/channels/" ++ c
  GetCapability := fun _ path =>
    if path = "capabilities/ports/icacontroller-GAIA.DELEGATION/channels/channel-0"
    then some "cap" else none
  SerializeCosmosTx := fun msgs => .ok (msgs.map Prod.snd).flatten
  SendTx := fun seq _ _ _ _ _ => (seq + 1, .ok seq)
  PacketID := fun p c n => p ++ "." ++ c ++ "." ++ String.mk (List.replicate n '#')
  UnmarshalDelegate := delegateArgs
  UnmarshalReinvest := reinvestArgs

/-- A decoder that reads every input as the given arguments. -/
def decodeAs {β : Type} (args : β) : Bytes → Except Error β := fun _ => .ok args

/-- A decoder that rejects every input. -/
def decodeFail {β : Type} : Bytes → Except Error β :=
  fun _ => .error (.collaborator "proto: cannot parse")

/-- The host zone "GAIA" with the validators "val1" and "val2", nothing staked. -/
def demoZone : HostZone :=
  ⟨"GAIA", "connection-0", "uatom", [⟨"one", "val1", 0, 1⟩, ⟨"two", "val2", 0, 1⟩], 0⟩

/-- The deposit record with the given id, for "GAIA". -/
def demoRecord (id : Nat) : DepositRecord := ⟨id, 150, "uatom", "GAIA", .STAKE, .STRIDE, 1⟩

/-- A state with the host zone "GAIA", the stride epoch tracker at epoch 7 (next
start 1000, duration 100), buffer size 5, deposit records 0 and 1, no callback
data, and 3 as the next sequence. -/
def demoState : State Nat where
  hostZones := fun id => if id = "GAIA" then some demoZone else none
  epochTrackers := fun e => if e = "stride_epoch" then some ⟨"stride_epoch", 7, 1000, 100⟩ else none
  params := fun key => if key = "BufferSize" then 5 else 0
  depositRecords := [demoRecord 0, demoRecord 1]
  depositRecordCount := 2
  callbackData := fun _ => none
  ica := 3

/-- The delegate-style arguments of the amounts val1: 100, val2: 50, funded by
deposit record 1. -/
def demoDelegateArgs : DelegateCallbackArgs := ⟨"GAIA", 1, [⟨"val1", 100⟩, ⟨"val2", 50⟩]⟩

/-- A packet and a non-empty acknowledgement. -/
def demoPacket : Packet := ⟨3, "icacontroller-GAIA.DELEGATION", "channel-0", []⟩

/-- An acknowledgement with one result. -/
def demoAck : TxMsgData := ⟨[⟨"/cosmos.staking.v1beta1.MsgDelegate", []⟩]⟩

end Stakeibc

namespace Interchainquery

/-! ## Request submission: theorems -/

theorem emptyState_keyed : KeyedById emptyState := by
  intro id q h
  simp [emptyState] at h

theorem SetQuery_keyed {α : Type} (s : State α) (q : Query) (h : KeyedById s) :
    KeyedById (SetQuery s q) := by
  intro id q1 h1
  simp only [SetQuery] at h1
  by_cases hid : id = q.Id
  · simp [hid] at h1
    rw [← h1, hid]
  · simp [hid] at h1
    exact h id q1 h1

theorem MakeRequest_height_zero_cases {α : Type} (k : Keeper α) (s : State α)
    (connection_id chain_id query_type : String) (request : Bytes) (period : Int)
    (module callback_id : String) (ttl : Nat) :
    let r := MakeRequest k s connection_id chain_id query_type request period module callback_id
      ttl 0
    let key := k.GenerateQueryHash connection_id chain_id query_type request module 0
    (r.2 ≠ none ∧ r.1 = s ∧ GetQuery s key = none) ∨
    (r.2 = none ∧ GetQuery s key = none ∧
      r.1 = SetQuery s (NewQuery k module connection_id chain_id query_type request period
        callback_id ttl 0)) ∨
    (r.2 = none ∧ ∃ q, GetQuery s key = some q ∧ r.1 = SetQuery s { q with LastHeight := 0 }) := by
  intro r key
  cases hq : GetQuery s key with
  | some q =>
    right; right
    have hr : r = (SetQuery s { q with LastHeight := 0 }, none) := by
      simp only [r, MakeRequest]
      simp [key] at hq
      simp [hq]
    exact ⟨by rw [hr], q, rfl, by rw [hr]⟩
  | none =>
    by_cases hm : module = ""
    · right; left
      have hr : r = (SetQuery s (NewQuery k module connection_id chain_id query_type request
          period callback_id ttl 0), none) := by
        simp only [r, MakeRequest]
        simp [key] at hq
        simp [hq]
        intro hne
        exact absurd hm hne
      exact ⟨by rw [hr], rfl, by rw [hr]⟩
    · cases hl : k.callbacks.lookup module with
      | none =>
        left
        have hr : r = (s, some (.ErrInvalidRequest "no callback handler registered for module")) := by
          simp only [r, MakeRequest]
          simp [key] at hq
          simp [hq, hm, hl]
        exact ⟨by rw [hr]; simp, by rw [hr], rfl⟩
      | some handler =>
        by_cases hh : handler.Has callback_id = true
        · right; left
          have hr : r = (SetQuery s (NewQuery k module connection_id chain_id query_type request
              period callback_id ttl 0), none) := by
            simp only [r, MakeRequest]
            simp [key] at hq
            simp [hq, hm, hl, hh]
          exact ⟨by rw [hr], rfl, by rw [hr]⟩
        · left
          have hr : r = (s, some (.ErrInvalidRequest "no callback handler registered for module")) := by
            simp only [r, MakeRequest]
            simp [key] at hq
            simp [hq, hm, hl, hh]
          exact ⟨by rw [hr]; simp, by rw [hr], rfl⟩

theorem MakeRequest_existing {α : Type} (k : Keeper α) (s : State α)
    (connection_id chain_id query_type : String) (request : Bytes) (period : Int)
    (module callback_id : String) (ttl : Nat) (q : Query)
    (hq : GetQuery s (k.GenerateQueryHash connection_id chain_id query_type request module 0)
      = some q) :
    MakeRequest k s connection_id chain_id query_type request period module callback_id ttl 0
      = (SetQuery s { q with LastHeight := 0 }, none) := by
  simp [MakeRequest, hq]

theorem GetQuery_SetQuery_self {α : Type} (s : State α) (q : Query) :
    GetQuery (SetQuery s q) q.Id = some q := by
  simp [GetQuery, SetQuery]

theorem MakeRequest_ok_stored {α : Type} (k : Keeper α) (s : State α)
    (connection_id chain_id query_type : String) (request : Bytes) (period : Int)
    (module callback_id : String) (ttl : Nat)
    (h : (MakeRequest k s connection_id chain_id query_type request period module callback_id
      ttl 0).2 = none) :
    ∃ q0 qk,
      (MakeRequest k s connection_id chain_id query_type request period module callback_id
        ttl 0).1 = SetQuery s q0
      ∧ GetQuery (SetQuery s q0)
          (k.GenerateQueryHash connection_id chain_id query_type request module 0) = some qk
      ∧ qk.Id = q0.Id
      ∧ (KeyedById s →
          q0.Id = k.GenerateQueryHash connection_id chain_id query_type request module 0) := by
  rcases MakeRequest_height_zero_cases k s connection_id chain_id query_type request period
    module callback_id ttl with h1 | h2 | h3
  · exact absurd h h1.1
  · exact ⟨_, _, h2.2.2, GetQuery_SetQuery_self s _, rfl, fun _ => rfl⟩
  · obtain ⟨_, q, hq, hs⟩ := h3
    by_cases hid : q.Id = k.GenerateQueryHash connection_id chain_id query_type request module 0
    · refine ⟨{ q with LastHeight := 0 }, { q with LastHeight := 0 }, hs, ?_, rfl, fun _ => hid⟩
      rw [← hid]
      exact GetQuery_SetQuery_self s { q with LastHeight := 0 }
    · refine ⟨{ q with LastHeight := 0 }, q, hs, ?_, rfl, fun hkey => hkey _ q hq⟩
      have hne : ¬ k.GenerateQueryHash connection_id chain_id query_type request module 0
          = q.Id := fun h => hid h.symm
      simp only [GetQuery, SetQuery, hne, if_false]
      exact hq

/-- C1: when a first `MakeRequest` at height 0 succeeds, a second `MakeRequest`
with the same connection, chain, query type, request, module and height (and any
period, callback id and ttl) succeeds and stores a Query under exactly the ids
that held one after the first call; on a store that holds every record under its
own id, the Query under the fingerprint then has `LastHeight = 0`. -/
theorem MakeRequest_twice_no_second_record {α : Type} (k : Keeper α) (s : State α)
    (connection_id chain_id query_type : String) (request : Bytes) (module : String)
    (period period2 : Int) (callback_id callback_id2 : String) (ttl ttl2 : Nat)
    (h1 : (MakeRequest k s connection_id chain_id query_type request period module callback_id
      ttl 0).2 = none) :
    (MakeRequest k
        (MakeRequest k s connection_id chain_id query_type request period module callback_id
          ttl 0).1
        connection_id chain_id query_type request period2 module callback_id2 ttl2 0).2 = none
    ∧ (∀ id,
        (MakeRequest k
          (MakeRequest k s connection_id chain_id query_type request period module callback_id
            ttl 0).1
          connection_id chain_id query_type request period2 module callback_id2 ttl2 0).1.queries id
          ≠ none
        ↔ (MakeRequest k s connection_id chain_id query_type request period module callback_id
            ttl 0).1.queries id ≠ none)
    ∧ (KeyedById s →
        ∃ q,
          (MakeRequest k
            (MakeRequest k s connection_id chain_id query_type request period module callback_id
              ttl 0).1
            connection_id chain_id query_type request period2 module callback_id2 ttl2
            0).1.queries
            (k.GenerateQueryHash connection_id chain_id query_type request module 0) = some q
          ∧ q.LastHeight = 0) := by
  obtain ⟨q0, qk, hs1, hget, hidk, hkeyed⟩ := MakeRequest_ok_stored k s connection_id chain_id
    query_type request period module callback_id ttl h1
  rw [hs1, MakeRequest_existing k (SetQuery s q0) connection_id chain_id query_type request
    period2 module callback_id2 ttl2 qk hget]
  refine ⟨rfl, ?_, ?_⟩
  · intro id
    simp only [SetQuery, hidk]
    by_cases h : id = q0.Id
    · simp [h]
    · simp [h]
  · intro hkey
    refine ⟨{ qk with LastHeight := 0 }, ?_, rfl⟩
    simp [SetQuery, hidk, hkeyed hkey]

/-- C1, evaluated: on the empty store a first request creates the record; a second
one with another period, callback id and ttl succeeds and the record under the
fingerprint has `LastHeight = 0`. -/
theorem MakeRequest_twice_no_second_record_witness :
    (MakeRequest (demoKeeper []) emptyState "connection-0" "GAIA" "store/bank/key" [1] (-1)
        "" "" 0 0).2 = none
    ∧ (MakeRequest (demoKeeper [])
        (MakeRequest (demoKeeper []) emptyState "connection-0" "GAIA" "store/bank/key" [1] (-1)
          "" "" 0 0).1
        "connection-0" "GAIA" "store/bank/key" [1] 5 "" "cb" 9 0).2 = none
    ∧ ∃ q,
        (MakeRequest (demoKeeper [])
          (MakeRequest (demoKeeper []) emptyState "connection-0" "GAIA" "store/bank/key" [1] (-1)
            "" "" 0 0).1
          "connection-0" "GAIA" "store/bank/key" [1] 5 "" "cb" 9 0).1.queries
          ((demoKeeper []).GenerateQueryHash "connection-0" "GAIA" "store/bank/key" [1] "" 0)
          = some q
        ∧ q.LastHeight = 0 :=
  ⟨rfl,
    (MakeRequest_twice_no_second_record (demoKeeper []) emptyState "connection-0" "GAIA"
      "store/bank/key" [1] "" (-1) 5 "" "cb" 0 9 rfl).1,
    (MakeRequest_twice_no_second_record (demoKeeper []) emptyState "connection-0" "GAIA"
      "store/bank/key" [1] "" (-1) 5 "" "cb" 0 9 rfl).2.2 emptyState_keyed⟩

/-- C9: with a non-zero height `MakeRequest` returns an error and the state, hence
the Query store, is the one it was called with. -/
theorem MakeRequest_nonzero_height {α : Type} (k : Keeper α) (s : State α)
    (connection_id chain_id query_type : String) (request : Bytes) (period : Int)
    (module callback_id : String) (ttl : Nat) (height : Int) (hh : height ≠ 0) :
    (∃ e, (MakeRequest k s connection_id chain_id query_type request period module callback_id
        ttl height).2 = some e)
    ∧ (MakeRequest k s connection_id chain_id query_type request period module callback_id
        ttl height).1 = s := by
  simp [MakeRequest, hh]

/-- C9, evaluated: a request at height 7 for a fingerprint that is already stored
with `LastHeight = 4` fails and the record keeps `LastHeight = 4`. -/
theorem MakeRequest_nonzero_height_witness :
    (7 : Int) ≠ 0
    ∧ (MakeRequest (demoKeeper [])
        (SetQuery emptyState ⟨demoHash "connection-0" "GAIA" "t" [] "" 7, "connection-0", "GAIA",
          "t", [], -1, 4, "", "", 0, 7⟩)
        "connection-0" "GAIA" "t" [] (-1) "" "" 0 7).1
      = SetQuery emptyState ⟨demoHash "connection-0" "GAIA" "t" [] "" 7, "connection-0", "GAIA",
          "t", [], -1, 4, "", "", 0, 7⟩ :=
  ⟨by decide,
    (MakeRequest_nonzero_height (demoKeeper []) _ "connection-0" "GAIA" "t" [] (-1) "" "" 0 7
      (by decide)).2⟩

/-- C10, as the code behaves: with an empty connection id and an empty chain id at
height 0 the validation block logs three failures, and `MakeRequest` still returns
`nil` and stores a new Query. -/
theorem MakeRequest_accepts_invalid_identifiers :
    validationLog "" "" 0 =
      ["[ICQ Validation Check] Failed! connection id cannot be empty",
       "[ICQ Validation Check] Failed! connection id must begin with 'connection'",
       "[ICQ Validation Check] Failed! chain_id cannot be empty"]
    ∧ (MakeRequest (demoKeeper []) emptyState "" "" "store/bank/key" [1] (-1) "" "" 0 0).2 = none
    ∧ (MakeRequest (demoKeeper []) emptyState "" "" "store/bank/key" [1] (-1) "" "" 0 0).1.queries
        (demoHash "" "" "store/bank/key" [1] "" 0)
      = some ⟨demoHash "" "" "store/bank/key" [1] "" 0, "", "", "store/bank/key", [1], -1, 0,
          "", "", 0, 0⟩
    ∧ emptyState.queries (demoHash "" "" "store/bank/key" [1] "" 0) = none := by
  refine ⟨by decide, rfl, ?_, rfl⟩
  simp [MakeRequest, GetQuery, emptyState, SetQuery, NewQuery, demoKeeper]

/-! ## Response intake: theorems -/

/-- C2: a response whose query id has no stored Query returns success, invokes no
callback and leaves the whole state (Query store, DataPoint store, events,
application state) as it was, whatever its result, height and proof are. -/
theorem SubmitQueryResponse_unknown_id {α : Type} (k : Keeper α) (ctx : Context) (s : State α)
    (msg : MsgSubmitQueryResponse) (h : GetQuery s msg.QueryId = none) :
    (SubmitQueryResponse k ctx s msg).outcome = .ok
    ∧ (SubmitQueryResponse k ctx s msg).calls = []
    ∧ (SubmitQueryResponse k ctx s msg).state = s := by
  simp [SubmitQueryResponse, h]

/-- C2, evaluated: a response for the id "nope" on the empty store. -/
theorem SubmitQueryResponse_unknown_id_witness :
    GetQuery emptyState "nope" = none
    ∧ (SubmitQueryResponse (demoKeeper []) ⟨10⟩ emptyState ⟨"nope", [7], none, 10⟩).outcome = .ok :=
  ⟨rfl, (SubmitQueryResponse_unknown_id (demoKeeper []) ⟨10⟩ emptyState ⟨"nope", [7], none, 10⟩
    rfl).1⟩

theorem verifyProof_ne_ok {α : Type} (k : Keeper α) (s : State α) (q : Query)
    (msg : MsgSubmitQueryResponse) : verifyProof k s q msg ≠ some .ok := by
  unfold verifyProof
  simp only []
  repeat' split
  all_goals simp

theorem SubmitQueryResponse_found {α : Type} (k : Keeper α) (ctx : Context) (s : State α)
    (msg : MsgSubmitQueryResponse) (q : Query) (hq : GetQuery s msg.QueryId = some q) :
    SubmitQueryResponse k ctx s msg =
      match verifyProof k s q msg with
      | some out => ⟨s, [], out⟩
      | none =>
        match (runCallbacks k ctx s q msg).err with
        | some err => ⟨(runCallbacks k ctx s q msg).state, (runCallbacks k ctx s q msg).calls,
            .error err⟩
        | none => ⟨retain ctx q msg (runCallbacks k ctx s q msg).state
            (runCallbacks k ctx s q msg).noDelete, (runCallbacks k ctx s q msg).calls, .ok⟩ := by
  simp only [SubmitQueryResponse, hq]

theorem SubmitQueryResponse_ok {α : Type} (k : Keeper α) (ctx : Context) (s : State α)
    (msg : MsgSubmitQueryResponse) (q : Query) (hq : GetQuery s msg.QueryId = some q)
    (hok : (SubmitQueryResponse k ctx s msg).outcome = .ok) :
    verifyProof k s q msg = none ∧ (runCallbacks k ctx s q msg).err = none ∧
    (SubmitQueryResponse k ctx s msg).state
      = retain ctx q msg (runCallbacks k ctx s q msg).state (runCallbacks k ctx s q msg).noDelete ∧
    (SubmitQueryResponse k ctx s msg).calls = (runCallbacks k ctx s q msg).calls := by
  rw [SubmitQueryResponse_found k ctx s msg q hq] at hok ⊢
  cases hv : verifyProof k s q msg with
  | some out =>
    rw [hv] at hok
    simp only at hok
    exact absurd (hok ▸ hv) (verifyProof_ne_ok k s q msg)
  | none =>
    rw [hv] at hok
    cases he : (runCallbacks k ctx s q msg).err with
    | some err => rw [he] at hok; simp at hok
    | none => simp

theorem SubmitQueryResponse_of_verifyProof {α : Type} (k : Keeper α) (ctx : Context)
    (s : State α) (msg : MsgSubmitQueryResponse) (q : Query)
    (hq : GetQuery s msg.QueryId = some q) (out : Outcome)
    (hv : verifyProof k s q msg = some out) :
    (SubmitQueryResponse k ctx s msg).outcome = out
    ∧ (SubmitQueryResponse k ctx s msg).calls = []
    ∧ (SubmitQueryResponse k ctx s msg).state = s := by
  rw [SubmitQueryResponse_found k ctx s msg q hq, hv]
  exact ⟨rfl, rfl, rfl⟩

theorem SubmitQueryResponse_verified {α : Type} (k : Keeper α) (ctx : Context) (s : State α)
    (msg : MsgSubmitQueryResponse) (q : Query) (hq : GetQuery s msg.QueryId = some q)
    (hv : verifyProof k s q msg = none) :
    (SubmitQueryResponse k ctx s msg).calls = (runCallbacks k ctx s q msg).calls ∧
    ((runCallbacks k ctx s q msg).err = none →
      (SubmitQueryResponse k ctx s msg).outcome = .ok ∧
      (SubmitQueryResponse k ctx s msg).state = retain ctx q msg
        (runCallbacks k ctx s q msg).state (runCallbacks k ctx s q msg).noDelete) ∧
    (∀ e, (runCallbacks k ctx s q msg).err = some e →
      (SubmitQueryResponse k ctx s msg).outcome = .error e ∧
      (SubmitQueryResponse k ctx s msg).state = (runCallbacks k ctx s q msg).state) := by
  rw [SubmitQueryResponse_found k ctx s msg q hq, hv]
  cases he : (runCallbacks k ctx s q msg).err with
  | some err => simp
  | none => simp

/-! ### The callback loop -/

/-- Everything the statements below use about one run of the callback loop. -/
structure DispatchSpec {α : Type} (k : Keeper α) (ctx : Context) (q : Query)
    (msg : MsgSubmitQueryResponse) (keys : List String) (s : State α) (noDelete : Bool)
    (d : Dispatch α) : Prop where
  state_eq : d.state = applyCalls k ctx q msg (d.calls.map Prod.fst) s
  calls_prefix : d.calls.map Prod.fst <+: owners k q keys
  calls_all : d.err = none → d.calls.map Prod.fst = owners k q keys
  err_last : ∀ e, d.err = some e →
    e ≠ .ErrSucceededNoDelete ∧ ∃ m, d.calls.getLast? = some (m, some e)
  call_err : ∀ m e, (m, some e) ∈ d.calls → e ≠ .ErrSucceededNoDelete →
    d.err = some e ∧ d.calls.getLast? = some (m, some e)
  noDelete_iff : d.noDelete = true ↔
    (noDelete = true ∨ ∃ c ∈ d.calls, c.2 = some .ErrSucceededNoDelete)

theorem getLast?_cons_of_getLast? {β : Type} (a b : β) (l : List β)
    (h : l.getLast? = some b) : (a :: l).getLast? = some b := by
  cases l with
  | nil => simp at h
  | cons c l => simpa [List.getLast?_cons_cons] using h

theorem dispatch_spec {α : Type} (k : Keeper α) (ctx : Context) (q : Query)
    (msg : MsgSubmitQueryResponse) (keys : List String) :
    ∀ (s : State α) (noDelete : Bool),
      DispatchSpec k ctx q msg keys s noDelete (dispatch k ctx q msg keys s noDelete) := by
  induction keys with
  | nil =>
    intro s noDelete
    exact ⟨by simp [dispatch, applyCalls], by simp [dispatch, owners], by simp [dispatch, owners],
      by simp [dispatch], by simp [dispatch], by simp [dispatch]⟩
  | cons key keys ih =>
    intro s noDelete
    cases hl : k.callbacks.lookup key with
    | none =>
      have hd : dispatch k ctx q msg (key :: keys) s noDelete
          = dispatch k ctx q msg keys s noDelete := by simp [dispatch, hl]
      have ho : owners k q (key :: keys) = owners k q keys := by simp [owners, hl]
      rw [hd]
      have h := ih s noDelete
      exact ⟨h.state_eq, ho ▸ h.calls_prefix, fun he => ho ▸ h.calls_all he, h.err_last,
        h.call_err, h.noDelete_iff⟩
    | some module =>
      by_cases hh : module.Has q.CallbackId = true
      · have ho : owners k q (key :: keys) = key :: owners k q keys := by
          simp [owners, hl, hh]
        cases hc : module.Call ctx s q.CallbackId msg.Result q with
        | mk s1 r =>
          have hs1 : applyCalls k ctx q msg [key] s = s1 := by
            simp [applyCalls, hl, hc]
          have hstep : ∀ names, applyCalls k ctx q msg (key :: names) s
              = applyCalls k ctx q msg names s1 := by
            intro names
            simp [applyCalls, hl, hc]
          cases r with
          | none =>
            have hd : dispatch k ctx q msg (key :: keys) s noDelete
                = { dispatch k ctx q msg keys s1 noDelete with
                    calls := (key, none) :: (dispatch k ctx q msg keys s1 noDelete).calls } := by
              simp [dispatch, hl, hh, hc]
            have h := ih s1 noDelete
            rw [hd]
            refine ⟨?_, ?_, ?_, ?_, ?_, ?_⟩
            · simp only [List.map_cons]
              rw [hstep]
              exact h.state_eq
            · simp only [List.map_cons]
              rw [ho]
              exact (List.prefix_cons_inj key).2 h.calls_prefix
            · intro he
              simp only [List.map_cons]
              rw [ho, h.calls_all he]
            · intro e he
              obtain ⟨hne, m, hm⟩ := h.err_last e he
              exact ⟨hne, m, getLast?_cons_of_getLast? _ _ _ hm⟩
            · intro m e hmem hne
              simp only [List.mem_cons, Prod.mk.injEq] at hmem
              rcases hmem with ⟨_, h2⟩ | hmem
              · simp at h2
              · obtain ⟨h1, h2⟩ := h.call_err m e hmem hne
                exact ⟨h1, getLast?_cons_of_getLast? _ _ _ h2⟩
            · simp only [List.mem_cons, exists_eq_or_imp]
              rw [h.noDelete_iff]
              simp
          | some err =>
            by_cases herr : err = .ErrSucceededNoDelete
            · have hd : dispatch k ctx q msg (key :: keys) s noDelete
                  = { dispatch k ctx q msg keys s1 true with
                      calls := (key, some err) :: (dispatch k ctx q msg keys s1 true).calls } := by
                simp [dispatch, hl, hh, hc, herr]
              have h := ih s1 true
              rw [hd]
              refine ⟨?_, ?_, ?_, ?_, ?_, ?_⟩
              · simp only [List.map_cons]
                rw [hstep]
                exact h.state_eq
              · simp only [List.map_cons]
                rw [ho]
                exact (List.prefix_cons_inj key).2 h.calls_prefix
              · intro he
                simp only [List.map_cons]
                rw [ho, h.calls_all he]
              · intro e he
                obtain ⟨hne, m, hm⟩ := h.err_last e he
                exact ⟨hne, m, getLast?_cons_of_getLast? _ _ _ hm⟩
              · intro m e hmem hne
                simp only [List.mem_cons, Prod.mk.injEq] at hmem
                rcases hmem with ⟨_, h2⟩ | hmem
                · simp only [Option.some.injEq] at h2
                  exact absurd (h2.trans herr) hne
                · obtain ⟨h1, h2⟩ := h.call_err m e hmem hne
                  exact ⟨h1, getLast?_cons_of_getLast? _ _ _ h2⟩
              · simp only [List.mem_cons, exists_eq_or_imp]
                rw [h.noDelete_iff]
                simp [herr]
            · have hd : dispatch k ctx q msg (key :: keys) s noDelete
                  = ⟨s1, noDelete, [(key, some err)], some err⟩ := by
                simp [dispatch, hl, hh, hc, herr]
              rw [hd]
              refine ⟨?_, ?_, ?_, ?_, ?_, ?_⟩
              · simp [hs1]
              · simp only [List.map_cons, List.map_nil]
                rw [ho]
                exact (List.prefix_cons_inj key).2 (List.nil_prefix)
              · intro he
                simp at he
              · intro e he
                simp only [Option.some.injEq] at he
                subst he
                exact ⟨herr, key, rfl⟩
              · intro m e hmem _
                simp only [List.mem_singleton, Prod.mk.injEq, Option.some.injEq] at hmem
                obtain ⟨h1, h2⟩ := hmem
                subst h1 h2
                exact ⟨rfl, rfl⟩
              · simp [herr]
      · have hd : dispatch k ctx q msg (key :: keys) s noDelete
            = dispatch k ctx q msg keys s noDelete := by simp [dispatch, hl, hh]
        have ho : owners k q (key :: keys) = owners k q keys := by simp [owners, hl, hh]
        rw [hd]
        have h := ih s noDelete
        exact ⟨h.state_eq, ho ▸ h.calls_prefix, fun he => ho ▸ h.calls_all he, h.err_last,
          h.call_err, h.noDelete_iff⟩

theorem runCallbacks_spec {α : Type} (k : Keeper α) (ctx : Context) (s : State α) (q : Query)
    (msg : MsgSubmitQueryResponse) :
    DispatchSpec k ctx q msg (sortStrings (mapKeys k)) s false (runCallbacks k ctx s q msg) :=
  dispatch_spec k ctx q msg (sortStrings (mapKeys k)) s false

/-! ### Retention -/

theorem retain_datapoints {α : Type} (ctx : Context) (q : Query) (msg : MsgSubmitQueryResponse)
    (s : State α) (noDelete : Bool) :
    (retain ctx q msg s noDelete).datapoints =
      if 0 < q.Ttl then
        fun i => if i = msg.QueryId then
          some ⟨msg.QueryId, msg.Height, ctx.BlockHeight, msg.Result⟩ else s.datapoints i
      else s.datapoints := by
  unfold retain
  by_cases ht : 0 < q.Ttl <;> by_cases hp : q.Period < 0 <;> cases noDelete <;>
    simp [ht, hp, SetDatapointForId, DeleteQuery, SetQuery]

theorem retain_queries {α : Type} (ctx : Context) (q : Query) (msg : MsgSubmitQueryResponse)
    (s : State α) (noDelete : Bool) :
    (retain ctx q msg s noDelete).queries =
      if q.Period < 0 then
        if noDelete = false then (DeleteQuery s msg.QueryId).queries else s.queries
      else (SetQuery s q).queries := by
  unfold retain
  by_cases ht : 0 < q.Ttl <;> by_cases hp : q.Period < 0 <;> cases noDelete <;>
    simp [ht, hp, SetDatapointForId, DeleteQuery, SetQuery]

/-- C3: when `SubmitQueryResponse` returns success for a stored Query `q`: with
`q.Ttl = 0` the DataPoint store it leaves is the one left by the callbacks it
invoked (the one before the message when it invoked none), so the intake writes
no DataPoint; with `q.Ttl > 0` the DataPoint under the message's query id has the
message's result as value, the message's height as remote height and the current
block height as local height, and no other DataPoint is written by the intake. -/
theorem SubmitQueryResponse_datapoint {α : Type} (k : Keeper α) (ctx : Context) (s : State α)
    (msg : MsgSubmitQueryResponse) (q : Query) (hq : GetQuery s msg.QueryId = some q)
    (hok : (SubmitQueryResponse k ctx s msg).outcome = .ok) :
    (q.Ttl = 0 →
      (SubmitQueryResponse k ctx s msg).state.datapoints
        = (applyCalls k ctx q msg ((SubmitQueryResponse k ctx s msg).calls.map Prod.fst)
            s).datapoints
      ∧ ((SubmitQueryResponse k ctx s msg).calls = [] →
          (SubmitQueryResponse k ctx s msg).state.datapoints = s.datapoints))
    ∧ (0 < q.Ttl →
      (SubmitQueryResponse k ctx s msg).state.datapoints msg.QueryId
        = some ⟨msg.QueryId, msg.Height, ctx.BlockHeight, msg.Result⟩
      ∧ ∀ id, id ≠ msg.QueryId →
          (SubmitQueryResponse k ctx s msg).state.datapoints id
            = (applyCalls k ctx q msg ((SubmitQueryResponse k ctx s msg).calls.map Prod.fst)
                s).datapoints id) := by
  obtain ⟨_, _, hstate, hcalls⟩ := SubmitQueryResponse_ok k ctx s msg q hq hok
  have hsp := (runCallbacks_spec k ctx s q msg).state_eq
  rw [hstate, hcalls, retain_datapoints, ← hsp]
  constructor
  · intro ht
    have h0 : ¬ 0 < q.Ttl := by omega
    simp only [h0, if_false, true_and]
    intro hnil
    rw [hsp, hnil]
    rfl
  · intro ht
    simp only [ht, if_true, true_and]
    intro id hid
    simp [hid]

/-- C3, evaluated: a response with result `[7]` at remote height 10, taken in at
block height 42 for a query with ttl 5, is cached with those three values. -/
theorem SubmitQueryResponse_datapoint_witness :
    GetQuery (demoState (demoQuery "store/bank/balance" (-1) 5))
        (demoQuery "store/bank/balance" (-1) 5).Id
      = some (demoQuery "store/bank/balance" (-1) 5)
    ∧ (SubmitQueryResponse (demoKeeper [("m", cbBump)]) ⟨42⟩
        (demoState (demoQuery "store/bank/balance" (-1) 5))
        ⟨(demoQuery "store/bank/balance" (-1) 5).Id, [7], none, 10⟩).outcome = .ok
    ∧ (SubmitQueryResponse (demoKeeper [("m", cbBump)]) ⟨42⟩
        (demoState (demoQuery "store/bank/balance" (-1) 5))
        ⟨(demoQuery "store/bank/balance" (-1) 5).Id, [7], none, 10⟩).state.datapoints
          (demoQuery "store/bank/balance" (-1) 5).Id
        = some ⟨(demoQuery "store/bank/balance" (-1) 5).Id, 10, 42, [7]⟩ :=
  ⟨rfl, rfl,
    ((SubmitQueryResponse_datapoint (demoKeeper [("m", cbBump)]) ⟨42⟩
      (demoState (demoQuery "store/bank/balance" (-1) 5))
      ⟨(demoQuery "store/bank/balance" (-1) 5).Id, [7], none, 10⟩
      (demoQuery "store/bank/balance" (-1) 5) rfl rfl).2 (by decide)).1⟩

/-- C4: when `SubmitQueryResponse` returns success for a stored Query `q`, the
Query store it leaves is, relative to the store left by the invoked callbacks:
that store with the message's query id deleted when `q.Period < 0` and no invoked
callback returned the retain signal; that store itself when `q.Period < 0` and
some invoked callback returned the retain signal; that store with `q`, exactly as
the intake read it, written under its id when `q.Period ≥ 0`. Hence a Query still
stored under the message's id after the callbacks is gone afterwards if and only
if `q.Period < 0` and no invoked callback returned the retain signal. -/
theorem SubmitQueryResponse_retention {α : Type} (k : Keeper α) (ctx : Context) (s : State α)
    (msg : MsgSubmitQueryResponse) (q : Query) (hq : GetQuery s msg.QueryId = some q)
    (hok : (SubmitQueryResponse k ctx s msg).outcome = .ok) :
    (q.Period < 0 →
      (¬ ∃ c ∈ (SubmitQueryResponse k ctx s msg).calls, c.2 = some Error.ErrSucceededNoDelete) →
      (SubmitQueryResponse k ctx s msg).state.queries
        = (DeleteQuery (applyCalls k ctx q msg
            ((SubmitQueryResponse k ctx s msg).calls.map Prod.fst) s) msg.QueryId).queries)
    ∧ (q.Period < 0 →
      (∃ c ∈ (SubmitQueryResponse k ctx s msg).calls, c.2 = some Error.ErrSucceededNoDelete) →
      (SubmitQueryResponse k ctx s msg).state.queries
        = (applyCalls k ctx q msg
            ((SubmitQueryResponse k ctx s msg).calls.map Prod.fst) s).queries)
    ∧ (0 ≤ q.Period →
      (SubmitQueryResponse k ctx s msg).state.queries
        = (SetQuery (applyCalls k ctx q msg
            ((SubmitQueryResponse k ctx s msg).calls.map Prod.fst) s) q).queries
      ∧ (SubmitQueryResponse k ctx s msg).state.queries q.Id = some q)
    ∧ (∀ x, (applyCalls k ctx q msg
          ((SubmitQueryResponse k ctx s msg).calls.map Prod.fst) s).queries msg.QueryId = some x →
        ((SubmitQueryResponse k ctx s msg).state.queries msg.QueryId = none
          ↔ (q.Period < 0 ∧
              ¬ ∃ c ∈ (SubmitQueryResponse k ctx s msg).calls,
                c.2 = some Error.ErrSucceededNoDelete))) := by
  obtain ⟨_, _, hstate, hcalls⟩ := SubmitQueryResponse_ok k ctx s msg q hq hok
  have hsp := runCallbacks_spec k ctx s q msg
  have hnd : (runCallbacks k ctx s q msg).noDelete = true ↔
      ∃ c ∈ (runCallbacks k ctx s q msg).calls, c.2 = some Error.ErrSucceededNoDelete := by
    rw [hsp.noDelete_iff]; simp
  rw [hstate, hcalls, retain_queries, ← hsp.state_eq]
  refine ⟨?_, ?_, ?_, ?_⟩
  · intro hp hno
    have hf : (runCallbacks k ctx s q msg).noDelete = false := by
      cases hb : (runCallbacks k ctx s q msg).noDelete with
      | false => rfl
      | true => exact absurd (hnd.1 hb) hno
    simp [hp, hf]
  · intro hp hyes
    have ht : (runCallbacks k ctx s q msg).noDelete = true := hnd.2 hyes
    simp [hp, ht]
  · intro hp
    have hn : ¬ q.Period < 0 := by omega
    simp [hn, SetQuery]
  · intro x hx
    by_cases hp : q.Period < 0
    · cases hb : (runCallbacks k ctx s q msg).noDelete with
      | false =>
        have hno : ¬ ∃ c ∈ (runCallbacks k ctx s q msg).calls,
            c.2 = some Error.ErrSucceededNoDelete := by
          intro h
          rw [hnd.2 h] at hb
          exact Bool.noConfusion hb
        simp only [hp, if_true, true_and]
        constructor
        · intro _; exact hno
        · intro _; simp [DeleteQuery]
      | true =>
        have hyes := hnd.1 hb
        simp only [hp, if_true, true_and]
        constructor
        · intro h
          simp [hx] at h
        · intro h; exact absurd hyes h
    · simp only [hp, if_false, false_and, iff_false]
      simp only [SetQuery]
      by_cases hid : msg.QueryId = q.Id
      · simp [hid]
      · simp [hid, hx]

/-- C4, evaluated: a one-shot query (period -1) whose callback returns the retain
signal is still stored, unchanged, after a successful response. -/
theorem SubmitQueryResponse_retention_witness :
    GetQuery (demoState (demoQuery "store/bank/balance" (-1) 0))
        (demoQuery "store/bank/balance" (-1) 0).Id
      = some (demoQuery "store/bank/balance" (-1) 0)
    ∧ (SubmitQueryResponse (demoKeeper [("m", cbRetain)]) ⟨42⟩
        (demoState (demoQuery "store/bank/balance" (-1) 0))
        ⟨(demoQuery "store/bank/balance" (-1) 0).Id, [7], none, 10⟩).outcome = .ok
    ∧ (SubmitQueryResponse (demoKeeper [("m", cbRetain)]) ⟨42⟩
        (demoState (demoQuery "store/bank/balance" (-1) 0))
        ⟨(demoQuery "store/bank/balance" (-1) 0).Id, [7], none, 10⟩).state.queries
      = (applyCalls (demoKeeper [("m", cbRetain)]) ⟨42⟩ (demoQuery "store/bank/balance" (-1) 0)
          ⟨(demoQuery "store/bank/balance" (-1) 0).Id, [7], none, 10⟩
          ((SubmitQueryResponse (demoKeeper [("m", cbRetain)]) ⟨42⟩
            (demoState (demoQuery "store/bank/balance" (-1) 0))
            ⟨(demoQuery "store/bank/balance" (-1) 0).Id, [7], none, 10⟩).calls.map Prod.fst)
          (demoState (demoQuery "store/bank/balance" (-1) 0))).queries :=
  ⟨rfl, rfl,
    (SubmitQueryResponse_retention (demoKeeper [("m", cbRetain)]) ⟨42⟩
      (demoState (demoQuery "store/bank/balance" (-1) 0))
      ⟨(demoQuery "store/bank/balance" (-1) 0).Id, [7], none, 10⟩
      (demoQuery "store/bank/balance" (-1) 0) rfl rfl).2.1 (by decide)
      ⟨("m", some Error.ErrSucceededNoDelete), by decide, rfl⟩⟩

/-! ### The order of the callbacks -/

theorem strLE_iff (a b : String) : strLE a b ↔ a ≤ b :=
  String.le_iff_toList_le.symm

theorem orderedInsert_strLE (a : String) (l : List String) :
    l.orderedInsert strLE a = l.orderedInsert (· ≤ ·) a := by
  induction l with
  | nil => rfl
  | cons b l ih => simp only [List.orderedInsert, strLE_iff, ih]

theorem sortStrings_eq (l : List String) : sortStrings l = l.insertionSort (· ≤ ·) := by
  induction l with
  | nil => rfl
  | cons a l ih =>
    unfold sortStrings at ih ⊢
    simp only [List.insertionSort, ih, orderedInsert_strLE]

theorem sortStrings_perm (l : List String) : (sortStrings l).Perm l := by
  rw [sortStrings_eq]
  exact List.perm_insertionSort _ l

theorem sortStrings_sorted (l : List String) : (sortStrings l).Sorted (· ≤ ·) := by
  rw [sortStrings_eq]
  exact List.sorted_insertionSort _ l

theorem sortStrings_mapKeys_sorted {α : Type} (k : Keeper α) :
    (sortStrings (mapKeys k)).Sorted (· < ·) := by
  apply (sortStrings_sorted _).lt_of_le
  exact (sortStrings_perm _).nodup_iff.2 (List.nodup_dedup _)

theorem mem_sortStrings_mapKeys {α : Type} (k : Keeper α) (m : String) :
    m ∈ sortStrings (mapKeys k) ↔ m ∈ k.callbacks.map Prod.fst := by
  rw [(sortStrings_perm _).mem_iff]
  exact List.mem_dedup

theorem mem_keys_of_lookup {β : Type} (l : List (String × β)) (a : String) (b : β)
    (h : l.lookup a = some b) : a ∈ l.map Prod.fst := by
  induction l with
  | nil => simp at h
  | cons p l ih =>
    obtain ⟨a1, b1⟩ := p
    by_cases ha : a = a1
    · simp [ha]
    · have hb : (a == a1) = false := by simpa using ha
      rw [List.lookup_cons, hb] at h
      simp only [List.map_cons, List.mem_cons]
      exact Or.inr (ih h)

theorem dispatchOrder_sorted {α : Type} (k : Keeper α) (q : Query) :
    (dispatchOrder k q).Sorted (· < ·) :=
  List.Sorted.filter _ (sortStrings_mapKeys_sorted k)

theorem mem_dispatchOrder {α : Type} (k : Keeper α) (q : Query) (m : String) :
    m ∈ dispatchOrder k q ↔
      ∃ module, k.callbacks.lookup m = some module ∧ module.Has q.CallbackId = true := by
  unfold dispatchOrder owners
  rw [List.mem_filter, mem_sortStrings_mapKeys]
  constructor
  · rintro ⟨_, h⟩
    cases hl : k.callbacks.lookup m with
    | none => simp [hl] at h
    | some module =>
      rw [hl] at h
      exact ⟨module, rfl, h⟩
  · rintro ⟨module, hl, hh⟩
    refine ⟨mem_keys_of_lookup _ _ _ hl, ?_⟩
    simp [hl, hh]

theorem lookup_eq_some_iff_mem {β : Type} (l : List (String × β))
    (hnd : (l.map Prod.fst).Nodup) (a : String) (b : β) :
    l.lookup a = some b ↔ (a, b) ∈ l := by
  induction l with
  | nil => simp
  | cons p l ih =>
    obtain ⟨a1, b1⟩ := p
    simp only [List.map_cons, List.nodup_cons] at hnd
    by_cases ha : a = a1
    · subst ha
      rw [List.lookup_cons_self]
      constructor
      · intro h
        simp only [Option.some.injEq] at h
        simp [h]
      · intro h
        simp only [List.mem_cons, Prod.mk.injEq, true_and] at h
        rcases h with h | h
        · rw [h]
        · exact absurd (List.mem_map_of_mem Prod.fst h) hnd.1
    · have hb : (a == a1) = false := by simpa using ha
      rw [List.lookup_cons, hb, ih hnd.2]
      simp [ha]

theorem lookup_perm {β : Type} (l1 l2 : List (String × β)) (hp : l1.Perm l2)
    (hnd : (l2.map Prod.fst).Nodup) (a : String) : l1.lookup a = l2.lookup a := by
  have hnd1 : (l1.map Prod.fst).Nodup := (hp.map Prod.fst).nodup_iff.2 hnd
  cases h2 : l2.lookup a with
  | some b =>
    rw [lookup_eq_some_iff_mem l1 hnd1, hp.mem_iff, ← lookup_eq_some_iff_mem l2 hnd]
    exact h2
  | none =>
    cases h1 : l1.lookup a with
    | none => rfl
    | some b =>
      rw [lookup_eq_some_iff_mem l1 hnd1, hp.mem_iff, ← lookup_eq_some_iff_mem l2 hnd, h2] at h1
      exact Option.noConfusion h1

theorem dispatch_congr {α : Type} (k1 k2 : Keeper α) (ctx : Context) (q : Query)
    (msg : MsgSubmitQueryResponse)
    (h : ∀ m, k1.callbacks.lookup m = k2.callbacks.lookup m) (keys : List String) :
    ∀ (s : State α) (noDelete : Bool),
      dispatch k1 ctx q msg keys s noDelete = dispatch k2 ctx q msg keys s noDelete := by
  induction keys with
  | nil => intro s noDelete; rfl
  | cons key keys ih =>
    intro s noDelete
    simp only [dispatch, h key, ih]

theorem mapKeys_perm {α : Type} (k : Keeper α) (cbs : List (String × QueryCallbacks α))
    (hp : cbs.Perm k.callbacks) :
    sortStrings (mapKeys { k with callbacks := cbs }) = sortStrings (mapKeys k) := by
  apply List.eq_of_perm_of_sorted _ (sortStrings_sorted _) (sortStrings_sorted _)
  refine (sortStrings_perm _).trans (List.Perm.trans ?_ (sortStrings_perm _).symm)
  exact (hp.map Prod.fst).dedup

theorem SubmitQueryResponse_perm {α : Type} (k : Keeper α) (ctx : Context) (s : State α)
    (msg : MsgSubmitQueryResponse) (cbs : List (String × QueryCallbacks α))
    (hp : cbs.Perm k.callbacks) (hnd : (k.callbacks.map Prod.fst).Nodup) :
    SubmitQueryResponse { k with callbacks := cbs } ctx s msg = SubmitQueryResponse k ctx s msg := by
  have hrun : ∀ q, runCallbacks { k with callbacks := cbs } ctx s q msg
      = runCallbacks k ctx s q msg := by
    intro q
    simp only [runCallbacks]
    rw [mapKeys_perm k cbs hp]
    exact dispatch_congr _ _ ctx q msg (fun m => lookup_perm cbs k.callbacks hp hnd m) _ s false
  have hver : ∀ q, verifyProof { k with callbacks := cbs } s q msg = verifyProof k s q msg :=
    fun _ => rfl
  simp only [SubmitQueryResponse, hrun, hver]

theorem pair_sublist_of_sorted_prefix (l o : List String) (a b : String) (hab : a < b)
    (hpre : l <+: o) (hs : o.Sorted (· < ·)) (ha : a ∈ o) (hb : b ∈ l) : [a, b].Sublist l := by
  obtain ⟨rest, rfl⟩ := hpre
  have hs1 := List.pairwise_append.1 hs
  have hal : a ∈ l := by
    rcases List.mem_append.1 ha with h | h
    · exact h
    · exact absurd (hs1.2.2 b hb a h) (lt_asymm hab)
  obtain ⟨l1, l2, rfl⟩ := List.append_of_mem hal
  have hs2 := List.pairwise_append.1 hs1.1
  have hb2 : b ∈ l2 := by
    rcases List.mem_append.1 hb with h | h
    · exact absurd (hs2.2.2 b h a (List.mem_cons_self a l2)) (lt_asymm hab)
    · rcases List.mem_cons.1 h with h | h
      · exact absurd (h ▸ hab) (lt_irrefl a)
      · exact h
  exact (List.Sublist.cons₂ a (List.singleton_sublist.2 hb2)).trans
    (List.sublist_append_right l1 (a :: l2))

/-- C5: for every registry and every stored Query `q`: the modules whose handler
`SubmitQueryResponse` invokes are, in order, an initial segment of
`dispatchOrder k q`, which is strictly increasing in the order of strings and
holds exactly the registered modules with a handler for `q.CallbackId`; it is all
of that list when the response succeeds, and once the proof block is passed it is
cut short only after a handler that returned an error other than the retain
signal, which is then the last one invoked and the returned error. So when
"alpha" owns the callback id and "beta" is invoked, "alpha" was invoked before
"beta". The whole response is the same for every order of registration of the
same handlers. -/
theorem SubmitQueryResponse_dispatch_order {α : Type} (k : Keeper α) (ctx : Context)
    (s : State α) (msg : MsgSubmitQueryResponse) (q : Query)
    (hq : GetQuery s msg.QueryId = some q) :
    (dispatchOrder k q).Sorted (· < ·)
    ∧ (∀ m, m ∈ dispatchOrder k q ↔
        ∃ module, k.callbacks.lookup m = some module ∧ module.Has q.CallbackId = true)
    ∧ (SubmitQueryResponse k ctx s msg).calls.map Prod.fst <+: dispatchOrder k q
    ∧ ((SubmitQueryResponse k ctx s msg).outcome = .ok →
        (SubmitQueryResponse k ctx s msg).calls.map Prod.fst = dispatchOrder k q)
    ∧ (verifyProof k s q msg = none →
        (SubmitQueryResponse k ctx s msg).calls.map Prod.fst ≠ dispatchOrder k q →
        ∃ m e, e ≠ Error.ErrSucceededNoDelete
          ∧ (SubmitQueryResponse k ctx s msg).calls.getLast? = some (m, some e)
          ∧ (SubmitQueryResponse k ctx s msg).outcome = .error e)
    ∧ (∀ m e, (m, some e) ∈ (SubmitQueryResponse k ctx s msg).calls →
        e ≠ Error.ErrSucceededNoDelete →
        (SubmitQueryResponse k ctx s msg).calls.getLast? = some (m, some e))
    ∧ ("alpha" ∈ dispatchOrder k q →
        "beta" ∈ (SubmitQueryResponse k ctx s msg).calls.map Prod.fst →
        ["alpha", "beta"].Sublist ((SubmitQueryResponse k ctx s msg).calls.map Prod.fst))
    ∧ (∀ cbs : List (String × QueryCallbacks α), cbs.Perm k.callbacks →
        (k.callbacks.map Prod.fst).Nodup →
        SubmitQueryResponse { k with callbacks := cbs } ctx s msg
          = SubmitQueryResponse k ctx s msg) := by
  have hsp := runCallbacks_spec k ctx s q msg
  have hcalls : (SubmitQueryResponse k ctx s msg).calls = []
      ∨ (SubmitQueryResponse k ctx s msg).calls = (runCallbacks k ctx s q msg).calls := by
    cases hv : verifyProof k s q msg with
    | some out => exact Or.inl (SubmitQueryResponse_of_verifyProof k ctx s msg q hq out hv).2.1
    | none => exact Or.inr (SubmitQueryResponse_verified k ctx s msg q hq hv).1
  have hpre : (SubmitQueryResponse k ctx s msg).calls.map Prod.fst <+: dispatchOrder k q := by
    rcases hcalls with h | h
    · rw [h]; exact List.nil_prefix
    · rw [h]; exact hsp.calls_prefix
  refine ⟨dispatchOrder_sorted k q, mem_dispatchOrder k q, hpre, ?_, ?_, ?_, ?_, ?_⟩
  · intro hok
    obtain ⟨_, herr, _, hc⟩ := SubmitQueryResponse_ok k ctx s msg q hq hok
    rw [hc]
    exact hsp.calls_all herr
  · intro hv hne
    obtain ⟨hc, _, hsome⟩ := SubmitQueryResponse_verified k ctx s msg q hq hv
    cases he : (runCallbacks k ctx s q msg).err with
    | none =>
      rw [hc] at hne
      exact absurd (hsp.calls_all he) hne
    | some e =>
      obtain ⟨h1, m, h2⟩ := hsp.err_last e he
      exact ⟨m, e, h1, by rw [hc]; exact h2, (hsome e he).1⟩
  · intro m e hmem hne
    rcases hcalls with h | h
    · rw [h] at hmem
      simp at hmem
    · rw [h] at hmem ⊢
      exact (hsp.call_err m e hmem hne).2
  · intro ha hb
    exact pair_sublist_of_sorted_prefix _ _ "alpha" "beta"
      (String.lt_iff_toList_lt.2 (by decide)) hpre
      (dispatchOrder_sorted k q) ha hb
  · intro cbs hp hnd
    exact SubmitQueryResponse_perm k ctx s msg cbs hp hnd

/-- C5, evaluated: with "beta" registered before "alpha", both owning "cb", the
handler of "alpha" runs first. -/
theorem SubmitQueryResponse_dispatch_order_witness :
    GetQuery (demoState (demoQuery "store/bank/balance" (-1) 0))
        (demoQuery "store/bank/balance" (-1) 0).Id
      = some (demoQuery "store/bank/balance" (-1) 0)
    ∧ (SubmitQueryResponse (demoKeeper [("beta", cbBump), ("alpha", cbBump)]) ⟨42⟩
        (demoState (demoQuery "store/bank/balance" (-1) 0))
        ⟨(demoQuery "store/bank/balance" (-1) 0).Id, [7], none, 10⟩).calls.map Prod.fst
      = dispatchOrder (demoKeeper [("beta", cbBump), ("alpha", cbBump)])
          (demoQuery "store/bank/balance" (-1) 0)
    ∧ dispatchOrder (demoKeeper [("beta", cbBump), ("alpha", cbBump)])
          (demoQuery "store/bank/balance" (-1) 0) = ["alpha", "beta"] :=
  ⟨rfl,
    (SubmitQueryResponse_dispatch_order (demoKeeper [("beta", cbBump), ("alpha", cbBump)]) ⟨42⟩
      (demoState (demoQuery "store/bank/balance" (-1) 0))
      ⟨(demoQuery "store/bank/balance" (-1) 0).Id, [7], none, 10⟩
      (demoQuery "store/bank/balance" (-1) 0) rfl).2.2.2.1 rfl,
    by decide⟩

/-! ### Callback errors -/

/-- C6, as stated, fails: with "alpha" and "beta" owning the callback id, the handler
of "alpha" adds one to the application state and returns `nil`, the handler of
"beta" returns an ordinary error; `SubmitQueryResponse` returns that error and the
state it leaves still carries the effect of "alpha". -/
theorem SubmitQueryResponse_callback_error_keeps_effects :
    (SubmitQueryResponse (demoKeeper [("alpha", cbBump), ("beta", cbFail)]) ⟨42⟩
        (demoState (demoQuery "store/bank/balance" (-1) 5))
        ⟨(demoQuery "store/bank/balance" (-1) 5).Id, [7], none, 10⟩).outcome
      = .error (.Errorf "boom")
    ∧ (SubmitQueryResponse (demoKeeper [("alpha", cbBump), ("beta", cbFail)]) ⟨42⟩
        (demoState (demoQuery "store/bank/balance" (-1) 5))
        ⟨(demoQuery "store/bank/balance" (-1) 5).Id, [7], none, 10⟩).calls
      = [("alpha", none), ("beta", some (.Errorf "boom"))]
    ∧ (demoState (demoQuery "store/bank/balance" (-1) 5)).app = 0
    ∧ (SubmitQueryResponse (demoKeeper [("alpha", cbBump), ("beta", cbFail)]) ⟨42⟩
        (demoState (demoQuery "store/bank/balance" (-1) 5))
        ⟨(demoQuery "store/bank/balance" (-1) 5).Id, [7], none, 10⟩).state.app = 1
    ∧ (SubmitQueryResponse (demoKeeper [("alpha", cbBump), ("beta", cbFail)]) ⟨42⟩
        (demoState (demoQuery "store/bank/balance" (-1) 5))
        ⟨(demoQuery "store/bank/balance" (-1) 5).Id, [7], none, 10⟩).state
      ≠ demoState (demoQuery "store/bank/balance" (-1) 5) := by
  refine ⟨rfl, rfl, rfl, rfl, ?_⟩
  intro h
  have happ := congrArg State.app h
  exact absurd happ (by decide)

/-- C6, amended: when a callback invoked for a stored Query returns an error `e`
other than the retain signal, `SubmitQueryResponse` returns `e`, that call is the
last one it makes, and the state it leaves is the state before the message
changed by the invoked handlers and by nothing else: the intake persists no
DataPoint, neither deletes nor rewrites the Query, and emits no event. -/
theorem SubmitQueryResponse_callback_error {α : Type} (k : Keeper α) (ctx : Context)
    (s : State α) (msg : MsgSubmitQueryResponse) (q : Query)
    (hq : GetQuery s msg.QueryId = some q) (m : String) (e : Error)
    (hc : (m, some e) ∈ (SubmitQueryResponse k ctx s msg).calls)
    (he : e ≠ Error.ErrSucceededNoDelete) :
    (SubmitQueryResponse k ctx s msg).outcome = .error e
    ∧ (SubmitQueryResponse k ctx s msg).calls.getLast? = some (m, some e)
    ∧ (SubmitQueryResponse k ctx s msg).state
      = applyCalls k ctx q msg ((SubmitQueryResponse k ctx s msg).calls.map Prod.fst) s := by
  cases hv : verifyProof k s q msg with
  | some out =>
    rw [SubmitQueryResponse_found k ctx s msg q hq, hv] at hc
    simp at hc
  | none =>
    obtain ⟨hcalls, _, hsome⟩ := SubmitQueryResponse_verified k ctx s msg q hq hv
    have hsp := runCallbacks_spec k ctx s q msg
    rw [hcalls] at hc ⊢
    obtain ⟨herr, hlast⟩ := hsp.call_err m e hc he
    obtain ⟨hout, hstate⟩ := hsome e herr
    exact ⟨hout, hlast, by rw [hstate]; exact hsp.state_eq⟩

/-- C6 amended, evaluated: "beta" fails after "alpha" ran, and the error of "beta"
is what the handler returns. -/
theorem SubmitQueryResponse_callback_error_witness :
    GetQuery (demoState (demoQuery "store/bank/balance" (-1) 5))
        (demoQuery "store/bank/balance" (-1) 5).Id
      = some (demoQuery "store/bank/balance" (-1) 5)
    ∧ ("beta", some (Error.Errorf "boom")) ∈
        (SubmitQueryResponse (demoKeeper [("alpha", cbBump), ("beta", cbFail)]) ⟨42⟩
          (demoState (demoQuery "store/bank/balance" (-1) 5))
          ⟨(demoQuery "store/bank/balance" (-1) 5).Id, [7], none, 10⟩).calls
    ∧ Error.Errorf "boom" ≠ Error.ErrSucceededNoDelete
    ∧ (SubmitQueryResponse (demoKeeper [("alpha", cbBump), ("beta", cbFail)]) ⟨42⟩
        (demoState (demoQuery "store/bank/balance" (-1) 5))
        ⟨(demoQuery "store/bank/balance" (-1) 5).Id, [7], none, 10⟩).outcome
      = .error (.Errorf "boom") :=
  ⟨rfl, by decide, by decide,
    (SubmitQueryResponse_callback_error (demoKeeper [("alpha", cbBump), ("beta", cbFail)]) ⟨42⟩
      (demoState (demoQuery "store/bank/balance" (-1) 5))
      ⟨(demoQuery "store/bank/balance" (-1) 5).Id, [7], none, 10⟩
      (demoQuery "store/bank/balance" (-1) 5) rfl "beta" (.Errorf "boom")
      (by decide) (by decide)).1⟩

/-! ### Proof errors -/

/-- C7: for a stored Query whose query type ends in the segment "key": when the
response carries no proof, or the consensus state at the response height plus one
is not found, or the client state is not found, or the verifier is reached (proof
present, both states found, the client a Tendermint client, the type with a second
segment) and reports failure of the membership check (non-empty result) or of the
non-membership check (empty result), `SubmitQueryResponse` returns an error,
invokes no callback and leaves the state, both stores included, as it was. -/
theorem SubmitQueryResponse_proof_error {α : Type} (k : Keeper α) (ctx : Context)
    (s : State α) (msg : MsgSubmitQueryResponse) (q : Query)
    (hq : GetQuery s msg.QueryId = some q)
    (hkey : (Split q.QueryType).getLast? = some "key")
    (h : msg.ProofOps = none
      ∨ k.IBCKeeper.GetClientConsensusState s (clientIdOf k s q) (proofHeight k q msg) = none
      ∨ k.IBCKeeper.GetClientState s (clientIdOf k s q) = none
      ∨ ∃ proofOps consensusState specs substore,
          msg.ProofOps = some proofOps
          ∧ k.IBCKeeper.GetClientConsensusState s (clientIdOf k s q) (proofHeight k q msg)
              = some consensusState
          ∧ k.IBCKeeper.GetClientState s (clientIdOf k s q) = some (.tendermint specs)
          ∧ (Split q.QueryType).get? 1 = some substore
          ∧ ((msg.Result ≠ [] ∧
                k.lib.VerifyMembership ((k.lib.ConvertProofs proofOps).getD []) specs
                  consensusState.Root [substore, k.lib.PathEscape q.Request] msg.Result ≠ none)
              ∨ (msg.Result = [] ∧
                k.lib.VerifyNonMembership ((k.lib.ConvertProofs proofOps).getD []) specs
                  consensusState.Root [substore, k.lib.PathEscape q.Request] ≠ none))) :
    (∃ e, (SubmitQueryResponse k ctx s msg).outcome = .error e)
    ∧ (SubmitQueryResponse k ctx s msg).calls = []
    ∧ (SubmitQueryResponse k ctx s msg).state = s := by
  have hv : ∃ e, verifyProof k s q msg = some (.error e) := by
    unfold verifyProof
    simp only [hkey, if_true]
    cases hp : msg.ProofOps with
    | none => exact ⟨_, rfl⟩
    | some proofOps =>
      simp only []
      by_cases hneg : msg.Height < 0
      · simp only [ToUint64E, hneg, if_true]
        exact ⟨_, rfl⟩
      · simp only [ToUint64E, hneg, if_false]
        have hcs : ∀ x, k.IBCKeeper.GetClientConsensusState s
            ((k.IBCKeeper.GetConnection s q.ConnectionId).getD ⟨""⟩).ClientId
            ⟨k.lib.ParseChainID q.ChainId, (msg.Height.toNat + 1) % 2 ^ 64⟩ = x ↔
            k.IBCKeeper.GetClientConsensusState s (clientIdOf k s q) (proofHeight k q msg) = x :=
          fun _ => Iff.rfl
        have hcl : ∀ x, k.IBCKeeper.GetClientState s
            ((k.IBCKeeper.GetConnection s q.ConnectionId).getD ⟨""⟩).ClientId = x ↔
            k.IBCKeeper.GetClientState s (clientIdOf k s q) = x :=
          fun _ => Iff.rfl
        cases hc : k.IBCKeeper.GetClientConsensusState s
            ((k.IBCKeeper.GetConnection s q.ConnectionId).getD ⟨""⟩).ClientId
            ⟨k.lib.ParseChainID q.ChainId, (msg.Height.toNat + 1) % 2 ^ 64⟩ with
        | none => exact ⟨_, rfl⟩
        | some consensusState =>
          simp only []
          cases hcst : k.IBCKeeper.GetClientState s
              ((k.IBCKeeper.GetConnection s q.ConnectionId).getD ⟨""⟩).ClientId with
          | none => exact ⟨_, rfl⟩
          | some clientState =>
            simp only []
            rcases h with h | h | h | h
            · rw [hp] at h; exact Option.noConfusion h
            · rw [(hcs _).1 hc] at h; exact Option.noConfusion h
            · rw [(hcl _).1 hcst] at h; exact Option.noConfusion h
            · obtain ⟨proofOps1, cs1, specs, substore, h1, h2, h3, h4, h5⟩ := h
              rw [hp] at h1
              rw [(hcs _).1 hc] at h2
              rw [(hcl _).1 hcst] at h3
              simp only [Option.some.injEq] at h1 h2 h3
              subst h1 h2 h3
              simp only [h4]
              rcases h5 with ⟨hne, hver⟩ | ⟨hemp, hver⟩
              · have hlen : msg.Result.length ≠ 0 := by
                  simpa [List.length_eq_zero] using hne
                simp only [hlen, ne_eq, not_false_eq_true, if_true]
                cases hm : k.lib.VerifyMembership ((k.lib.ConvertProofs proofOps).getD []) specs
                    consensusState.Root [substore, k.lib.PathEscape q.Request] msg.Result with
                | none => exact absurd hm hver
                | some err => exact ⟨_, rfl⟩
              · have hlen : msg.Result.length = 0 := by
                  simp [hemp]
                simp only [hlen, ne_eq, not_true_eq_false, if_false]
                cases hm : k.lib.VerifyNonMembership ((k.lib.ConvertProofs proofOps).getD [])
                    specs consensusState.Root [substore, k.lib.PathEscape q.Request] with
                | none => exact absurd hm hver
                | some err => exact ⟨_, rfl⟩
  obtain ⟨e, he⟩ := hv
  obtain ⟨h1, h2, h3⟩ := SubmitQueryResponse_of_verifyProof k ctx s msg q hq _ he
  exact ⟨⟨e, h1⟩, h2, h3⟩

/-- C7, evaluated: a response with a proof for the query of type "store/bank/key",
with consensus state and Tendermint client found, whose value `[9]` the verifier
rejects: the handler returns an error and the registered callback is not run. -/
theorem SubmitQueryResponse_proof_error_witness :
    GetQuery (demoState (demoQuery "store/bank/key" (-1) 5))
        (demoQuery "store/bank/key" (-1) 5).Id
      = some (demoQuery "store/bank/key" (-1) 5)
    ∧ (Split (demoQuery "store/bank/key" (-1) 5).QueryType).getLast? = some "key"
    ∧ demoLib.VerifyMembership [] [] [1] ["bank", demoLib.PathEscape [1]] [9] ≠ none
    ∧ (SubmitQueryResponse (demoKeeper [("m", cbBump)]) ⟨42⟩
        (demoState (demoQuery "store/bank/key" (-1) 5))
        ⟨(demoQuery "store/bank/key" (-1) 5).Id, [9], some [], 10⟩).calls = []
    ∧ (SubmitQueryResponse (demoKeeper [("m", cbBump)]) ⟨42⟩
        (demoState (demoQuery "store/bank/key" (-1) 5))
        ⟨(demoQuery "store/bank/key" (-1) 5).Id, [9], some [], 10⟩).state
      = demoState (demoQuery "store/bank/key" (-1) 5) :=
  ⟨rfl, by decide, by decide,
    (SubmitQueryResponse_proof_error (demoKeeper [("m", cbBump)]) ⟨42⟩
      (demoState (demoQuery "store/bank/key" (-1) 5))
      ⟨(demoQuery "store/bank/key" (-1) 5).Id, [9], some [], 10⟩
      (demoQuery "store/bank/key" (-1) 5) rfl (by decide)
      (Or.inr (Or.inr (Or.inr ⟨[], ⟨[1]⟩, [], "bank", rfl, by decide, by decide, by decide,
        Or.inl ⟨by decide, by decide⟩⟩)))).2⟩

/-! ## Staleness -/

theorem wrapInt64_of_inInt64 (x : Int) (h : inInt64 x) : wrapInt64 x = x := by
  unfold inInt64 at h
  unfold wrapInt64
  omega

theorem ToInt64E_of_lt (a : Nat) (h : a < 2 ^ 63) : ToInt64E a = a := by
  unfold ToInt64E
  have h1 : ((a % 2 ^ 64 : Nat) : Int) = a := by
    have : a % 2 ^ 64 = a := Nat.mod_eq_of_lt (by omega)
    rw [this]
  rw [wrapInt64_of_inInt64]
  · exact_mod_cast h1
  · unfold inInt64
    omega

theorem MakeRequest_no_module {α : Type} (k : Keeper α) (s : State α)
    (connection_id chain_id query_type : String) (request : Bytes) (period : Int)
    (callback_id : String) (ttl : Nat) :
    (MakeRequest k s connection_id chain_id query_type request period "" callback_id ttl 0).2
      = none := by
  simp only [MakeRequest]
  cases GetQuery s (k.GenerateQueryHash connection_id chain_id query_type request "" 0) <;> simp

theorem GetDatapointOrRequest_cached {α : Type} (k : Keeper α) (ctx : Context) (s : State α)
    (module connection_id chain_id query_type : String) (request : Bytes) (max_age : Nat)
    (dp : DataPoint)
    (hdp : s.datapoints (k.GenerateQueryHash connection_id chain_id query_type request module 0)
      = some dp) :
    GetDatapointOrRequest k ctx s module connection_id chain_id query_type request max_age 0 =
      if dp.LocalHeight < wrapInt64 (ctx.BlockHeight - ToInt64E max_age) then
        ((MakeRequest k s connection_id chain_id query_type request (-1) "" "" max_age 0).1,
          default, some (.Errorf "stale data; query submitted"))
      else (s, dp, none) := by
  have hm := MakeRequest_no_module k s connection_id chain_id query_type request (-1) "" max_age
  simp only [GetDatapointOrRequest, GetDatapoint, GetDatapointForId, hdp]
  split
  · rename_i hlt
    cases hr : MakeRequest k s connection_id chain_id query_type request (-1) "" "" max_age 0 with
    | mk s1 r =>
      rw [hr] at hm
      simp only at hm
      subst hm
      simp
  · rfl

/-- C8: for a cached DataPoint with local height `H` (an `int64` value, as every
recorded block height is) and `max_age = A < 2^63` with `H + A + 1` in the `int64`
range, at height 0: at block height `H + A` `GetDatapointOrRequest` returns the
cached DataPoint with no error and the state untouched; at block height
`H + A + 1` it returns the error "stale data; query submitted" and the state is
the one left by `MakeRequest` with period -1, no callback and ttl `A`, which
returned `nil` and left a Query with `LastHeight = 0` stored. At every block
height `c` for which `c - A` does not leave the `int64` range, the cached value
is returned exactly when not `H < c - A`. -/
theorem GetDatapointOrRequest_staleness {α : Type} (k : Keeper α) (s : State α)
    (module connection_id chain_id query_type : String) (request : Bytes) (A : Nat)
    (dp : DataPoint)
    (hdp : s.datapoints (k.GenerateQueryHash connection_id chain_id query_type request module 0)
      = some dp)
    (hA : A < 2 ^ 63) (hH : inInt64 dp.LocalHeight) (hHA : inInt64 (dp.LocalHeight + A + 1)) :
    GetDatapointOrRequest k ⟨dp.LocalHeight + A⟩ s module connection_id chain_id query_type
        request A 0 = (s, dp, none)
    ∧ GetDatapointOrRequest k ⟨dp.LocalHeight + A + 1⟩ s module connection_id chain_id
        query_type request A 0
      = ((MakeRequest k s connection_id chain_id query_type request (-1) "" "" A 0).1, default,
          some (.Errorf "stale data; query submitted"))
    ∧ (MakeRequest k s connection_id chain_id query_type request (-1) "" "" A 0).2 = none
    ∧ (∃ q, (MakeRequest k s connection_id chain_id query_type request (-1) "" "" A 0).1.queries
          q.Id = some q ∧ q.LastHeight = 0)
    ∧ (∀ c : Int, inInt64 (c - A) →
        ((GetDatapointOrRequest k ⟨c⟩ s module connection_id chain_id query_type request A 0).2.2
            = none
          ↔ ¬ dp.LocalHeight < c - A)) := by
  have hm := MakeRequest_no_module k s connection_id chain_id query_type request (-1) "" A
  have hcast := ToInt64E_of_lt A hA
  have hH1 := hH
  have hHA1 := hHA
  unfold inInt64 at hH1 hHA1
  have hb : ∀ c : Int, (⟨c⟩ : Context).BlockHeight = c := fun _ => rfl
  refine ⟨?_, ?_, hm, ?_, ?_⟩
  · rw [GetDatapointOrRequest_cached k _ s module connection_id chain_id query_type request A dp
      hdp, hcast, hb, (by omega : dp.LocalHeight + (A : Int) - A = dp.LocalHeight),
      wrapInt64_of_inInt64 _ hH]
    simp
  · rw [GetDatapointOrRequest_cached k _ s module connection_id chain_id query_type request A dp
      hdp, hcast, hb, (by omega : dp.LocalHeight + (A : Int) + 1 - A = dp.LocalHeight + 1),
      wrapInt64_of_inInt64 _ (by unfold inInt64; omega)]
    simp
  · rcases MakeRequest_height_zero_cases k s connection_id chain_id query_type request (-1) ""
      "" A with h1 | h2 | h3
    · exact absurd hm h1.1
    · refine ⟨NewQuery k "" connection_id chain_id query_type request (-1) "" A 0, ?_, rfl⟩
      rw [h2.2.2]
      exact GetQuery_SetQuery_self s _
    · obtain ⟨_, q, _, hs⟩ := h3
      refine ⟨{ q with LastHeight := 0 }, ?_, rfl⟩
      rw [hs]
      exact GetQuery_SetQuery_self s _
  · intro c hc
    rw [GetDatapointOrRequest_cached k _ s module connection_id chain_id query_type request A dp
      hdp, hcast, hb, wrapInt64_of_inInt64 _ hc]
    by_cases hlt : dp.LocalHeight < c - A
    · simp [hlt]
    · simp [hlt]

/-- C8, evaluated: a DataPoint recorded at block height 100 with `max_age = 20` is
returned at block height 120 and is stale at block height 121. -/
theorem GetDatapointOrRequest_staleness_witness :
    (SetDatapointForId ⟨100⟩ emptyState (demoHash "connection-0" "GAIA" "store/bank/key" [1]
        "stakeibc" 0) [7] 90).datapoints
        ((demoKeeper []).GenerateQueryHash "connection-0" "GAIA" "store/bank/key" [1] "stakeibc" 0)
      = some ⟨demoHash "connection-0" "GAIA" "store/bank/key" [1] "stakeibc" 0, 90, 100, [7]⟩
    ∧ 20 < 2 ^ 63
    ∧ inInt64 100
    ∧ inInt64 (100 + (20 : Nat) + 1)
    ∧ (GetDatapointOrRequest (demoKeeper []) ⟨100 + (20 : Nat)⟩
        (SetDatapointForId ⟨100⟩ emptyState (demoHash "connection-0" "GAIA" "store/bank/key" [1]
          "stakeibc" 0) [7] 90)
        "stakeibc" "connection-0" "GAIA" "store/bank/key" [1] 20 0).2
      = (⟨demoHash "connection-0" "GAIA" "store/bank/key" [1] "stakeibc" 0, 90, 100, [7]⟩, none)
    ∧ (GetDatapointOrRequest (demoKeeper []) ⟨100 + (20 : Nat) + 1⟩
        (SetDatapointForId ⟨100⟩ emptyState (demoHash "connection-0" "GAIA" "store/bank/key" [1]
          "stakeibc" 0) [7] 90)
        "stakeibc" "connection-0" "GAIA" "store/bank/key" [1] 20 0).2.2
      = some (.Errorf "stale data; query submitted") :=
  ⟨rfl, by decide, by decide, by decide,
    congrArg Prod.snd
      (GetDatapointOrRequest_staleness (demoKeeper [])
        (SetDatapointForId ⟨100⟩ emptyState (demoHash "connection-0" "GAIA" "store/bank/key" [1]
          "stakeibc" 0) [7] 90)
        "stakeibc" "connection-0" "GAIA" "store/bank/key" [1] 20
        ⟨demoHash "connection-0" "GAIA" "store/bank/key" [1] "stakeibc" 0, 90, 100, [7]⟩
        rfl (by decide) (by decide) (by decide)).1,
    congrArg (fun r => r.2.2)
      (GetDatapointOrRequest_staleness (demoKeeper [])
        (SetDatapointForId ⟨100⟩ emptyState (demoHash "connection-0" "GAIA" "store/bank/key" [1]
          "stakeibc" 0) [7] 90)
        "stakeibc" "connection-0" "GAIA" "store/bank/key" [1] 20
        ⟨demoHash "connection-0" "GAIA" "store/bank/key" [1] "stakeibc" 0, 90, 100, [7]⟩
        rfl (by decide) (by decide) (by decide)).2.1⟩

/-! ## Callback validation at request time -/

/-- C11, as stated, fails: module "m" is registered and owns only "cb"; a first
request with callback id "cb" stores the Query; a second request for the same
fingerprint with the callback id "bogus", which "m" does not own, returns `nil`. -/
theorem MakeRequest_existing_skips_callback_check :
    cbBump.Has "bogus" = false
    ∧ (MakeRequest (demoKeeper [("m", cbBump)]) emptyState "connection-0" "GAIA"
        "store/bank/key" [1] (-1) "m" "cb" 0 0).2 = none
    ∧ (MakeRequest (demoKeeper [("m", cbBump)])
        (MakeRequest (demoKeeper [("m", cbBump)]) emptyState "connection-0" "GAIA"
          "store/bank/key" [1] (-1) "m" "cb" 0 0).1
        "connection-0" "GAIA" "store/bank/key" [1] (-1) "m" "bogus" 0 0).2 = none :=
  ⟨by decide, rfl, rfl⟩

/-- C11, amended: at height 0 with a non-empty module, when no Query is stored
under the fingerprint, an unregistered module or a callback id the module does
not own makes `MakeRequest` return an error and leave the state unchanged; when a
Query is stored under the fingerprint the callback is not checked, the call
returns `nil` and that Query is rewritten with `LastHeight = 0`. -/
theorem MakeRequest_callback_check {α : Type} (k : Keeper α) (s : State α)
    (connection_id chain_id query_type : String) (request : Bytes) (period : Int)
    (module callback_id : String) (ttl : Nat) (hm : module ≠ "")
    (hcb : k.callbacks.lookup module = none
      ∨ ∃ handler, k.callbacks.lookup module = some handler ∧ handler.Has callback_id = false) :
    (GetQuery s (k.GenerateQueryHash connection_id chain_id query_type request module 0) = none →
      (∃ e, (MakeRequest k s connection_id chain_id query_type request period module callback_id
          ttl 0).2 = some e)
      ∧ (MakeRequest k s connection_id chain_id query_type request period module callback_id
          ttl 0).1 = s)
    ∧ (∀ q,
        GetQuery s (k.GenerateQueryHash connection_id chain_id query_type request module 0)
          = some q →
        MakeRequest k s connection_id chain_id query_type request period module callback_id ttl 0
          = (SetQuery s { q with LastHeight := 0 }, none)) := by
  refine ⟨?_, fun q hq => MakeRequest_existing k s connection_id chain_id query_type request
    period module callback_id ttl q hq⟩
  intro hq
  rcases hcb with hl | ⟨handler, hl, hh⟩
  · simp [MakeRequest, hq, hm, hl]
  · simp [MakeRequest, hq, hm, hl, hh]

/-- C11 amended, evaluated: on the empty store a request that names the registered
module "m" with the callback id "bogus" fails and stores nothing. -/
theorem MakeRequest_callback_check_witness :
    "m" ≠ ""
    ∧ cbBump.Has "bogus" = false
    ∧ GetQuery emptyState ((demoKeeper [("m", cbBump)]).GenerateQueryHash "connection-0" "GAIA"
        "store/bank/key" [1] "m" 0) = none
    ∧ (MakeRequest (demoKeeper [("m", cbBump)]) emptyState "connection-0" "GAIA"
        "store/bank/key" [1] (-1) "m" "bogus" 0 0).1 = emptyState :=
  ⟨by decide, by decide, rfl,
    ((MakeRequest_callback_check (demoKeeper [("m", cbBump)]) emptyState "connection-0" "GAIA"
      "store/bank/key" [1] (-1) "m" "bogus" 0 (by decide)
      (Or.inr ⟨cbBump, rfl, by decide⟩)).1 rfl).2⟩

/-! ## Registration: theorems -/

theorem lookup_append_single {β : Type} (l : List (String × β)) (a m : String) (b : β) :
    (l ++ [(a, b)]).lookup m =
      match l.lookup m with
      | some x => some x
      | none => if m = a then some b else none := by
  induction l with
  | nil =>
    by_cases h : m = a
    · simp [List.lookup, h]
    · have hb : (m == a) = false := by simpa using h
      simp [List.lookup, h, hb]
  | cons p l ih =>
    obtain ⟨a1, b1⟩ := p
    by_cases h1 : m = a1
    · subst h1
      simp
    · have hb : (m == a1) = false := by simpa using h1
      simp only [List.cons_append, List.lookup_cons, hb]
      exact ih

/-- C12: when the module name is already registered `SetCallbackHandler` returns an
error and the keeper, registry included, is unchanged; otherwise it returns `nil`,
the registry maps the module name to the handler set returned by
`RegisterCallbacks`, every other name is mapped as before, and the rest of the
keeper is unchanged. -/
theorem SetCallbackHandler_no_override {α : Type} (k : Keeper α) (module : String)
    (handler : CallbackHandler α) :
    ((k.callbacks.lookup module).isSome = true →
      (∃ e, (SetCallbackHandler k module handler).2 = some e)
      ∧ (SetCallbackHandler k module handler).1 = k)
    ∧ (k.callbacks.lookup module = none →
      (SetCallbackHandler k module handler).2 = none
      ∧ (SetCallbackHandler k module handler).1.callbacks.lookup module
          = some handler.RegisterCallbacks
      ∧ (∀ m, m ≠ module →
          (SetCallbackHandler k module handler).1.callbacks.lookup m = k.callbacks.lookup m)
      ∧ (SetCallbackHandler k module handler).1.IBCKeeper = k.IBCKeeper
      ∧ (SetCallbackHandler k module handler).1.lib = k.lib
      ∧ (SetCallbackHandler k module handler).1.GenerateQueryHash = k.GenerateQueryHash) := by
  constructor
  · intro h
    cases hl : k.callbacks.lookup module with
    | none => rw [hl] at h; simp at h
    | some x => simp [SetCallbackHandler, hl]
  · intro hl
    have hr : SetCallbackHandler k module handler
        = ({ k with callbacks := k.callbacks ++ [(module, handler.RegisterCallbacks)] }, none) := by
      simp [SetCallbackHandler, hl]
    rw [hr]
    refine ⟨rfl, ?_, ?_, rfl, rfl, rfl⟩
    · rw [lookup_append_single, hl]
      simp
    · intro m hm
      rw [lookup_append_single]
      cases k.callbacks.lookup m with
      | none => simp [hm]
      | some x => rfl

/-- C12, evaluated: registering "alpha" a second time fails and keeps the first
handler set; registering "beta" next to "alpha" succeeds. -/
theorem SetCallbackHandler_no_override_witness :
    ((demoKeeper [("alpha", cbBump)]).callbacks.lookup "alpha").isSome = true
    ∧ (SetCallbackHandler (demoKeeper [("alpha", cbBump)]) "alpha" ⟨cbFail⟩).1
        = demoKeeper [("alpha", cbBump)]
    ∧ (demoKeeper [("alpha", cbBump)]).callbacks.lookup "beta" = none
    ∧ (SetCallbackHandler (demoKeeper [("alpha", cbBump)]) "beta" ⟨cbFail⟩).2 = none :=
  ⟨rfl,
    ((SetCallbackHandler_no_override (demoKeeper [("alpha", cbBump)]) "alpha" ⟨cbFail⟩).1 rfl).2,
    rfl,
    ((SetCallbackHandler_no_override (demoKeeper [("alpha", cbBump)]) "beta" ⟨cbFail⟩).2 rfl).1⟩

/-! ## The proof gate -/

theorem verifyProof_eq_none_iff {α : Type} (k : Keeper α) (s : State α)
    (msg : MsgSubmitQueryResponse) (q : Query)
    (hkey : (Split q.QueryType).getLast? = some "key")
    (proofOps : ProofOps) (hp : msg.ProofOps = some proofOps)
    (consensusState : ConsensusState)
    (hcs : k.IBCKeeper.GetClientConsensusState s (clientIdOf k s q) (proofHeight k q msg)
      = some consensusState)
    (clientState : ClientState)
    (hcl : k.IBCKeeper.GetClientState s (clientIdOf k s q) = some clientState) :
    verifyProof k s q msg = none ↔
      (0 ≤ msg.Height ∧ ∃ specs substore,
        clientState = .tendermint specs
        ∧ (Split q.QueryType).get? 1 = some substore
        ∧ (msg.Result ≠ [] →
            k.lib.VerifyMembership ((k.lib.ConvertProofs proofOps).getD []) specs
              consensusState.Root [substore, k.lib.PathEscape q.Request] msg.Result = none)
        ∧ (msg.Result = [] →
            k.lib.VerifyNonMembership ((k.lib.ConvertProofs proofOps).getD []) specs
              consensusState.Root [substore, k.lib.PathEscape q.Request] = none)) := by
  have hcs1 : k.IBCKeeper.GetClientConsensusState s
      ((k.IBCKeeper.GetConnection s q.ConnectionId).getD ⟨""⟩).ClientId
      ⟨k.lib.ParseChainID q.ChainId, (msg.Height.toNat + 1) % 2 ^ 64⟩ = some consensusState := hcs
  have hcl1 : k.IBCKeeper.GetClientState s
      ((k.IBCKeeper.GetConnection s q.ConnectionId).getD ⟨""⟩).ClientId = some clientState := hcl
  unfold verifyProof
  simp only [hkey, if_true, hp]
  by_cases hneg : msg.Height < 0
  · simp only [ToUint64E, hneg, if_true]
    constructor
    · intro h; exact Option.noConfusion h
    · rintro ⟨h0, _⟩; omega
  · have h0 : 0 ≤ msg.Height := by omega
    simp only [ToUint64E, hneg, if_false, hcs1, hcl1, h0, true_and]
    cases hsub : (Split q.QueryType).get? 1 with
    | none =>
      simp only []
      constructor
      · intro h; exact Option.noConfusion h
      · rintro ⟨_, _, _, h, _⟩; exact Option.noConfusion h
    | some substore =>
      simp only []
      cases clientState with
      | other =>
        simp only []
        constructor
        · intro h; exact Option.noConfusion h
        · rintro ⟨_, _, h, _⟩; exact ClientState.noConfusion h
      | tendermint specs =>
        simp only []
        by_cases hres : msg.Result = []
        · have hlen : msg.Result.length = 0 := by simp [hres]
          simp only [hlen, ne_eq, not_true_eq_false, if_false]
          cases hv : k.lib.VerifyNonMembership ((k.lib.ConvertProofs proofOps).getD []) specs
              consensusState.Root [substore, k.lib.PathEscape q.Request] with
          | none =>
            simp only [true_iff]
            refine ⟨specs, substore, rfl, rfl, fun h => absurd hres h, fun _ => hv⟩
          | some err =>
            constructor
            · intro h; exact Option.noConfusion h
            · rintro ⟨sp, sub, h1, h2, _, h4⟩
              simp only [ClientState.tendermint.injEq] at h1
              simp only [Option.some.injEq] at h2
              subst h1 h2
              rw [h4 hres] at hv
              exact Option.noConfusion hv
        · have hlen : msg.Result.length ≠ 0 := by
            simpa [List.length_eq_zero] using hres
          simp only [hlen, ne_eq, not_false_eq_true, if_true]
          cases hv : k.lib.VerifyMembership ((k.lib.ConvertProofs proofOps).getD []) specs
              consensusState.Root [substore, k.lib.PathEscape q.Request] msg.Result with
          | none =>
            simp only [true_iff]
            refine ⟨specs, substore, rfl, rfl, fun _ => hv, fun h => absurd h hres⟩
          | some err =>
            constructor
            · intro h; exact Option.noConfusion h
            · rintro ⟨sp, sub, h1, h2, h3, _⟩
              simp only [ClientState.tendermint.injEq] at h1
              simp only [Option.some.injEq] at h2
              subst h1 h2
              rw [h3 hres] at hv
              exact Option.noConfusion hv

theorem dispatch_reached_iff {α : Type} (k : Keeper α) (ctx : Context) (s : State α)
    (msg : MsgSubmitQueryResponse) (q : Query) (hq : GetQuery s msg.QueryId = some q) :
    ((SubmitQueryResponse k ctx s msg).outcome = .ok
        ∨ (SubmitQueryResponse k ctx s msg).calls ≠ [])
      ↔ verifyProof k s q msg = none := by
  cases hv : verifyProof k s q msg with
  | some out =>
    obtain ⟨h1, h2, _⟩ := SubmitQueryResponse_of_verifyProof k ctx s msg q hq out hv
    constructor
    · rintro (h | h)
      · rw [h1] at h
        exact absurd (h ▸ hv) (verifyProof_ne_ok k s q msg)
      · exact absurd h2 h
    · intro h; exact Option.noConfusion h
  | none =>
    simp only [iff_true]
    obtain ⟨hc, hnone, hsome⟩ := SubmitQueryResponse_verified k ctx s msg q hq hv
    cases he : (runCallbacks k ctx s q msg).err with
    | none => exact Or.inl (hnone he).1
    | some e =>
      right
      obtain ⟨_, m, hlast⟩ := (runCallbacks_spec k ctx s q msg).err_last e he
      rw [hc]
      intro hnil
      rw [hnil] at hlast
      simp at hlast

/-- C20: for a stored Query whose query type ends in the segment "key" and a
response that carries a proof, with the consensus state at the proof height and
the client state found: `SubmitQueryResponse` reaches the callbacks (it returns
success or invokes a callback) exactly when the height is not negative, the
client is a Tendermint client, the query type has a second segment, and the
membership proof of the result (non-empty result) or the non-membership proof
(empty result) verifies against the root of that consensus state at the path made
of that second segment and the path-escaped request. The proof height is the
revision of the chain id with revision height `msg.Height + 1`. -/
theorem SubmitQueryResponse_proof_gate {α : Type} (k : Keeper α) (ctx : Context)
    (s : State α) (msg : MsgSubmitQueryResponse) (q : Query)
    (hq : GetQuery s msg.QueryId = some q)
    (hkey : (Split q.QueryType).getLast? = some "key")
    (proofOps : ProofOps) (hp : msg.ProofOps = some proofOps)
    (consensusState : ConsensusState)
    (hcs : k.IBCKeeper.GetClientConsensusState s (clientIdOf k s q) (proofHeight k q msg)
      = some consensusState)
    (clientState : ClientState)
    (hcl : k.IBCKeeper.GetClientState s (clientIdOf k s q) = some clientState)
    (hh : msg.Height < 2 ^ 63) :
    (((SubmitQueryResponse k ctx s msg).outcome = .ok
        ∨ (SubmitQueryResponse k ctx s msg).calls ≠ [])
      ↔ (0 ≤ msg.Height ∧ ∃ specs substore,
          clientState = .tendermint specs
          ∧ (Split q.QueryType).get? 1 = some substore
          ∧ (msg.Result ≠ [] →
              k.lib.VerifyMembership ((k.lib.ConvertProofs proofOps).getD []) specs
                consensusState.Root [substore, k.lib.PathEscape q.Request] msg.Result = none)
          ∧ (msg.Result = [] →
              k.lib.VerifyNonMembership ((k.lib.ConvertProofs proofOps).getD []) specs
                consensusState.Root [substore, k.lib.PathEscape q.Request] = none)))
    ∧ (((SubmitQueryResponse k ctx s msg).outcome = .ok
          ∨ (SubmitQueryResponse k ctx s msg).calls ≠ []) →
        (SubmitQueryResponse k ctx s msg).calls = (runCallbacks k ctx s q msg).calls)
    ∧ (proofHeight k q msg).RevisionNumber = k.lib.ParseChainID q.ChainId
    ∧ (0 ≤ msg.Height → ((proofHeight k q msg).RevisionHeight : Int) = msg.Height + 1) := by
  refine ⟨?_, ?_, rfl, ?_⟩
  · rw [dispatch_reached_iff k ctx s msg q hq]
    exact verifyProof_eq_none_iff k s msg q hkey proofOps hp consensusState hcs clientState hcl
  · intro h
    have hv := (dispatch_reached_iff k ctx s msg q hq).1 h
    exact (SubmitQueryResponse_verified k ctx s msg q hq hv).1
  · intro h0
    simp only [proofHeight]
    have h1 : msg.Height.toNat + 1 < 2 ^ 64 := by omega
    rw [Nat.mod_eq_of_lt h1]
    push_cast
    rw [Int.toNat_of_nonneg h0]

/-- C20, evaluated: for the query of type "store/bank/key" a response at height 10
with a proof and the value `[7]`, which the verifier accepts at the path
"bank" / request, reaches the callback of module "m". -/
theorem SubmitQueryResponse_proof_gate_witness :
    GetQuery (demoState (demoQuery "store/bank/key" (-1) 5))
        (demoQuery "store/bank/key" (-1) 5).Id
      = some (demoQuery "store/bank/key" (-1) 5)
    ∧ (Split (demoQuery "store/bank/key" (-1) 5).QueryType).getLast? = some "key"
    ∧ (10 : Int) < 2 ^ 63
    ∧ demoLib.VerifyMembership [] [] [1] ["bank", demoLib.PathEscape [1]] [7] = none
    ∧ ((SubmitQueryResponse (demoKeeper [("m", cbBump)]) ⟨42⟩
          (demoState (demoQuery "store/bank/key" (-1) 5))
          ⟨(demoQuery "store/bank/key" (-1) 5).Id, [7], some [], 10⟩).outcome = .ok
        ∨ (SubmitQueryResponse (demoKeeper [("m", cbBump)]) ⟨42⟩
          (demoState (demoQuery "store/bank/key" (-1) 5))
          ⟨(demoQuery "store/bank/key" (-1) 5).Id, [7], some [], 10⟩).calls ≠ []) :=
  ⟨rfl, by decide, by decide, by decide,
    (SubmitQueryResponse_proof_gate (demoKeeper [("m", cbBump)]) ⟨42⟩
      (demoState (demoQuery "store/bank/key" (-1) 5))
      ⟨(demoQuery "store/bank/key" (-1) 5).Id, [7], some [], 10⟩
      (demoQuery "store/bank/key" (-1) 5) rfl (by decide) [] rfl ⟨[1]⟩ (by decide)
      (.tendermint []) (by decide) (by decide)).1.2
      ⟨by decide, [], "bank", rfl, by decide, fun _ => by decide, fun h => by simp at h⟩⟩

end Interchainquery

namespace Stakeibc

open Interchainquery (Bytes)

/-! ## Outbound transactions: theorems -/

/-- C13: when `SubmitTxs` returns an error it returns sequence 0 and the stakeibc,
records and icacallbacks stores, the callback data included, are as before; when
it returns `nil`, the chain id, port, active channel, capability and serialized
packet were found, the returned sequence is the one `SendTx` assigned, and the
callback data store is the one before with the record of port, channel, sequence,
callback id and callback args written under `PacketID(port, channel, sequence)` when
the callback id is non-empty and the args are non-nil (also when they are empty),
and is unchanged otherwise. -/
theorem SubmitTxs_callback_data {ι : Type} (k : Keeper ι) (s : State ι) (connectionId : String)
    (msgs : List Msg) (account : ICAAccount) (timeoutTimestamp : Nat) (callbackId : String)
    (callbackArgs : Option Bytes) :
    (∀ e, (SubmitTxs k s connectionId msgs account timeoutTimestamp callbackId
        callbackArgs).2.2 = some e →
      (SubmitTxs k s connectionId msgs account timeoutTimestamp callbackId callbackArgs).2.1 = 0
      ∧ (SubmitTxs k s connectionId msgs account timeoutTimestamp callbackId
          callbackArgs).1.callbackData = s.callbackData)
    ∧ ((SubmitTxs k s connectionId msgs account timeoutTimestamp callbackId
        callbackArgs).2.2 = none →
      ∃ chainId portID channelID chanCap data ica1,
        k.GetChainID s.ica connectionId = .ok chainId
        ∧ k.NewControllerPortID (k.FormatICAAccountOwner chainId account.Target) = .ok portID
        ∧ k.GetActiveChannelID s.ica connectionId portID = some channelID
        ∧ k.GetCapability s.ica (k.ChannelCapabilityPath portID channelID) = some chanCap
        ∧ k.SerializeCosmosTx msgs = .ok data
        ∧ k.SendTx s.ica chanCap connectionId portID ⟨"EXECUTE_TX", data⟩ timeoutTimestamp
            = (ica1, .ok (SubmitTxs k s connectionId msgs account timeoutTimestamp callbackId
                callbackArgs).2.1)
        ∧ (∀ args, callbackId ≠ "" → callbackArgs = some args →
            (SubmitTxs k s connectionId msgs account timeoutTimestamp callbackId
              callbackArgs).1.callbackData
            = fun key =>
                if key = k.PacketID portID channelID
                    (SubmitTxs k s connectionId msgs account timeoutTimestamp callbackId
                      callbackArgs).2.1
                then some ⟨k.PacketID portID channelID
                    (SubmitTxs k s connectionId msgs account timeoutTimestamp callbackId
                      callbackArgs).2.1, portID, channelID,
                    (SubmitTxs k s connectionId msgs account timeoutTimestamp callbackId
                      callbackArgs).2.1, callbackId, args⟩
                else s.callbackData key)
        ∧ ((callbackId = "" ∨ callbackArgs = none) →
            (SubmitTxs k s connectionId msgs account timeoutTimestamp callbackId
              callbackArgs).1.callbackData = s.callbackData)) := by
  unfold SubmitTxs
  cases h1 : k.GetChainID s.ica connectionId with
  | error err => simp
  | ok chainId =>
    cases h2 : k.NewControllerPortID (k.FormatICAAccountOwner chainId account.Target) with
    | error err => simp [h2]
    | ok portID =>
      cases h3 : k.GetActiveChannelID s.ica connectionId portID with
      | none => simp [h2, h3]
      | some channelID =>
        cases h4 : k.GetCapability s.ica (k.ChannelCapabilityPath portID channelID) with
        | none => simp [h2, h3, h4]
        | some chanCap =>
          cases h5 : k.SerializeCosmosTx msgs with
          | error err => simp [h2, h3, h4, h5]
          | ok data =>
            cases h6 : k.SendTx s.ica chanCap connectionId portID ⟨"EXECUTE_TX", data⟩
                timeoutTimestamp with
            | mk ica1 res =>
              cases res with
              | error err => simp [h2, h3, h4, h5, h6]
              | ok sequence =>
                cases callbackArgs with
                | none => simp [h2, h3, h4, h5, h6]
                | some args =>
                  by_cases hid : callbackId = ""
                  · simp [h2, h3, h4, h5, h6, hid]
                  · simp [h2, h3, h4, h5, h6, hid, SetCallbackData]

/-- C13, evaluated: on an unknown connection `SubmitTxs` fails with sequence 0; on
"connection-0" with callback id "delegate" and empty, non-nil args it returns the
sequence 3 assigned by the send and stores the callback data under the packet id. -/
theorem SubmitTxs_callback_data_witness :
    (SubmitTxs (demoKeeper decodeFail decodeFail) demoState "connection-9" []
        ⟨"cosmos1", .DELEGATION⟩ 900 "delegate" (some [])).2.2
      = some (.collaborator "connection not found")
    ∧ (SubmitTxs (demoKeeper decodeFail decodeFail) demoState "connection-9" []
        ⟨"cosmos1", .DELEGATION⟩ 900 "delegate" (some [])).2.1 = 0
    ∧ (SubmitTxs (demoKeeper decodeFail decodeFail) demoState "connection-0" []
        ⟨"cosmos1", .DELEGATION⟩ 900 "delegate" (some [])).2 = (3, none)
    ∧ (SubmitTxs (demoKeeper decodeFail decodeFail) demoState "connection-0" []
        ⟨"cosmos1", .DELEGATION⟩ 900 "delegate" (some [])).1.callbackData
          "icacontroller-GAIA.DELEGATION.channel-0.###"
      = some ⟨"icacontroller-GAIA.DELEGATION.channel-0.###", "icacontroller-GAIA.DELEGATION",
          "channel-0", 3, "delegate", []⟩ :=
  ⟨rfl,
    ((SubmitTxs_callback_data (demoKeeper decodeFail decodeFail) demoState "connection-9" []
      ⟨"cosmos1", .DELEGATION⟩ 900 "delegate" (some [])).1 _ rfl).1,
    rfl, by decide⟩

/-- With a positive buffer parameter and a buffer that does not exceed the next
epoch start, the timeout block yields the exact difference, which is no later
than the next epoch start. -/
theorem epochTimeout_exact (epochTracker : EpochTracker) (bufferSizeParam : Nat)
    (hp : 1 ≤ bufferSizeParam) (hd : epochTracker.NextEpochStartTime < 2 ^ 64)
    (hb : epochTracker.Duration / bufferSizeParam ≤ epochTracker.NextEpochStartTime) :
    epochTimeout epochTracker bufferSizeParam
      = .ok (epochTracker.NextEpochStartTime - epochTracker.Duration / bufferSizeParam)
    ∧ epochTracker.NextEpochStartTime - epochTracker.Duration / bufferSizeParam
      ≤ epochTracker.NextEpochStartTime := by
  have h0 : bufferSizeParam ≠ 0 := by omega
  have hle : ¬ epochTracker.Duration / bufferSizeParam > epochTracker.Duration :=
    not_lt.2 (Nat.div_le_self _ _)
  refine ⟨?_, Nat.sub_le _ _⟩
  have hmod : (epochTracker.NextEpochStartTime + 2 ^ 64
      - epochTracker.Duration / bufferSizeParam) % 2 ^ 64
      = epochTracker.NextEpochStartTime - epochTracker.Duration / bufferSizeParam := by
    generalize epochTracker.Duration / bufferSizeParam = buf at hb
    omega
  simp only [epochTimeout, h0, if_false, hle, ToUint64E, hmod]

/-- C14, as the code behaves: for the epoch tracker with next start 10 and duration
100 and the buffer parameter 5, the buffer is 20, the `uint64` subtraction wraps,
the cast does not fail, and `SubmitTxsEpoch` hands the timeout `2^64 - 10`, later
than the next epoch start, to `SubmitTxs`. -/
theorem SubmitTxsEpoch_timeout_wraps :
    epochTimeout ⟨"stride_epoch", 7, 10, 100⟩ 5 = .ok (2 ^ 64 - 10)
    ∧ (10 : Nat) < 2 ^ 64 - 10
    ∧ SubmitTxsEpoch (demoKeeper decodeFail decodeFail)
        { demoState with
          epochTrackers := fun _ => some ⟨"stride_epoch", 7, 10, 100⟩ }
        "connection-0" [] ⟨"cosmos1", .DELEGATION⟩ "stride_epoch" "delegate" (some [])
      = (match SubmitTxs (demoKeeper decodeFail decodeFail)
            { demoState with
              epochTrackers := fun _ => some ⟨"stride_epoch", 7, 10, 100⟩ }
            "connection-0" [] ⟨"cosmos1", .DELEGATION⟩ (2 ^ 64 - 10) "delegate" (some []) with
          | (s1, sequence, _) => (s1, sequence, .ret none))
    ∧ (SubmitTxsEpoch (demoKeeper decodeFail decodeFail)
        { demoState with
          epochTrackers := fun _ => some ⟨"stride_epoch", 7, 10, 100⟩ }
        "connection-0" [] ⟨"cosmos1", .DELEGATION⟩ "stride_epoch" "delegate" (some [])).2
      = (3, .ret none) := by
  refine ⟨by decide, by decide, rfl, rfl⟩

/-! ## Callbacks: theorems -/

/-- C15: when the acknowledgement is a timeout (`txMsgData` is `nil`) or carries no
result data, `DelegateCallback` and `ReinvestCallback` return `nil` and the state
they leave is the state they were called with, whatever the args are. -/
theorem callbacks_noop_without_result {ι : Type} (k : Keeper ι) (s : State ι) (packet : Packet)
    (txMsgData : Option TxMsgData) (args : Bytes)
    (h : txMsgData = none ∨ ∃ data, txMsgData = some data ∧ data.Data.length = 0) :
    DelegateCallback k s packet txMsgData args = (s, none)
    ∧ ReinvestCallback k s packet txMsgData args = (s, .ret none) := by
  rcases h with h | ⟨data, h, hlen⟩
  · subst h
    exact ⟨rfl, rfl⟩
  · subst h
    simp [DelegateCallback, ReinvestCallback, hlen]

/-- C15, evaluated: an acknowledgement without result data and args that do not
deserialize leave the state as it is. -/
theorem callbacks_noop_without_result_witness :
    (some (⟨[]⟩ : TxMsgData) = none ∨ ∃ data, some (⟨[]⟩ : TxMsgData) = some data
      ∧ data.Data.length = 0)
    ∧ DelegateCallback (demoKeeper decodeFail decodeFail) demoState demoPacket (some ⟨[]⟩) [9]
      = (demoState, none) :=
  ⟨Or.inr ⟨⟨[]⟩, rfl, rfl⟩,
    (callbacks_noop_without_result (demoKeeper decodeFail decodeFail) demoState demoPacket
      (some ⟨[]⟩) [9] (Or.inr ⟨⟨[]⟩, rfl, rfl⟩)).1⟩

/-! ### Adding a delegation -/

theorem addDelegation_addresses (valAddr : String) (amt : Int) (vals : List Validator) :
    ((addDelegation valAddr amt vals).1.map fun v => v.Address) = vals.map fun v => v.Address := by
  induction vals with
  | nil => rfl
  | cons v rest ih =>
    unfold addDelegation
    by_cases hv : v.Address = valAddr
    · by_cases ha : 0 ≤ amt
      · simp [hv, ha]
      · by_cases hx : (-amt).toNat > v.DelegationAmt
        · simp [hv, ha, hx]
        · simp [hv, ha, hx]
    · simp [hv, ih]

theorem addDelegation_found (valAddr : String) (amt : Int) (vals : List Validator)
    (ha : 0 ≤ amt) (hmem : valAddr ∈ vals.map fun v => v.Address) :
    (addDelegation valAddr amt vals).2 = true := by
  induction vals with
  | nil => simp at hmem
  | cons v rest ih =>
    unfold addDelegation
    by_cases hv : v.Address = valAddr
    · simp [hv, ha]
    · simp only [hv, if_false]
      apply ih
      simp only [List.map_cons, List.mem_cons] at hmem
      rcases hmem with h | h
      · exact absurd h.symm hv
      · exact h

theorem addDelegation_not_found (valAddr : String) (amt : Int) (vals : List Validator)
    (hmem : valAddr ∉ vals.map fun v => v.Address) :
    addDelegation valAddr amt vals = (vals, false) := by
  induction vals with
  | nil => rfl
  | cons v rest ih =>
    simp only [List.map_cons, List.mem_cons, not_or] at hmem
    unfold addDelegation
    have hv : ¬ v.Address = valAddr := fun h => hmem.1 h.symm
    simp [hv, ih hmem.2]

theorem addDelegation_failed (valAddr : String) (amt : Int) (vals : List Validator)
    (h : (addDelegation valAddr amt vals).2 = false) :
    (addDelegation valAddr amt vals).1 = vals := by
  induction vals with
  | nil => rfl
  | cons v rest ih =>
    unfold addDelegation at h ⊢
    by_cases hv : v.Address = valAddr
    · by_cases ha : 0 ≤ amt
      · simp [hv, ha] at h
      · by_cases hx : (-amt).toNat > v.DelegationAmt
        · simp [hv, ha, hx]
        · simp [hv, ha, hx] at h
    · simp only [hv, if_false] at h ⊢
      rw [ih h]

theorem addDelegation_mem (valAddr : String) (a : Nat) (vals : List Validator)
    (w : Validator) (hw : w ∈ (addDelegation valAddr (a : Int) vals).1) :
    ∃ v ∈ vals, w.Address = v.Address ∧
      (w.DelegationAmt = v.DelegationAmt
        ∨ (v.Address = valAddr ∧ w.DelegationAmt = (v.DelegationAmt + a) % 2 ^ 64)) := by
  induction vals with
  | nil => simp [addDelegation] at hw
  | cons v rest ih =>
    unfold addDelegation at hw
    by_cases hv : v.Address = valAddr
    · simp only [hv, if_true, Int.natCast_nonneg, Int.toNat_ofNat, List.mem_cons] at hw
      rcases hw with h | h
      · refine ⟨v, List.mem_cons_self _ _, by rw [h]; exact hv.symm, Or.inr ⟨hv, by rw [h]⟩⟩
      · exact ⟨w, List.mem_cons_of_mem _ h, rfl, Or.inl rfl⟩
    · simp only [hv, if_false, List.mem_cons] at hw
      rcases hw with h | h
      · exact ⟨v, List.mem_cons_self _ _, by rw [h], Or.inl (by rw [h])⟩
      · obtain ⟨u, hu, h1, h2⟩ := ih h
        exact ⟨u, List.mem_cons_of_mem _ hu, h1, h2⟩

theorem addDelegation_find (valAddr : String) (a : Nat) (vals : List Validator)
    (hfit : ∀ v ∈ vals, v.Address = valAddr → v.DelegationAmt + a < 2 ^ 64) (addr : String) :
    (((addDelegation valAddr (a : Int) vals).1.find? fun v => v.Address = addr).map
        fun v => v.DelegationAmt)
      = ((vals.find? fun v => v.Address = addr).map fun v => v.DelegationAmt).map
          fun d => if addr = valAddr then d + a else d := by
  induction vals with
  | nil => rfl
  | cons v rest ih =>
    have ih1 := ih fun u hu => hfit u (List.mem_cons_of_mem _ hu)
    unfold addDelegation
    by_cases hv : v.Address = valAddr
    · have hlt := hfit v (List.mem_cons_self _ _) hv
      simp only [hv, if_true, Int.natCast_nonneg, Int.toNat_ofNat, Nat.mod_eq_of_lt hlt]
      by_cases ha : valAddr = addr
      · simp [List.find?_cons, hv, ha]
      · have ha2 : ¬ addr = valAddr := fun h => ha h.symm
        simp only [List.find?_cons, hv, ha, decide_False, Option.map_map]
        cases h : List.find? (fun v => decide (v.Address = addr)) rest with
        | none => rfl
        | some u => simp [ha2]
    · simp only [hv, if_false]
      by_cases ha : v.Address = addr
      · have ha2 : ¬ addr = valAddr := fun h => hv (ha.trans h)
        simp [List.find?_cons, ha, ha2]
      · simp only [List.find?_cons, ha, decide_False]
        exact ih1

/-! ### The loop over the split delegations -/

theorem totalAmount_cons (sd : SplitDelegation) (rest : List SplitDelegation) :
    totalAmount (sd :: rest) = sd.Amount + totalAmount rest := by
  simp [totalAmount]

theorem delegatedTo_cons (sd : SplitDelegation) (rest : List SplitDelegation) (addr : String) :
    delegatedTo (sd :: rest) addr
      = (if sd.Validator = addr then sd.Amount else 0) + delegatedTo rest addr := by
  by_cases h : sd.Validator = addr
  · simp [delegatedTo, List.filter_cons, h, totalAmount_cons]
  · simp [delegatedTo, List.filter_cons, h]

theorem SetHostZone_SetHostZone {ι : Type} (s : State ι) (z1 z2 : HostZone)
    (h : z1.ChainId = z2.ChainId) : SetHostZone (SetHostZone s z1) z2 = SetHostZone s z2 := by
  simp only [SetHostZone, h]
  congr 1
  funext id
  by_cases hid : id = z2.ChainId
  · simp [hid]
  · simp [hid]

theorem SplitsFit_step (sd : SplitDelegation) (rest : List SplitDelegation) (zone : HostZone)
    (h : SplitsFit (sd :: rest) zone) :
    Interchainquery.ToInt64E sd.Amount = sd.Amount
    ∧ (zone.StakedBal + sd.Amount) % 2 ^ 64 = zone.StakedBal + sd.Amount
    ∧ (addDelegation sd.Validator (sd.Amount : Int) zone.Validators).2 = true
    ∧ (∀ v ∈ zone.Validators, v.Address = sd.Validator → v.DelegationAmt + sd.Amount < 2 ^ 64)
    ∧ SplitsFit rest
        { zone with
          StakedBal := zone.StakedBal + sd.Amount
          Validators := (addDelegation sd.Validator (sd.Amount : Int) zone.Validators).1 } := by
  obtain ⟨h1, h2, h3⟩ := h
  have hsd := h1 sd (List.mem_cons_self _ _)
  rw [totalAmount_cons] at h2
  have hfit : ∀ v ∈ zone.Validators, v.Address = sd.Validator →
      v.DelegationAmt + sd.Amount < 2 ^ 64 := by
    intro v hv hva
    have := h3 v hv
    rw [delegatedTo_cons, if_pos hva.symm] at this
    omega
  refine ⟨Interchainquery.ToInt64E_of_lt _ hsd.1, Nat.mod_eq_of_lt (by omega),
    addDelegation_found _ _ _ (Int.natCast_nonneg _) hsd.2, hfit, ?_, ?_, ?_⟩
  · intro sd1 hsd1
    refine ⟨(h1 sd1 (List.mem_cons_of_mem _ hsd1)).1, ?_⟩
    simp only []
    rw [addDelegation_addresses]
    exact (h1 sd1 (List.mem_cons_of_mem _ hsd1)).2
  · simp only []
    omega
  · intro w hw
    simp only [] at hw
    obtain ⟨v, hv, ha, hd⟩ := addDelegation_mem _ _ _ w hw
    have hv3 := h3 v hv
    rw [delegatedTo_cons] at hv3
    rw [ha]
    rcases hd with hd | ⟨hva, hd⟩
    · rw [hd]
      omega
    · rw [hd, if_pos hva.symm] at *
      have := Nat.mod_le (v.DelegationAmt + sd.Amount) (2 ^ 64)
      omega

theorem delegateSplits_fit {ι : Type} (splits : List SplitDelegation) :
    ∀ (s : State ι) (zone : HostZone), SplitsFit splits zone →
      ∃ zone1,
        delegateSplits splits s zone
          = ((if splits = [] then s else SetHostZone s zone1), zone1, none)
        ∧ zone1.ChainId = zone.ChainId
        ∧ zone1.ConnectionId = zone.ConnectionId
        ∧ zone1.HostDenom = zone.HostDenom
        ∧ zone1.StakedBal = zone.StakedBal + totalAmount splits
        ∧ (zone1.Validators.map fun v => v.Address) = (zone.Validators.map fun v => v.Address)
        ∧ (∀ addr, delegationOf zone1 addr
            = (delegationOf zone addr).map fun d => d + delegatedTo splits addr)
        ∧ (splits = [] → zone1 = zone) := by
  induction splits with
  | nil =>
    intro s zone _
    refine ⟨zone, rfl, rfl, rfl, rfl, by simp [totalAmount], rfl, ?_, fun _ => rfl⟩
    intro addr
    simp [delegatedTo, totalAmount]
  | cons sd rest ih =>
    intro s zone hfit
    obtain ⟨hcast, hbal, hfound, hval, hrest⟩ := SplitsFit_step sd rest zone hfit
    obtain ⟨zone1, heq, hc, hconn, hden, hst, haddr, hdel, _⟩ :=
      ih (SetHostZone s
          { zone with
            StakedBal := zone.StakedBal + sd.Amount
            Validators := (addDelegation sd.Validator (sd.Amount : Int) zone.Validators).1 })
        _ hrest
    refine ⟨zone1, ?_, hc, hconn, hden, ?_, ?_, ?_, fun h => absurd h (List.cons_ne_nil _ _)⟩
    · simp only [delegateSplits, AddDelegationToValidator, hcast, hbal, hfound, heq,
        List.cons_ne_nil, if_false]
      by_cases hr : rest = []
      · subst hr
        simp only [delegateSplits, if_true] at heq
        simp only [if_true]
        have hz : zone1 = { zone with
            StakedBal := zone.StakedBal + sd.Amount
            Validators := (addDelegation sd.Validator (sd.Amount : Int) zone.Validators).1 } := by
          have := congrArg (fun r => r.2.1) heq
          simpa using this.symm
        rw [hz]
      · simp only [hr, if_false]
        rw [SetHostZone_SetHostZone]
        exact hc.symm
    · rw [hst, totalAmount_cons]
      simp only []
      omega
    · rw [haddr]
      simp only []
      exact addDelegation_addresses _ _ _
    · intro addr
      rw [hdel addr]
      have hf := addDelegation_find sd.Validator sd.Amount zone.Validators hval addr
      simp only [delegationOf] at hf ⊢
      rw [hf, delegatedTo_cons]
      cases (zone.Validators.find? fun v => v.Address = addr) with
      | none => rfl
      | some v =>
        simp only [Option.map_some']
        by_cases ha : addr = sd.Validator
        · simp only [ha, if_true]
          rw [Nat.add_assoc]
        · have ha2 : ¬ sd.Validator = addr := fun h => ha h.symm
          simp only [ha, ha2, if_false]
          rw [Nat.zero_add]

theorem delegateSplits_frame {ι : Type} (splits : List SplitDelegation) :
    ∀ (s : State ι) (zone : HostZone),
      (delegateSplits splits s zone).1.depositRecords = s.depositRecords
      ∧ (delegateSplits splits s zone).1.depositRecordCount = s.depositRecordCount
      ∧ (delegateSplits splits s zone).1.epochTrackers = s.epochTrackers
      ∧ (delegateSplits splits s zone).1.params = s.params
      ∧ (delegateSplits splits s zone).1.callbackData = s.callbackData
      ∧ (delegateSplits splits s zone).1.ica = s.ica := by
  induction splits with
  | nil => intro s zone; exact ⟨rfl, rfl, rfl, rfl, rfl, rfl⟩
  | cons sd rest ih =>
    intro s zone
    simp only [delegateSplits, AddDelegationToValidator]
    cases hadd : (addDelegation sd.Validator (Interchainquery.ToInt64E sd.Amount)
        zone.Validators).2 with
    | false => exact ⟨rfl, rfl, rfl, rfl, rfl, rfl⟩
    | true => exact ih _ _

theorem delegationOf_of_mem (zone : HostZone) (valAddr : String)
    (h : valAddr ∈ zone.Validators.map fun v => v.Address) :
    ∃ d, delegationOf zone valAddr = some d := by
  unfold delegationOf
  cases hf : zone.Validators.find? fun v => v.Address = valAddr with
  | some v => exact ⟨v.DelegationAmt, rfl⟩
  | none =>
    rw [List.find?_eq_none] at hf
    obtain ⟨v, hv, hva⟩ := List.mem_map.1 h
    have := hf v hv
    simp [hva] at this

/-- C16: for an acknowledgement with result data and args that deserialize, name a
host zone stored under its own chain id, and fit it (amounts below `2^63`, every
named validator on the host zone, no `uint64` overflow): `DelegateCallback` returns
`nil`; the host zone stored under the args' host zone id has its staked balance
raised by the sum of the split amounts and, for every address, the tracked
delegation raised by the sum of the split amounts that name it, so every named
validator's delegation grows by exactly its split amounts; no other host zone
changes; and the deposit records are the former ones without those whose id is
the args' deposit record id. -/
theorem DelegateCallback_success {ι : Type} (k : Keeper ι) (s : State ι) (packet : Packet)
    (data : TxMsgData) (args : Bytes) (cb : DelegateCallbackArgs) (zone : HostZone)
    (hdata : data.Data.length ≠ 0)
    (hargs : UnmarshalDelegateCallbackArgs k args = .ok cb)
    (hzone : GetHostZone s cb.HostZoneId = some zone)
    (hkey : zone.ChainId = cb.HostZoneId)
    (hfit : SplitsFit cb.SplitDelegations zone) :
    (DelegateCallback k s packet (some data) args).2 = none
    ∧ (∃ zone1,
        (DelegateCallback k s packet (some data) args).1.hostZones cb.HostZoneId = some zone1
        ∧ zone1.StakedBal = zone.StakedBal + totalAmount cb.SplitDelegations
        ∧ (∀ addr, delegationOf zone1 addr
            = (delegationOf zone addr).map fun d => d + delegatedTo cb.SplitDelegations addr)
        ∧ (∀ sd ∈ cb.SplitDelegations, ∃ d,
            delegationOf zone sd.Validator = some d
            ∧ delegationOf zone1 sd.Validator
                = some (d + delegatedTo cb.SplitDelegations sd.Validator))
        ∧ zone1.ChainId = zone.ChainId
        ∧ (zone1.Validators.map fun v => v.Address) = (zone.Validators.map fun v => v.Address))
    ∧ (∀ id, id ≠ cb.HostZoneId →
        (DelegateCallback k s packet (some data) args).1.hostZones id = s.hostZones id)
    ∧ (DelegateCallback k s packet (some data) args).1.depositRecords
        = s.depositRecords.filter fun r => r.Id ≠ cb.DepositRecordId := by
  obtain ⟨zone1, heq, hc, _, _, hst, haddr, hdel, hnil⟩ :=
    delegateSplits_fit cb.SplitDelegations s zone hfit
  have hres : DelegateCallback k s packet (some data) args
      = (RemoveDepositRecord (if cb.SplitDelegations = [] then s else SetHostZone s zone1)
          cb.DepositRecordId, none) := by
    simp only [DelegateCallback, hdata, if_false, hargs, hzone, heq]
  rw [hres]
  have hnamed : ∀ sd ∈ cb.SplitDelegations, ∃ d,
      delegationOf zone sd.Validator = some d
      ∧ delegationOf zone1 sd.Validator
          = some (d + delegatedTo cb.SplitDelegations sd.Validator) := by
    intro sd hsd
    obtain ⟨d, hd⟩ := delegationOf_of_mem zone sd.Validator (hfit.1 sd hsd).2
    exact ⟨d, hd, by rw [hdel, hd]; rfl⟩
  by_cases hs : cb.SplitDelegations = []
  · have hz := hnil hs
    subst hz
    rw [if_pos hs]
    exact ⟨rfl, ⟨zone1, hzone, hst, hdel, hnamed, rfl, rfl⟩, fun _ _ => rfl, rfl⟩
  · rw [if_neg hs]
    refine ⟨rfl, ⟨zone1, ?_, hst, hdel, hnamed, hc, haddr⟩, ?_, rfl⟩
    · simp [RemoveDepositRecord, SetHostZone, hc, hkey]
    · intro id hid
      simp [RemoveDepositRecord, SetHostZone, hc, hkey, hid]

/-- C16, evaluated: for the amounts val1: 100 and val2: 50 funded by deposit record
1, the stakes become 100 and 50, the staked balance 150, and record 1 is gone. -/
theorem DelegateCallback_success_witness :
    demoAck.Data.length ≠ 0
    ∧ SplitsFit demoDelegateArgs.SplitDelegations demoZone
    ∧ (DelegateCallback (demoKeeper (decodeAs demoDelegateArgs) decodeFail) demoState demoPacket
        (some demoAck) []).1.depositRecords = [demoRecord 0]
    ∧ (DelegateCallback (demoKeeper (decodeAs demoDelegateArgs) decodeFail) demoState demoPacket
        (some demoAck) []).1.hostZones "GAIA"
      = some ⟨"GAIA", "connection-0", "uatom", [⟨"one", "val1", 100, 1⟩, ⟨"two", "val2", 50, 1⟩],
          150⟩ :=
  ⟨by decide, by decide,
    (DelegateCallback_success (demoKeeper (decodeAs demoDelegateArgs) decodeFail) demoState
      demoPacket demoAck [] demoDelegateArgs demoZone (by decide) rfl rfl rfl
      (by decide)).2.2.2.trans (by decide),
    by decide⟩

/-! ### Errors of the delegate callback -/

theorem delegateSplits_error {ι : Type} (splits : List SplitDelegation) :
    ∀ (s s1 : State ι) (zone z1 : HostZone) (e : Error),
      delegateSplits splits s zone = (s1, z1, some e) →
      ∃ pre sd rest zone0,
        splits = pre ++ sd :: rest
        ∧ delegateSplits pre s zone = (s1, zone0, none)
        ∧ (AddDelegationToValidator
            { zone0 with StakedBal := (zone0.StakedBal + sd.Amount) % 2 ^ 64 }
            sd.Validator (Interchainquery.ToInt64E sd.Amount)).2 = false := by
  induction splits with
  | nil =>
    intro s s1 zone z1 e h
    simp [delegateSplits] at h
  | cons sd rest ih =>
    intro s s1 zone z1 e h
    cases hadd : (addDelegation sd.Validator (Interchainquery.ToInt64E sd.Amount)
        zone.Validators).2 with
    | false =>
      simp only [delegateSplits, AddDelegationToValidator, hadd, Prod.mk.injEq] at h
      refine ⟨[], sd, rest, zone, rfl, ?_, ?_⟩
      · simp only [delegateSplits, Prod.mk.injEq, and_true]
        exact h.1
      · simp only [AddDelegationToValidator]
        exact hadd
    | true =>
      simp only [delegateSplits, AddDelegationToValidator, hadd] at h
      obtain ⟨pre, sd1, rest1, zone0, hsp, hpre, hfail⟩ := ih _ _ _ _ _ h
      refine ⟨sd :: pre, sd1, rest1, zone0, by rw [hsp]; rfl, ?_, hfail⟩
      simp only [delegateSplits, AddDelegationToValidator, hadd]
      exact hpre

/-- C17, as stated, fails: the args name "val1" (on the host zone) with 100 and then
"val9" (not on it) with 50; `DelegateCallback` returns an error, the deposit
records are untouched, and the stored host zone carries the first split: staked
balance 100 and 100 delegated to "val1". -/
theorem DelegateCallback_error_keeps_earlier_splits :
    (DelegateCallback (demoKeeper (decodeAs ⟨"GAIA", 1, [⟨"val1", 100⟩, ⟨"val9", 50⟩]⟩) decodeFail)
        demoState demoPacket (some demoAck) []).2
      = some (.ErrValidatorDelegationChg "Failed to add delegation to validator")
    ∧ (DelegateCallback (demoKeeper (decodeAs ⟨"GAIA", 1, [⟨"val1", 100⟩, ⟨"val9", 50⟩]⟩) decodeFail)
        demoState demoPacket (some demoAck) []).1.depositRecords = demoState.depositRecords
    ∧ demoState.hostZones "GAIA" = some demoZone
    ∧ (DelegateCallback (demoKeeper (decodeAs ⟨"GAIA", 1, [⟨"val1", 100⟩, ⟨"val9", 50⟩]⟩) decodeFail)
        demoState demoPacket (some demoAck) []).1.hostZones "GAIA"
      = some ⟨"GAIA", "connection-0", "uatom", [⟨"one", "val1", 100, 1⟩, ⟨"two", "val2", 0, 1⟩],
          100⟩
    ∧ (DelegateCallback (demoKeeper (decodeAs ⟨"GAIA", 1, [⟨"val1", 100⟩, ⟨"val9", 50⟩]⟩) decodeFail)
        demoState demoPacket (some demoAck) []).1.hostZones "GAIA"
      ≠ demoState.hostZones "GAIA" := by
  refine ⟨by decide, by decide, by decide, by decide, by decide⟩

/-- C17, amended: when `DelegateCallback` returns an error, the deposit records and
every store other than the host zones are as before the call, so the deposit
record is never removed on an error path; the whole state is as before when the
args do not deserialize, when the host zone is not found, and when the first
split delegation fails; when a later split delegation fails, the state is the
one left by the loop over the split delegations before the failing one, which
has stored the host zone with their stake added. -/
theorem DelegateCallback_error {ι : Type} (k : Keeper ι) (s : State ι) (packet : Packet)
    (txMsgData : Option TxMsgData) (args : Bytes) (e : Error)
    (h : (DelegateCallback k s packet txMsgData args).2 = some e) :
    ((DelegateCallback k s packet txMsgData args).1.depositRecords = s.depositRecords
      ∧ (DelegateCallback k s packet txMsgData args).1.depositRecordCount = s.depositRecordCount
      ∧ (DelegateCallback k s packet txMsgData args).1.epochTrackers = s.epochTrackers
      ∧ (DelegateCallback k s packet txMsgData args).1.params = s.params
      ∧ (DelegateCallback k s packet txMsgData args).1.callbackData = s.callbackData
      ∧ (DelegateCallback k s packet txMsgData args).1.ica = s.ica)
    ∧ ((∃ err, UnmarshalDelegateCallbackArgs k args = .error err) →
        (DelegateCallback k s packet txMsgData args).1 = s)
    ∧ (∀ cb, UnmarshalDelegateCallbackArgs k args = .ok cb →
        GetHostZone s cb.HostZoneId = none →
        (DelegateCallback k s packet txMsgData args).1 = s)
    ∧ (∀ cb zone, UnmarshalDelegateCallbackArgs k args = .ok cb →
        GetHostZone s cb.HostZoneId = some zone →
        ∃ pre sd rest zone0,
          cb.SplitDelegations = pre ++ sd :: rest
          ∧ delegateSplits pre s zone
              = ((DelegateCallback k s packet txMsgData args).1, zone0, none)
          ∧ (AddDelegationToValidator
              { zone0 with StakedBal := (zone0.StakedBal + sd.Amount) % 2 ^ 64 }
              sd.Validator (Interchainquery.ToInt64E sd.Amount)).2 = false
          ∧ (pre = [] → (DelegateCallback k s packet txMsgData args).1 = s)) := by
  cases txMsgData with
  | none => simp [DelegateCallback] at h
  | some data =>
    by_cases hlen : data.Data.length = 0
    · simp [DelegateCallback, hlen] at h
    · cases hargs : UnmarshalDelegateCallbackArgs k args with
      | error err =>
        have hres : DelegateCallback k s packet (some data) args = (s, some err) := by
          simp only [DelegateCallback, hlen, if_false, hargs]
        rw [hres]
        refine ⟨⟨rfl, rfl, rfl, rfl, rfl, rfl⟩, fun _ => rfl, fun _ hc => ?_, fun _ _ hc => ?_⟩
        · exact Except.noConfusion hc
        · exact Except.noConfusion hc
      | ok cb =>
        cases hzone : GetHostZone s cb.HostZoneId with
        | none =>
          have hres : DelegateCallback k s packet (some data) args
              = (s, some (.ErrInvalidRequest ("host zone not found " ++ cb.HostZoneId))) := by
            simp only [DelegateCallback, hlen, if_false, hargs, hzone]
          rw [hres]
          refine ⟨⟨rfl, rfl, rfl, rfl, rfl, rfl⟩, fun _ => rfl, fun _ _ _ => rfl,
            fun cb1 zone1 hc hz => ?_⟩
          simp only [Except.ok.injEq] at hc
          subst hc
          rw [hzone] at hz
          exact Option.noConfusion hz
        | some zone =>
          cases hloop : delegateSplits cb.SplitDelegations s zone with
          | mk s1 rest1 =>
            obtain ⟨z1, oe⟩ := rest1
            cases oe with
            | none =>
              have hres : DelegateCallback k s packet (some data) args
                  = (RemoveDepositRecord s1 cb.DepositRecordId, none) := by
                simp only [DelegateCallback, hlen, if_false, hargs, hzone, hloop]
              rw [hres] at h
              exact Option.noConfusion h
            | some e1 =>
              have hres : DelegateCallback k s packet (some data) args = (s1, some e1) := by
                simp only [DelegateCallback, hlen, if_false, hargs, hzone, hloop]
              rw [hres]
              have hfr := delegateSplits_frame cb.SplitDelegations s zone
              rw [hloop] at hfr
              refine ⟨hfr, ?_, ?_, ?_⟩
              · rintro ⟨err, herr⟩
                exact Except.noConfusion herr
              · intro cb1 hc hz
                simp only [Except.ok.injEq] at hc
                subst hc
                rw [hzone] at hz
                exact Option.noConfusion hz
              · intro cb1 zone1 hc hz
                simp only [Except.ok.injEq] at hc
                subst hc
                rw [hzone] at hz
                simp only [Option.some.injEq] at hz
                subst hz
                obtain ⟨pre, sd, rest, zone0, hsp, hpre, hfail⟩ :=
                  delegateSplits_error cb.SplitDelegations s s1 zone z1 e1 hloop
                refine ⟨pre, sd, rest, zone0, hsp, hpre, hfail, ?_⟩
                intro hnil
                subst hnil
                simp only [delegateSplits, Prod.mk.injEq] at hpre
                exact hpre.1.symm

/-- C17 amended, evaluated: the failing callback leaves both deposit records in
place. -/
theorem DelegateCallback_error_witness :
    (DelegateCallback (demoKeeper (decodeAs ⟨"GAIA", 1, [⟨"val1", 100⟩, ⟨"val9", 50⟩]⟩) decodeFail)
        demoState demoPacket (some demoAck) []).2
      = some (.ErrValidatorDelegationChg "Failed to add delegation to validator")
    ∧ (DelegateCallback (demoKeeper (decodeAs ⟨"GAIA", 1, [⟨"val1", 100⟩, ⟨"val9", 50⟩]⟩) decodeFail)
        demoState demoPacket (some demoAck) []).1.depositRecords = [demoRecord 0, demoRecord 1] :=
  ⟨by decide,
    (DelegateCallback_error
      (demoKeeper (decodeAs ⟨"GAIA", 1, [⟨"val1", 100⟩, ⟨"val9", 50⟩]⟩) decodeFail)
      demoState demoPacket (some demoAck) []
      (.ErrValidatorDelegationChg "Failed to add delegation to validator") (by decide)).1.1⟩

/-! ### The reinvest callback -/

/-- C18, as stated, fails: the args deserialize, the stride epoch tracker exists, and
the reinvest amount is `2^63`; `ReinvestCallback` does not return, it panics in
`Int64`, and no deposit record is appended. -/
theorem ReinvestCallback_amount_out_of_range :
    demoAck.Data.length ≠ 0
    ∧ GetEpochTracker demoState STRIDE_EPOCH = some ⟨"stride_epoch", 7, 1000, 100⟩
    ∧ (ReinvestCallback (demoKeeper decodeFail (decodeAs ⟨⟨"uatom", 2 ^ 63⟩, "GAIA"⟩)) demoState
        demoPacket (some demoAck) []).2 = .panic "Int64() out of bound"
    ∧ (ReinvestCallback (demoKeeper decodeFail (decodeAs ⟨⟨"uatom", 2 ^ 63⟩, "GAIA"⟩)) demoState
        demoPacket (some demoAck) []).1.depositRecords = demoState.depositRecords := by
  refine ⟨by decide, by decide, by decide, by decide⟩

/-- C18, amended: for an acknowledgement with result data and args that deserialize
with a reinvest amount in the `int64` range: if the stride epoch tracker exists,
`ReinvestCallback` returns `nil` and the deposit records are the former ones
followed by exactly one record with the amount and denom of the args' reinvest
amount, the args' host zone id, status STAKE, source WITHDRAWAL_ICA and the
tracker's epoch number, the other stores being unchanged but for the record
count; if the tracker does not exist (whatever the amount) it returns an error
and the state is unchanged. -/
theorem ReinvestCallback_appends_record {ι : Type} (k : Keeper ι) (s : State ι)
    (packet : Packet) (data : TxMsgData) (args : Bytes) (rc : ReinvestCallbackArgs)
    (hdata : data.Data.length ≠ 0)
    (hargs : UnmarshalReinvestCallbackArgs k args = .ok rc) :
    (∀ tracker, GetEpochTracker s STRIDE_EPOCH = some tracker →
      Interchainquery.inInt64 rc.ReinvestAmount.Amount →
      (ReinvestCallback k s packet (some data) args).2 = .ret none
      ∧ (ReinvestCallback k s packet (some data) args).1.depositRecords
          = s.depositRecords ++
              [⟨s.depositRecordCount, rc.ReinvestAmount.Amount, rc.ReinvestAmount.Denom,
                rc.HostZoneId, .STAKE, .WITHDRAWAL_ICA, tracker.EpochNumber⟩]
      ∧ (ReinvestCallback k s packet (some data) args).1.hostZones = s.hostZones
      ∧ (ReinvestCallback k s packet (some data) args).1.epochTrackers = s.epochTrackers
      ∧ (ReinvestCallback k s packet (some data) args).1.callbackData = s.callbackData
      ∧ (ReinvestCallback k s packet (some data) args).1.ica = s.ica)
    ∧ (GetEpochTracker s STRIDE_EPOCH = none →
      (∃ e, (ReinvestCallback k s packet (some data) args).2 = .ret (some e))
      ∧ (ReinvestCallback k s packet (some data) args).1 = s) := by
  constructor
  · intro tracker ht hamt
    have hres : ReinvestCallback k s packet (some data) args
        = (AppendDepositRecord s
            ⟨0, rc.ReinvestAmount.Amount, rc.ReinvestAmount.Denom, rc.HostZoneId, .STAKE,
              .WITHDRAWAL_ICA, tracker.EpochNumber⟩, .ret none) := by
      simp only [ReinvestCallback, hdata, if_false, hargs, ht, hamt, if_true]
    rw [hres]
    exact ⟨rfl, rfl, rfl, rfl, rfl, rfl⟩
  · intro ht
    have hres : ReinvestCallback k s packet (some data) args
        = (s, .ret (some (.ErrInvalidLengthEpochTracker
            ("no number for epoch (" ++ STRIDE_EPOCH ++ ")")))) := by
      simp only [ReinvestCallback, hdata, if_false, hargs, ht]
    rw [hres]
    exact ⟨⟨_, rfl⟩, rfl⟩

/-- C18 amended, evaluated: reinvesting 25 uatom at epoch 7 with two records stored
appends the record with id 2. -/
theorem ReinvestCallback_appends_record_witness :
    demoAck.Data.length ≠ 0
    ∧ GetEpochTracker demoState STRIDE_EPOCH = some ⟨"stride_epoch", 7, 1000, 100⟩
    ∧ Interchainquery.inInt64 25
    ∧ (ReinvestCallback (demoKeeper decodeFail (decodeAs ⟨⟨"uatom", 25⟩, "GAIA"⟩)) demoState
        demoPacket (some demoAck) []).1.depositRecords
      = [demoRecord 0, demoRecord 1, ⟨2, 25, "uatom", "GAIA", .STAKE, .WITHDRAWAL_ICA, 7⟩] :=
  ⟨by decide, by decide, by decide,
    ((ReinvestCallback_appends_record (demoKeeper decodeFail (decodeAs ⟨⟨"uatom", 25⟩, "GAIA"⟩))
      demoState demoPacket demoAck [] ⟨⟨"uatom", 25⟩, "GAIA"⟩ (by decide) rfl).1
      ⟨"stride_epoch", 7, 1000, 100⟩ (by decide) (by decide)).2.1⟩

/-! ## The buffer of the epoch timeout -/

/-- C21: for every duration and every buffer parameter that `isPositive` admits,
that is every parameter of at least 1, the buffer `Duration / bufferSizeParam` is
at most the duration, so the timeout block of `SubmitTxsEpoch` neither returns
the "Invalid buffer size" error (nor any other) nor divides by zero: it yields a
timeout. The block panics with a division by zero exactly when the parameter is
0. -/
theorem epochTimeout_buffer_safe (epochTracker : EpochTracker) (bufferSizeParam : Nat)
    (hp : isPositive (.uint64 bufferSizeParam) = none) :
    1 ≤ bufferSizeParam
    ∧ epochTracker.Duration / bufferSizeParam ≤ epochTracker.Duration
    ∧ (∃ t, epochTimeout epochTracker bufferSizeParam = .ok t)
    ∧ (∀ e, epochTimeout epochTracker bufferSizeParam ≠ .error e)
    ∧ (∀ msg, epochTimeout epochTracker bufferSizeParam ≠ .panic msg)
    ∧ (∀ (tracker : EpochTracker) (param : Nat),
        (∃ msg, epochTimeout tracker param = .panic msg) ↔ param = 0)
    ∧ (∀ param : Nat, isPositive (.uint64 param) = none ↔ 1 ≤ param) := by
  have hpos : ∀ param : Nat, isPositive (.uint64 param) = none ↔ 1 ≤ param := by
    intro param
    by_cases h : param ≤ 0
    · simp only [isPositive, h, if_true]
      constructor
      · intro hc; exact Option.noConfusion hc
      · intro hc; omega
    · simp only [isPositive, h, if_false, true_iff]
      omega
  have h1 : 1 ≤ bufferSizeParam := (hpos bufferSizeParam).1 hp
  have h0 : bufferSizeParam ≠ 0 := by omega
  have hle : ¬ epochTracker.Duration / bufferSizeParam > epochTracker.Duration :=
    not_lt.2 (Nat.div_le_self _ _)
  have hok : epochTimeout epochTracker bufferSizeParam
      = .ok ((epochTracker.NextEpochStartTime + 2 ^ 64
          - epochTracker.Duration / bufferSizeParam) % 2 ^ 64) := by
    simp only [epochTimeout, h0, if_false, hle, ToUint64E]
  refine ⟨h1, Nat.div_le_self _ _, ⟨_, hok⟩, ?_, ?_, ?_, hpos⟩
  · intro e he
    rw [hok] at he
    exact Timeout.noConfusion he
  · intro msg he
    rw [hok] at he
    exact Timeout.noConfusion he
  · intro tracker param
    constructor
    · rintro ⟨msg, hm⟩
      by_contra hne
      have hle2 : ¬ tracker.Duration / param > tracker.Duration :=
        not_lt.2 (Nat.div_le_self _ _)
      simp only [epochTimeout, hne, if_false, hle2, ToUint64E] at hm
      exact Timeout.noConfusion hm
    · intro hz
      subst hz
      exact ⟨"runtime error: integer divide by zero", by simp [epochTimeout]⟩

/-- C21, evaluated: with duration 100 and the default buffer parameter 5 the buffer
is 20 and the block yields the timeout 980 for the next start 1000. -/
theorem epochTimeout_buffer_safe_witness :
    isPositive (.uint64 5) = none
    ∧ (100 : Nat) / 5 ≤ 100
    ∧ ∃ t, epochTimeout ⟨"stride_epoch", 7, 1000, 100⟩ 5 = .ok t :=
  ⟨by decide,
    (epochTimeout_buffer_safe ⟨"stride_epoch", 7, 1000, 100⟩ 5 (by decide)).2.1,
    (epochTimeout_buffer_safe ⟨"stride_epoch", 7, 1000, 100⟩ 5 (by decide)).2.2.1⟩

end Stakeibc

namespace Interchainquery

/-! ## Duplicate requests -/

/-- C22: when `MakeRequest` is called at height 0 for a fingerprint under which a
Query is stored (on a store that holds every record under its own id), the call
returns `nil`, the Query under the fingerprint keeps its id, connection id, chain
id, query type, request, period, callback module, callback id, ttl and height and
gets `LastHeight = 0`, whatever period, callback id and ttl the call supplies; no
other Query changes, nor does any other part of the state. -/
theorem MakeRequest_duplicate_only_last_height {α : Type} (k : Keeper α) (s : State α)
    (connection_id chain_id query_type : String) (request : Bytes) (period : Int)
    (module callback_id : String) (ttl : Nat) (q : Query) (hkeyed : KeyedById s)
    (hq : GetQuery s (k.GenerateQueryHash connection_id chain_id query_type request module 0)
      = some q) :
    (MakeRequest k s connection_id chain_id query_type request period module callback_id
        ttl 0).2 = none
    ∧ (∃ q1,
        (MakeRequest k s connection_id chain_id query_type request period module callback_id
          ttl 0).1.queries
          (k.GenerateQueryHash connection_id chain_id query_type request module 0) = some q1
        ∧ q1.LastHeight = 0
        ∧ q1.Id = q.Id
        ∧ q1.ConnectionId = q.ConnectionId
        ∧ q1.ChainId = q.ChainId
        ∧ q1.QueryType = q.QueryType
        ∧ q1.Request = q.Request
        ∧ q1.Period = q.Period
        ∧ q1.CallbackModule = q.CallbackModule
        ∧ q1.CallbackId = q.CallbackId
        ∧ q1.Ttl = q.Ttl
        ∧ q1.Height = q.Height)
    ∧ (∀ id, id ≠ k.GenerateQueryHash connection_id chain_id query_type request module 0 →
        (MakeRequest k s connection_id chain_id query_type request period module callback_id
          ttl 0).1.queries id = s.queries id)
    ∧ (MakeRequest k s connection_id chain_id query_type request period module callback_id
        ttl 0).1.datapoints = s.datapoints
    ∧ (MakeRequest k s connection_id chain_id query_type request period module callback_id
        ttl 0).1.events = s.events
    ∧ (MakeRequest k s connection_id chain_id query_type request period module callback_id
        ttl 0).1.app = s.app := by
  have hid : q.Id = k.GenerateQueryHash connection_id chain_id query_type request module 0 :=
    hkeyed _ q hq
  rw [MakeRequest_existing k s connection_id chain_id query_type request period module
    callback_id ttl q hq]
  refine ⟨rfl, ⟨{ q with LastHeight := 0 }, ?_, rfl, rfl, rfl, rfl, rfl, rfl, rfl, rfl, rfl, rfl,
    rfl⟩, ?_, rfl, rfl, rfl⟩
  · simp [SetQuery, hid]
  · intro id hne
    simp [SetQuery, hid, hne]

/-- C22, evaluated: a Query stored with period -1, ttl 0 and `LastHeight = 4` is
requested again with period 5 and ttl 9; it keeps period -1 and ttl 0 and gets
`LastHeight = 0`. -/
theorem MakeRequest_duplicate_only_last_height_witness :
    KeyedById (SetQuery emptyState ⟨demoHash "connection-0" "GAIA" "t" [] "" 0, "connection-0",
      "GAIA", "t", [], -1, 4, "", "", 0, 0⟩)
    ∧ GetQuery (SetQuery emptyState ⟨demoHash "connection-0" "GAIA" "t" [] "" 0, "connection-0",
        "GAIA", "t", [], -1, 4, "", "", 0, 0⟩)
        ((demoKeeper []).GenerateQueryHash "connection-0" "GAIA" "t" [] "" 0)
      = some ⟨demoHash "connection-0" "GAIA" "t" [] "" 0, "connection-0", "GAIA", "t", [], -1, 4,
          "", "", 0, 0⟩
    ∧ (MakeRequest (demoKeeper [])
        (SetQuery emptyState ⟨demoHash "connection-0" "GAIA" "t" [] "" 0, "connection-0",
          "GAIA", "t", [], -1, 4, "", "", 0, 0⟩)
        "connection-0" "GAIA" "t" [] 5 "" "" 9 0).2 = none
    ∧ (MakeRequest (demoKeeper [])
        (SetQuery emptyState ⟨demoHash "connection-0" "GAIA" "t" [] "" 0, "connection-0",
          "GAIA", "t", [], -1, 4, "", "", 0, 0⟩)
        "connection-0" "GAIA" "t" [] 5 "" "" 9 0).1.queries
        (demoHash "connection-0" "GAIA" "t" [] "" 0)
      = some ⟨demoHash "connection-0" "GAIA" "t" [] "" 0, "connection-0", "GAIA", "t", [], -1, 0,
          "", "", 0, 0⟩ :=
  ⟨SetQuery_keyed _ _ emptyState_keyed, rfl,
    (MakeRequest_duplicate_only_last_height (demoKeeper [])
      (SetQuery emptyState ⟨demoHash "connection-0" "GAIA" "t" [] "" 0, "connection-0",
        "GAIA", "t", [], -1, 4, "", "", 0, 0⟩)
      "connection-0" "GAIA" "t" [] 5 "" "" 9
      ⟨demoHash "connection-0" "GAIA" "t" [] "" 0, "connection-0", "GAIA", "t", [], -1, 4,
        "", "", 0, 0⟩
      (SetQuery_keyed _ _ emptyState_keyed) rfl).1,
    by decide⟩

/-! ## The index into the split query type -/

/-- C24, as the code behaves: `MakeRequest` accepts the single-segment query type
"key" and stores the Query; for a response to it with a proof, with consensus
state and client state found, the last segment is "key", there is no second
segment, and `SubmitQueryResponse` panics on `pathParts[1]`. -/
theorem SubmitQueryResponse_index_out_of_range :
    (MakeRequest (demoKeeper []) emptyState "connection-0" "GAIA" "key" [1] (-1) "" "" 0 0).2
      = none
    ∧ GetQuery
        (MakeRequest (demoKeeper []) emptyState "connection-0" "GAIA" "key" [1] (-1) "" "" 0 0).1
        (demoHash "connection-0" "GAIA" "key" [1] "" 0)
      = some (NewQuery (demoKeeper []) "" "connection-0" "GAIA" "key" [1] (-1) "" 0 0)
    ∧ Split "key" = ["key"]
    ∧ (Split "key").get? 1 = none
    ∧ demoIBC.GetClientConsensusState emptyState "07-tendermint-0" ⟨0, 11⟩ = some ⟨[1]⟩
    ∧ demoIBC.GetClientState emptyState "07-tendermint-0" = some (.tendermint [])
    ∧ (SubmitQueryResponse (demoKeeper []) ⟨42⟩
        (MakeRequest (demoKeeper []) emptyState "connection-0" "GAIA" "key" [1] (-1) "" "" 0 0).1
        ⟨demoHash "connection-0" "GAIA" "key" [1] "" 0, [7], some [], 10⟩).outcome
      = .panic "index out of range [1]" := by
  refine ⟨rfl, ?_, by decide, by decide, by decide, by decide, ?_⟩
  · decide
  · decide

/-! ## The round trip through the cache -/

theorem dispatch_no_owner {α : Type} (k : Keeper α) (ctx : Context) (q : Query)
    (msg : MsgSubmitQueryResponse)
    (hcb : ∀ m handler, k.callbacks.lookup m = some handler → handler.Has q.CallbackId = false)
    (keys : List String) :
    ∀ (s : State α) (noDelete : Bool),
      dispatch k ctx q msg keys s noDelete = ⟨s, noDelete, [], none⟩ := by
  induction keys with
  | nil => intro s noDelete; rfl
  | cons key keys ih =>
    intro s noDelete
    cases hl : k.callbacks.lookup key with
    | none => simp only [dispatch, hl, ih]
    | some handler =>
      have hh := hcb key handler hl
      simp [dispatch, hl, hh, ih]

theorem verifyProof_not_key {α : Type} (k : Keeper α) (s : State α) (q : Query)
    (msg : MsgSubmitQueryResponse) (hkey : (Split q.QueryType).getLast? ≠ some "key") :
    verifyProof k s q msg = none := by
  simp [verifyProof, hkey]

/-- C23, as stated, fails in three ways. With the empty module and `max_age = 0` the
submitted Query has ttl 0, the accepted response persists no DataPoint, and the
second call again reports "no data; query submitted". With the module "stakeibc"
and `max_age = 20` the Query is submitted under the fingerprint of the empty
module, the DataPoint is stored under that fingerprint, and the second call,
which looks under the fingerprint of "stakeibc", again reports "no data; query
submitted". With the empty module and `max_age = 2^64 - 1` the cast to `int64`
gives -1 and the DataPoint written at the current block counts as stale. -/
theorem cache_round_trip_fails :
    (SubmitQueryResponse (demoKeeper []) ⟨42⟩
        (GetDatapointOrRequest (demoKeeper []) ⟨42⟩ emptyState "" "connection-0" "GAIA"
          "store/bank/balance" [1] 0 0).1
        ⟨demoHash "connection-0" "GAIA" "store/bank/balance" [1] "" 0, [7], none, 10⟩).outcome
      = .ok
    ∧ (GetDatapointOrRequest (demoKeeper []) ⟨42⟩
        (SubmitQueryResponse (demoKeeper []) ⟨42⟩
          (GetDatapointOrRequest (demoKeeper []) ⟨42⟩ emptyState "" "connection-0" "GAIA"
            "store/bank/balance" [1] 0 0).1
          ⟨demoHash "connection-0" "GAIA" "store/bank/balance" [1] "" 0, [7], none, 10⟩).state
        "" "connection-0" "GAIA" "store/bank/balance" [1] 0 0).2.2
      = some (.Errorf "no data; query submitted")
    ∧ (SubmitQueryResponse (demoKeeper []) ⟨42⟩
        (GetDatapointOrRequest (demoKeeper []) ⟨42⟩ emptyState "stakeibc" "connection-0" "GAIA"
          "store/bank/balance" [1] 20 0).1
        ⟨demoHash "connection-0" "GAIA" "store/bank/balance" [1] "" 0, [7], none, 10⟩).outcome
      = .ok
    ∧ (SubmitQueryResponse (demoKeeper []) ⟨42⟩
        (GetDatapointOrRequest (demoKeeper []) ⟨42⟩ emptyState "stakeibc" "connection-0" "GAIA"
          "store/bank/balance" [1] 20 0).1
        ⟨demoHash "connection-0" "GAIA" "store/bank/balance" [1] "" 0, [7], none, 10⟩).state.datapoints
        (demoHash "connection-0" "GAIA" "store/bank/balance" [1] "" 0)
      = some ⟨demoHash "connection-0" "GAIA" "store/bank/balance" [1] "" 0, 10, 42, [7]⟩
    ∧ (GetDatapointOrRequest (demoKeeper []) ⟨42⟩
        (SubmitQueryResponse (demoKeeper []) ⟨42⟩
          (GetDatapointOrRequest (demoKeeper []) ⟨42⟩ emptyState "stakeibc" "connection-0" "GAIA"
            "store/bank/balance" [1] 20 0).1
          ⟨demoHash "connection-0" "GAIA" "store/bank/balance" [1] "" 0, [7], none, 10⟩).state
        "stakeibc" "connection-0" "GAIA" "store/bank/balance" [1] 20 0).2.2
      = some (.Errorf "no data; query submitted")
    ∧ ToInt64E (2 ^ 64 - 1) = -1
    ∧ (GetDatapointOrRequest (demoKeeper []) ⟨42⟩
        (SubmitQueryResponse (demoKeeper []) ⟨42⟩
          (GetDatapointOrRequest (demoKeeper []) ⟨42⟩ emptyState "" "connection-0" "GAIA"
            "store/bank/balance" [1] (2 ^ 64 - 1) 0).1
          ⟨demoHash "connection-0" "GAIA" "store/bank/balance" [1] "" 0, [7], none, 10⟩).state
        "" "connection-0" "GAIA" "store/bank/balance" [1] (2 ^ 64 - 1) 0).2.2
      = some (.Errorf "stale data; query submitted") := by
  refine ⟨by decide, by decide, by decide, by decide, by decide, by decide, by decide⟩

/-- C23, amended: for a module whose fingerprint is that of the empty module (the
empty module name itself), a query type whose last segment is not "key",
`1 ≤ max_age < 2^63`, height 0, a block height `c` with `c - max_age` in the
`int64` range, no registered handler for the empty callback id, no DataPoint under
the fingerprint and no Query stored under it: the first `GetDatapointOrRequest`
reports "no data; query submitted"; the response for the fingerprint with result
`v` is accepted at the same block height; and the second `GetDatapointOrRequest`
with the same arguments returns, without error, the DataPoint with value `v`,
the response's height as remote height and `c` as local height. -/
theorem cache_round_trip {α : Type} (k : Keeper α) (ctx : Context) (s : State α)
    (module connection_id chain_id query_type : String) (request : Bytes) (max_age : Nat)
    (v : Bytes) (proofOps : Option ProofOps) (height : Int)
    (hmod : k.GenerateQueryHash connection_id chain_id query_type request module 0
      = k.GenerateQueryHash connection_id chain_id query_type request "" 0)
    (hkey : (Split query_type).getLast? ≠ some "key")
    (hage : 1 ≤ max_age) (hage2 : max_age < 2 ^ 63)
    (hctx : inInt64 (ctx.BlockHeight - max_age))
    (hcb : ∀ m handler, k.callbacks.lookup m = some handler → handler.Has "" = false)
    (hdp : s.datapoints (k.GenerateQueryHash connection_id chain_id query_type request module 0)
      = none)
    (hq : GetQuery s (k.GenerateQueryHash connection_id chain_id query_type request "" 0)
      = none) :
    (GetDatapointOrRequest k ctx s module connection_id chain_id query_type request max_age
        0).2.2 = some (.Errorf "no data; query submitted")
    ∧ (SubmitQueryResponse k ctx
        (GetDatapointOrRequest k ctx s module connection_id chain_id query_type request max_age
          0).1
        ⟨k.GenerateQueryHash connection_id chain_id query_type request "" 0, v, proofOps,
          height⟩).outcome = .ok
    ∧ (GetDatapointOrRequest k ctx
        (SubmitQueryResponse k ctx
          (GetDatapointOrRequest k ctx s module connection_id chain_id query_type request max_age
            0).1
          ⟨k.GenerateQueryHash connection_id chain_id query_type request "" 0, v, proofOps,
            height⟩).state
        module connection_id chain_id query_type request max_age 0).2
      = (⟨k.GenerateQueryHash connection_id chain_id query_type request "" 0, height,
          ctx.BlockHeight, v⟩, none) := by
  have hfirst : GetDatapointOrRequest k ctx s module connection_id chain_id query_type request
      max_age 0
      = (SetQuery s (NewQuery k "" connection_id chain_id query_type request (-1) "" max_age 0),
          default, some (.Errorf "no data; query submitted")) := by
    simp [GetDatapointOrRequest, GetDatapoint, GetDatapointForId, hdp, MakeRequest, hq]
  rw [hfirst]
  have hget : GetQuery
      (SetQuery s (NewQuery k "" connection_id chain_id query_type request (-1) "" max_age 0))
      (k.GenerateQueryHash connection_id chain_id query_type request "" 0)
      = some (NewQuery k "" connection_id chain_id query_type request (-1) "" max_age 0) :=
    GetQuery_SetQuery_self s _
  have hv := verifyProof_not_key k
    (SetQuery s (NewQuery k "" connection_id chain_id query_type request (-1) "" max_age 0))
    (NewQuery k "" connection_id chain_id query_type request (-1) "" max_age 0)
    ⟨k.GenerateQueryHash connection_id chain_id query_type request "" 0, v, proofOps, height⟩
    hkey
  have hrun : runCallbacks k ctx
      (SetQuery s (NewQuery k "" connection_id chain_id query_type request (-1) "" max_age 0))
      (NewQuery k "" connection_id chain_id query_type request (-1) "" max_age 0)
      ⟨k.GenerateQueryHash connection_id chain_id query_type request "" 0, v, proofOps, height⟩
      = ⟨SetQuery s (NewQuery k "" connection_id chain_id query_type request (-1) "" max_age 0),
          false, [], none⟩ :=
    dispatch_no_owner k ctx _ _ hcb _ _ false
  obtain ⟨_, hnone, _⟩ := SubmitQueryResponse_verified k ctx _ _ _ hget hv
  obtain ⟨hout, hstate⟩ := hnone (by rw [hrun])
  refine ⟨rfl, hout, ?_⟩
  have hstored : (SubmitQueryResponse k ctx
      (SetQuery s (NewQuery k "" connection_id chain_id query_type request (-1) "" max_age 0))
      ⟨k.GenerateQueryHash connection_id chain_id query_type request "" 0, v, proofOps,
        height⟩).state.datapoints
      (k.GenerateQueryHash connection_id chain_id query_type request module 0)
      = some ⟨k.GenerateQueryHash connection_id chain_id query_type request "" 0, height,
          ctx.BlockHeight, v⟩ := by
    rw [hstate, retain_datapoints, hmod]
    have httl : 0 < (NewQuery k "" connection_id chain_id query_type request (-1) ""
        max_age 0).Ttl := hage
    simp [httl]
  rw [GetDatapointOrRequest_cached k ctx _ module connection_id chain_id query_type request
    max_age _ hstored, ToInt64E_of_lt max_age hage2, wrapInt64_of_inInt64 _ hctx]
  have hns : ¬ ctx.BlockHeight < ctx.BlockHeight - (max_age : Int) := by omega
  simp [hns]

/-- C23 amended, evaluated: with the empty module and `max_age = 20` at block 42 the
second call returns the value `[7]` of the accepted response. -/
theorem cache_round_trip_witness :
    (Split "store/bank/balance").getLast? ≠ some "key"
    ∧ 1 ≤ 20
    ∧ 20 < 2 ^ 63
    ∧ inInt64 ((⟨42⟩ : Context).BlockHeight - (20 : Nat))
    ∧ (GetDatapointOrRequest (demoKeeper []) ⟨42⟩
        (SubmitQueryResponse (demoKeeper []) ⟨42⟩
          (GetDatapointOrRequest (demoKeeper []) ⟨42⟩ emptyState "" "connection-0" "GAIA"
            "store/bank/balance" [1] 20 0).1
          ⟨(demoKeeper []).GenerateQueryHash "connection-0" "GAIA" "store/bank/balance" [1] "" 0,
            [7], none, 10⟩).state
        "" "connection-0" "GAIA" "store/bank/balance" [1] 20 0).2
      = (⟨(demoKeeper []).GenerateQueryHash "connection-0" "GAIA" "store/bank/balance" [1] "" 0,
          10, (⟨42⟩ : Context).BlockHeight, [7]⟩, none) :=
  ⟨by decide, by decide, by decide, by decide,
    (cache_round_trip (demoKeeper []) ⟨42⟩ emptyState "" "connection-0" "GAIA"
      "store/bank/balance" [1] 20 [7] none 10 rfl (by decide) (by decide) (by decide)
      (by decide) (fun m handler h => by simp [demoKeeper] at h) rfl rfl).2.2⟩

end Interchainquery
end Stride
